import Mathlib

/-!
Verification of the Aqua compiler back end (symbol resolution and TEAL code
generation) against its natural-language specification.

The development shallowly embeds the back end:

* `SymbolTable`, the code emitter state and the `MAX_SCRATCH` constant are
  modelled from the specification (their source files are not part of the
  repository snapshot; only their callers are).
* `internalResolveSymbols` and `resolveSymbols` embed the resolver source
  file: a children-first walk that annotates the AST and threads the current
  symbol table.
* `internalGenerateCode`, `collectFunctions`, `generateFunctionCode` and
  `generateCode` embed `code-generator.ts`.
* `SimpleGen` embeds the older stripped-down generator and the top level
  `compile` wrapper.

Recursive tree walks are defined with an explicit structural fuel parameter
(the fuel only has to exceed the tree depth; the exported wrappers pass
a size bound of the tree, which always suffices, and fuel-monotonicity
lemmas show the choice of fuel is irrelevant).

Dynamic TypeScript records are modelled as a single node type with optional
attributes; a runtime `TypeError` (dereferencing a missing attribute through
a non-null assertion) is modelled as the error `Err.typeError`.  Template
interpolation of a missing string attribute is modelled as the string
"undefined", matching JavaScript string coercion.
-/

namespace Aqua

/-- Kind of a symbol: mutable variable or constant.  Embeds `SymbolType`. -/
inductive SymbolType where
  | Variable
  | Constant
deriving DecidableEq

/-- Modelled from the spec: a symbol record
`{ name, kind, position : integer >= 1, isGlobal : bool }` (spec section 3);
the concrete `symbol-table` source file is not in the repository snapshot. -/
structure Sym where
  name : String
  type : SymbolType
  position : Nat
  isGlobal : Bool
deriving DecidableEq

/-- Modelled from the spec: a symbol table is a name-to-symbol mapping with
insertion-time slot assignment plus an optional parent pointer
(spec sections 3 and 4.1); the `symbol-table` source file is not in the
repository snapshot.  The mapping is kept as an insertion-ordered list. -/
inductive SymbolTable where
  | mk (syms : List (String × Sym)) (parent : Option SymbolTable)

/-- Lookup of a name in an insertion-ordered association list. -/
def lookupSym : List (String × Sym) → String → Option Sym
  | [], _ => none
  | (k, v) :: rest, nm => if k = nm then some v else lookupSym rest nm

/-- Modelled from the spec: `get` returns the binding from the nearest
enclosing table containing the name, walking the parent chain. -/
def SymbolTable.get : SymbolTable → String → Option Sym
  | .mk syms parent, nm =>
    match lookupSym syms nm with
    | some s => some s
    | none =>
      match parent with
      | some p => p.get nm
      | none => none

/-- Modelled from the spec: `isDefinedLocally` is true iff the name is
present in this table, ignoring parents. -/
def SymbolTable.isDefinedLocally : SymbolTable → String → Bool
  | .mk syms _, nm => (lookupSym syms nm).isSome

/-- Modelled from the spec: `getNumSymbols` returns the current count of
locally defined symbols. -/
def SymbolTable.getNumSymbols : SymbolTable → Nat
  | .mk syms _ => syms.length

/-- Modelled from the spec: `define` assigns `position = current_count + 1`,
marks the symbol global iff the table has no parent, stores the record in
insertion order and returns it. -/
def SymbolTable.define : SymbolTable → String → SymbolType → (Sym × SymbolTable)
  | .mk syms parent, nm, kind =>
    let s : Sym := ⟨nm, kind, syms.length + 1, parent.isNone⟩
    (s, .mk (syms ++ [(nm, s)]) parent)

/-- Attribute set of an AST node, excluding the recursive attributes.
Embeds the dynamic record fields read by the resolver and the generator.
The `controlStatementId` annotation is written by the generator's if/while
visitors but never read back (each visitor uses the value it just minted),
so it is not tracked. -/
structure NodeData where
  nodeType : String
  name : Option String := none
  params : Option (List String) := none
  value : Option String := none
  opcode : Option String := none
  args : Option (List String) := none
  numItemsAdded : Option Int := none
  numItemsRemoved : Option Int := none
  symbol : Option Sym := none
  symbols : Option (List Sym) := none
  scope : Option SymbolTable := none

/-- AST node: a tagged record (`data`) together with the generically visited
`children` and the named recursive substructures (`body`, `ifBlock`,
`elseBlock`, `initializer`, `assignee`, `functionArgs`). -/
inductive ASTNode where
  | node (data : NodeData) (children : List ASTNode)
      (body ifBlock elseBlock initializer assignee : Option ASTNode)
      (functionArgs : Option (List ASTNode))

/-- Attribute record of a node. -/
def ASTNode.data : ASTNode → NodeData
  | .node d _ _ _ _ _ _ _ => d

/-- Generic children of a node. -/
def ASTNode.children : ASTNode → List ASTNode
  | .node _ cs _ _ _ _ _ _ => cs

/-- Body substructure of a node. -/
def ASTNode.body : ASTNode → Option ASTNode
  | .node _ _ b _ _ _ _ _ => b

/-- Params attribute of a node. -/
def ASTNode.params : ASTNode → Option (List String)
  | .node d _ _ _ _ _ _ _ => d.params

/-- Discriminator of a node. -/
def ASTNode.nodeType : ASTNode → String
  | .node d _ _ _ _ _ _ _ => d.nodeType

/-- If-branch substructure of a node. -/
def ASTNode.ifBlock : ASTNode → Option ASTNode
  | .node _ _ _ i _ _ _ _ => i

/-- Else-branch substructure of a node. -/
def ASTNode.elseBlock : ASTNode → Option ASTNode
  | .node _ _ _ _ e _ _ _ => e

/-- Initializer substructure of a node. -/
def ASTNode.initializer : ASTNode → Option ASTNode
  | .node _ _ _ _ _ i _ _ => i

/-- Assignee substructure of a node. -/
def ASTNode.assignee : ASTNode → Option ASTNode
  | .node _ _ _ _ _ _ a _ => a

/-- Call-argument substructures of a node. -/
def ASTNode.functionArgs : ASTNode → Option (List ASTNode)
  | .node _ _ _ _ _ _ _ f => f

/-- Singular symbol annotation of a node. -/
def ASTNode.symbol : ASTNode → Option Sym
  | .node d _ _ _ _ _ _ _ => d.symbol

/-- Plural symbols annotation of a node. -/
def ASTNode.symbols : ASTNode → Option (List Sym)
  | .node d _ _ _ _ _ _ _ => d.symbols

mutual

/-- Size of a tree: one per node, counting children and all named
substructures.  Used as the fuel bound of the tree walks. -/
def sizeN : ASTNode → Nat
  | .node _ cs body ifb elseb init asg fargs =>
    sizeL cs + sizeO body + sizeO ifb + sizeO elseb + sizeO init + sizeO asg +
      (match fargs with | some l => sizeL l + 1 | none => 0) + 1

/-- Total size of a list of trees. -/
def sizeL : List ASTNode → Nat
  | [] => 0
  | x :: xs => sizeN x + sizeL xs

/-- Size of an optional tree. -/
def sizeO : Option ASTNode → Nat
  | none => 0
  | some x => sizeN x + 1

end

/-- Rendering of an optional string attribute inside a template literal:
a missing attribute renders as the string "undefined" (JavaScript coercion). -/
def strOpt (o : Option String) : String := o.getD ("undefined")

/-- Name of a node as used in emitted labels. -/
def ASTNode.getName (nd : ASTNode) : String := strOpt nd.data.name

/-- Error kinds raised by the back end.  Each constructor corresponds to one
`throw new Error(...)` site (or, for `typeError`, to a runtime TypeError from
dereferencing a missing attribute). -/
inductive Err where
  | duplicateDefinition (name : String)
  | undeclaredName (name : String)
  | notAnLvalue
  | assignToConstant (name : String)
  | noAssignmentTarget
  | typeError
  | stackUnderflow
  | unknownNodeType (t : String)
  | unexpectedStatementType (t : String)
deriving DecidableEq

/-! ## Symbol resolution (embeds the resolver source file) -/

/-- Children-first traversal of a node list, threading the current table:
resolve each node in order with the given node resolver. -/
def resolveSeq (f : ASTNode → SymbolTable → Except Err (ASTNode × SymbolTable)) :
    List ASTNode → SymbolTable → Except Err (List ASTNode × SymbolTable)
  | [], tbl => .ok ([], tbl)
  | x :: xs, tbl =>
    match f x tbl with
    | .error e => .error e
    | .ok (x', t1) =>
      match resolveSeq f xs t1 with
      | .error e => .error e
      | .ok (xs', t2) => .ok (x' :: xs', t2)

/-- Per-nodeType handler of the resolver (the `nodeHandlers` table), run
after the generic children walk with the resolved children `cs'` and the
current table `t1`. -/
def resolveHandler (rec : ASTNode → SymbolTable → Except Err (ASTNode × SymbolTable))
    (nd : ASTNode) (cs' : List ASTNode) (t1 : SymbolTable) :
    Except Err (ASTNode × SymbolTable) :=
  if nd.data.nodeType = "function-declaration" then
    match nd.body with
    | none => .error .typeError
    | some b =>
      match rec b (.mk [] (some t1)) with
      | .error e => .error e
      | .ok (b', localTbl) =>
        .ok (.node { nd.data with scope := some localTbl } cs' (some b') nd.ifBlock nd.elseBlock
              nd.initializer nd.assignee nd.functionArgs, t1)
  else if nd.data.nodeType = "declare-variable" then
    if t1.isDefinedLocally (strOpt nd.data.name) then
      .error (.duplicateDefinition (strOpt nd.data.name))
    else
      let ds := t1.define (strOpt nd.data.name) .Variable
      .ok (.node { nd.data with symbol := some ds.1 } cs' nd.body nd.ifBlock nd.elseBlock
            nd.initializer nd.assignee nd.functionArgs, ds.2)
  else if nd.data.nodeType = "declare-constant" then
    if t1.isDefinedLocally (strOpt nd.data.name) then
      .error (.duplicateDefinition (strOpt nd.data.name))
    else
      let ds := t1.define (strOpt nd.data.name) .Constant
      .ok (.node { nd.data with symbol := some ds.1 } cs' nd.body nd.ifBlock nd.elseBlock
            nd.initializer nd.assignee nd.functionArgs, ds.2)
  else if nd.data.nodeType = "access-variable" then
    match t1.get (strOpt nd.data.name) with
    | none => .error (.undeclaredName (strOpt nd.data.name))
    | some s =>
      .ok (.node { nd.data with symbol := some s } cs' nd.body nd.ifBlock nd.elseBlock
            nd.initializer nd.assignee nd.functionArgs, t1)
  else if nd.data.nodeType = "assignment-statement" then
    match nd.assignee with
    | none => .error .typeError
    | some a =>
      if a.nodeType ≠ "access-variable" then .error .notAnLvalue
      else
        match t1.get (strOpt a.data.name) with
        | none => .error (.undeclaredName (strOpt a.data.name))
        | some s =>
          if s.type ≠ .Variable then .error (.assignToConstant s.name)
          else
            .ok (.node { nd.data with symbol := some s } cs' nd.body nd.ifBlock nd.elseBlock
                  nd.initializer nd.assignee nd.functionArgs, t1)
  else if nd.data.nodeType = "if-statement" then
    match nd.ifBlock with
    | none => .error .typeError
    | some ib =>
      match rec ib t1 with
      | .error e => .error e
      | .ok (ib', t2) =>
        match nd.elseBlock with
        | none =>
          .ok (.node nd.data cs' nd.body (some ib') none nd.initializer nd.assignee nd.functionArgs, t2)
        | some eb =>
          match rec eb t2 with
          | .error e => .error e
          | .ok (eb', t3) =>
            .ok (.node nd.data cs' nd.body (some ib') (some eb') nd.initializer nd.assignee
                  nd.functionArgs, t3)
  else
    .ok (.node nd.data cs' nd.body nd.ifBlock nd.elseBlock nd.initializer nd.assignee
          nd.functionArgs, t1)

/-- Embeds the body of `SymbolResolution.internalResolveSymbols`: resolve
the generic children first (through the callback `rec`, which performs the
recursion), then run the per-nodeType handler.  Handlers that descend into
named substructures (`function-declaration.body`,
`if-statement.ifBlock/elseBlock`) perform the descent themselves, exactly as
in the source. -/
def resolveBody (rec : ASTNode → SymbolTable → Except Err (ASTNode × SymbolTable))
    (nd : ASTNode) (tbl : SymbolTable) : Except Err (ASTNode × SymbolTable) :=
  match resolveSeq rec nd.children tbl with
  | .error e => .error e
  | .ok (cs', t1) => resolveHandler rec nd cs' t1

/-- Fuel-indexed resolution: one unit of fuel per tree level.  The fuel-zero
case is never reached when the fuel exceeds the tree depth. -/
def resolveF : Nat → ASTNode → SymbolTable → Except Err (ASTNode × SymbolTable)
  | 0, _, _ => .error .typeError
  | fuel + 1, nd, tbl => resolveBody (resolveF fuel) nd tbl

/-- Entry point of the per-node resolution: the fuel `sizeN nd + 1` always
exceeds the tree depth. -/
def internalResolveSymbols (nd : ASTNode) : SymbolTable → Except Err (ASTNode × SymbolTable) :=
  resolveF (sizeN nd + 1) nd

/-- Embeds `SymbolResolution.resolveSymbols`: resolve from a fresh global
(parentless) table and return the annotated AST. -/
def resolveSymbols (ast : ASTNode) : Except Err ASTNode :=
  (internalResolveSymbols ast (.mk [] none)).map (fun r => r.1)

/-! ## Code emitter (modelled from the spec) -/

/-- Kind of an output line: an instruction, a label definition, or a cosmetic
separator (blank line or comment line).  Modelled from the spec
(sections 4.3 and 6): the emitter appends instruction lines, label lines and
purely cosmetic section separators; the concrete `code-emitter` source file
is not in the repository snapshot.  Inline comments attached to instructions
are cosmetic and are not tracked. -/
inductive Line where
  | instr (text : String)
  | lab (name : String)
  | blank
  | comment (text : String)
deriving DecidableEq

/-- Generator and emitter state: the emitted lines in order, the logical
compute-stack depth, the control-statement id counter, and the
function-context fields of `CodeGenerator`. -/
structure GenSt where
  lines : List Line
  depth : Int
  controlId : Nat
  inFunction : Bool
  curFunction : Option ASTNode

/-- Initial state: no output, depth zero, control id zero, global context. -/
def initState : GenSt := ⟨[], 0, 0, false, none⟩

/-- Shape of a generator computation: a state transformer that can fail. -/
def M := GenSt → Except Err GenSt

/-- Sequencing of two generator computations; errors abort. -/
def mseq (f g : M) : M := fun st =>
  match f st with
  | .error e => .error e
  | .ok st1 => g st1

/-- Computation that does nothing. -/
def mId : M := fun st => .ok st

/-- Computation that fails with a runtime type error. -/
def mFail : M := fun _ => .error .typeError

/-- Modelled from the spec: `add` validates that the logical depth covers
the items the instruction pops (flagging the violation as a stack
underflow), appends one instruction line and updates the depth by
`pushed - popped`. -/
def emAdd (text : String) (pushed popped : Int) : M := fun st =>
  if st.depth < popped then .error .stackUnderflow
  else .ok { st with lines := st.lines ++ [.instr text], depth := st.depth + pushed - popped }

/-- Modelled from the spec: `label` appends a label definition line. -/
def emLabel (name : String) : M := fun st =>
  .ok { st with lines := st.lines ++ [.lab name] }

/-- Modelled from the spec: `section` appends a blank separator line and,
when a title is given, a section header comment line; purely cosmetic. -/
def emSection (title : Option String) : M := fun st =>
  .ok { st with lines := st.lines ++ .blank :: (match title with | some t => [.comment t] | none => []) }

/-- Modelled from the spec: `resetStack` sets the logical depth to zero. -/
def emResetStack : M := fun st => .ok { st with depth := 0 }

/-- Modelled from the spec: `popAll` emits one single-item `pop` instruction
per leftover logical stack entry and drains the depth to zero. -/
def emPopAll : M := fun st =>
  .ok { st with lines := st.lines ++ List.replicate st.depth.toNat (.instr ("pop")), depth := 0 }

/-! ## Code generation (embeds `code-generator.ts`) -/

/-- Modelled from the spec: `MAX_SCRATCH` is an integer configuration
constant provided by the external config (the maximum scratch index); its
source file is not in the repository snapshot and its value is not fixed by
the spec, so a representative value is used.  No theorem depends on it. -/
def MAX_SCRATCH : Nat := 255

/-- Decimal digit characters of a natural number, most significant first;
the first argument is structural-recursion fuel. -/
def decChars : Nat → Nat → List Char
  | 0, _ => []
  | fuel + 1, n =>
    if n < 10 then [Nat.digitChar n]
    else decChars fuel (n / 10) ++ [Nat.digitChar (n % 10)]

/-- Decimal rendering of a natural number, as produced by JavaScript template
interpolation of an integer. -/
def natStr (n : Nat) : String := ⟨decChars (n + 1) n⟩

/-- Label text `else_<k>`. -/
def elseLab (k : Nat) : String := "else_" ++ natStr k

/-- Label text `end_<k>`. -/
def endLab (k : Nat) : String := "end_" ++ natStr k

/-- Label text `loop_start_<k>`. -/
def loopStartLab (k : Nat) : String := "loop_start_" ++ natStr k

/-- Label text `loop_end_<k>`. -/
def loopEndLab (k : Nat) : String := "loop_end_" ++ natStr k

/-- Removes the first and last character of a string; embeds `unquote`. -/
def unquote (input : String) : String := (input.drop 1).dropRight 1

/-- Names recognised as builtin functions, from the builtins lookup table. -/
def isBuiltin (nm : String) : Bool :=
  nm = "appGlobalPut" || nm = "appGlobalGet" || nm = "appGlobalDel" ||
  nm = "appLocalPut" || nm = "appLocalGet" || nm = "appLocalDel" ||
  nm = "btoi" || nm = "itob" || nm = "exit" ||
  nm = "itxn_begin" || nm = "itxn_field" || nm = "itxn_submit"

/-- Instruction text emitted for an `operation` node: the opcode, followed by
the space-joined `args` when present. -/
def opText (d : NodeData) : String :=
  match d.args with
  | none => strOpt d.opcode
  | some as => strOpt d.opcode ++ " " ++ String.intercalate (" ") as

/-- Store sequence of the assignment visitor for one target symbol: for a
global symbol `dup` then `store <position>`; for a local symbol
`int <position>`, `load 0`, `+`, `dig 1`, `stores`. -/
def assignSeq (s : Sym) : M :=
  if s.isGlobal then
    mseq (emAdd ("dup") 1 0) (emAdd ("store " ++ natStr s.position) 0 1)
  else
    mseq (emAdd ("int " ++ natStr s.position) 1 0)
      (mseq (emAdd ("load 0") 1 0)
        (mseq (emAdd ("+") 2 1)
          (mseq (emAdd ("dig 1") 1 0) (emAdd ("stores") 0 2))))

/-- Store sequences for a list of target symbols, in list order. -/
def assignList : List Sym → M
  | [] => mId
  | s :: rest => mseq (assignSeq s) (assignList rest)

/-- Sequential code generation over a list of nodes with a given per-node
generator. -/
def genSeq (f : ASTNode → M) : List ASTNode → M
  | [] => mId
  | x :: xs => mseq (f x) (genSeq f xs)

/-- Embeds the body of `CodeGenerator.internalGenerateCode` together with
the inlined visitor table: run the visitor's pre hook, generate the generic
children (through the callback `rec`, which performs the recursion), then
run the post hook.  Node types without a visitor only walk their children.
The builtins lookup table is inlined in the `function-call` case. -/
def genBody (rec : ASTNode → M) (nd : ASTNode) : M :=
  if nd.data.nodeType = "number" then
      mseq (genSeq rec nd.children) (emAdd ("int " ++ strOpt nd.data.value) 1 0)
    else if nd.data.nodeType = "string-literal" then
      mseq (genSeq rec nd.children) (emAdd ("byte \"" ++ strOpt nd.data.value ++ "\"") 1 0)
    else if nd.data.nodeType = "operation" then
      mseq (genSeq rec nd.children)
        (emAdd (opText nd.data) (nd.data.numItemsAdded.getD 1) (nd.data.numItemsRemoved.getD 2))
    else if nd.data.nodeType = "expr-statement" then
      mseq emResetStack (mseq (genSeq rec nd.children) emPopAll)
    else if nd.data.nodeType = "return-statement" then
      mseq emResetStack
        (mseq (genSeq rec nd.children)
          (fun st =>
            if st.inFunction then
              match st.curFunction with
              | some f => emAdd ("b " ++ f.getName ++ "-cleanup") 0 0 st
              | none => .error .typeError
            else emAdd ("return") 0 0 st))
    else if nd.data.nodeType = "declare-variable" then
      mseq emResetStack
        (mseq (genSeq rec nd.children)
          (mseq (match nd.initializer with | some i => rec i | none => mId) emPopAll))
    else if nd.data.nodeType = "access-variable" then
      mseq (genSeq rec nd.children)
        (match nd.data.symbol with
         | none => mFail
         | some s =>
           if s.isGlobal then emAdd ("load " ++ natStr s.position) 1 0
           else
             mseq (emAdd ("load 0") 1 0)
               (mseq (emAdd ("int " ++ natStr s.position) 1 0)
                 (mseq (emAdd ("+") 2 1) (emAdd ("loads") 1 1))))
    else if nd.data.nodeType = "assignment-statement" then
      mseq (genSeq rec nd.children)
        (match nd.data.symbol with
         | some s => assignSeq s
         | none =>
           match nd.data.symbols with
           | some l => assignList l.reverse
           | none => fun _ => .error .noAssignmentTarget)
    else if nd.data.nodeType = "if-statement" then
      mseq (genSeq rec nd.children)
        (fun st =>
          let k := st.controlId + 1
          (mseq (emAdd ("bz " ++ elseLab k) 0 1)
            (mseq (match nd.ifBlock with | some b => rec b | none => mFail)
              (mseq (emAdd ("b " ++ endLab k) 0 0)
                (mseq (emLabel (elseLab k))
                  (mseq (match nd.elseBlock with | some e => rec e | none => mId)
                    (emLabel (endLab k)))))))
            { st with controlId := k })
    else if nd.data.nodeType = "while-statement" then
      fun st =>
        let k := st.controlId + 1
        (mseq (emLabel (loopStartLab k))
          (mseq (genSeq rec nd.children)
            (mseq (emAdd ("bz " ++ loopEndLab k) 0 (if nd.children.length > 0 then 1 else 0))
              (mseq (match nd.body with | some b => rec b | none => mFail)
                (mseq (emAdd ("b " ++ loopStartLab k) 0 0) (emLabel (loopEndLab k)))))))
          { st with controlId := k }
    else if nd.data.nodeType = "function-call" then
      mseq
        (if isBuiltin (strOpt nd.data.name) then mId
         else match nd.functionArgs with | some l => genSeq rec l | none => mId)
        (mseq (genSeq rec nd.children)
          (if strOpt nd.data.name = "appGlobalPut" then
            mseq (match nd.functionArgs with | some l => genSeq rec l | none => mId)
              (mseq (emAdd ("app_global_put") 0 2) (emAdd ("int 0") 1 0))
          else if strOpt nd.data.name = "appGlobalGet" then
            mseq (match nd.functionArgs with | some l => genSeq rec l | none => mId)
              (emAdd ("app_global_get") 1 1)
          else if strOpt nd.data.name = "appGlobalDel" then
            mseq (match nd.functionArgs with | some l => genSeq rec l | none => mId)
              (mseq (emAdd ("app_global_del") 0 1) (emAdd ("int 0") 1 0))
          else if strOpt nd.data.name = "appLocalPut" then
            mseq (match nd.functionArgs with | some l => genSeq rec l | none => mId)
              (mseq (emAdd ("app_local_put") 0 2) (emAdd ("int 0") 1 0))
          else if strOpt nd.data.name = "appLocalGet" then
            mseq (match nd.functionArgs with | some l => genSeq rec l | none => mId)
              (emAdd ("app_local_get") 1 2)
          else if strOpt nd.data.name = "appLocalDel" then
            mseq (match nd.functionArgs with | some l => genSeq rec l | none => mId)
              (mseq (emAdd ("app_local_del") 0 2) (emAdd ("int 0") 1 0))
          else if strOpt nd.data.name = "btoi" then
            mseq (match nd.functionArgs with | some l => genSeq rec l | none => mId)
              (emAdd ("btoi") 1 1)
          else if strOpt nd.data.name = "itob" then
            mseq (match nd.functionArgs with | some l => genSeq rec l | none => mId)
              (emAdd ("itob") 1 1)
          else if strOpt nd.data.name = "exit" then
            mseq (match nd.functionArgs with | some l => genSeq rec l | none => mId)
              (emAdd ("return") 0 0)
          else if strOpt nd.data.name = "itxn_begin" then
            mseq (emAdd ("itxn_begin") 0 0) (emAdd ("int 0") 1 0)
          else if strOpt nd.data.name = "itxn_field" then
            match nd.functionArgs with
            | some (a :: _) =>
              (match a.data.value with
               | some v => emAdd ("itxn_field " ++ unquote v) 0 1
               | none => mFail)
            | _ => mFail
          else if strOpt nd.data.name = "itxn_submit" then
            mseq (emAdd ("itxn_submit") 0 0) (emAdd ("int 0") 1 0)
          else
            emAdd ("callsub " ++ strOpt nd.data.name) 1
              ((match nd.functionArgs with | some l => (l.length : Int) | none => 0))))
    else
      genSeq rec nd.children

/-- Fuel-indexed code generation: one unit of fuel per tree level.  The
fuel-zero case is never reached when the fuel exceeds the tree depth. -/
def genF : Nat → ASTNode → M
  | 0, _ => mFail
  | fuel + 1, nd => genBody (genF fuel) nd

/-- Entry point of the globals-pass walk: the fuel `sizeN nd + 1` always
exceeds the tree depth. -/
def internalGenerateCode (nd : ASTNode) : M := genF (sizeN nd + 1) nd

mutual

/-- Embeds `CodeGenerator.collectFunctions`: walk the generic children, then
append the node itself when it is a function declaration. -/
def collectFunctions : ASTNode → List ASTNode
  | nd@(.node d cs _ _ _ _ _ _) =>
    collectFunctionsL cs ++ (if d.nodeType = "function-declaration" then [nd] else [])

/-- Collection over a list of trees, in order. -/
def collectFunctionsL : List ASTNode → List ASTNode
  | [] => []
  | x :: xs => collectFunctions x ++ collectFunctionsL xs

end

/-- Store sequence emitted for one function parameter: `int <position>`,
`load 0`, `+`, `stores`, with the position looked up in the function scope.
A missing symbol is a runtime type error, as in the source. -/
def paramStore (scope : SymbolTable) (p : String) : M :=
  match scope.get p with
  | none => mFail
  | some sym =>
    mseq (emAdd ("int " ++ natStr sym.position) 1 0)
      (mseq (emAdd ("load 0") 1 0)
        (mseq (emAdd ("+") 2 1) (emAdd ("stores") 0 2)))

/-- Store sequences for a list of parameters, in list order. -/
def paramStores (scope : SymbolTable) : List String → M
  | [] => mId
  | p :: rest => mseq (paramStore scope p) (paramStores scope rest)

/-- Function-entry emission of `generateFunctionCode`: the entry label, the
saved stack pointer, and the stack-frame allocation and bookkeeping. -/
def funcSetup (nd : ASTNode) : M :=
  mseq (emLabel nd.getName)
    (mseq (emSection (some ("Function setup.")))
      (mseq (emAdd ("load 0") 1 0)
        (mseq (emSection (some ("Allocate stack frame for the function being called and update the stack_pointer.")))
          (mseq (emSection (some ("stack_pointer = stack_pointer - (num_locals+1)")))
            (mseq (emAdd ("load 0") 1 0)
              (mseq
                (match nd.data.scope with
                 | none => mFail
                 | some sc => emAdd ("int " ++ natStr (sc.getNumSymbols + 1)) 1 0)
                (mseq (emAdd ("-") 2 1)
                  (mseq (emAdd ("store 0") 0 1)
                    (mseq (emAdd ("load 0") 1 0)
                      (mseq (emAdd ("swap") 2 2)
                        (mseq (emAdd ("stores") 0 2) (emSection none))))))))))))

/-- Parameter emission of `generateFunctionCode`: for each parameter of the
reversed parameter list, the store sequence addressed through the function
scope. -/
def funcParams (nd : ASTNode) : M :=
  match nd.data.params with
  | none => mId
  | some ps =>
    match nd.data.scope with
    | none => mFail
    | some sc => mseq (emSection (some ("Setup arguments."))) (paramStores sc ps.reverse)

/-- Body and epilogue emission of `generateFunctionCode`: the body walk,
the cleanup label, the stack-pointer restore and the catch-all return. -/
def funcRest (fuel : Nat) (nd : ASTNode) : M :=
  mseq (emSection (some ("Function body.")))
    (mseq (match nd.body with | some b => genF fuel b | none => mFail)
      (mseq (emLabel (nd.getName ++ "-cleanup"))
        (mseq (emAdd ("load 0") 1 0)
          (mseq (emAdd ("loads") 1 1)
            (mseq (emAdd ("store 0") 0 1) (emAdd ("retsub") 0 0))))))

/-- Embeds `CodeGenerator.generateFunctionCode` (fuel-indexed for the body
walk).  Sets the current function, then emits the setup, the reversed
parameter stores, the body and the epilogue.  The source reverses
`functionNode.params` in place before iterating it, so the function returns
the mutated node alongside the new state. -/
def generateFunctionCodeF (fuel : Nat) (nd : ASTNode) (st0 : GenSt) :
    Except Err (ASTNode × GenSt) :=
  match mseq (funcSetup nd) (mseq (funcParams nd) (funcRest fuel nd))
      { st0 with curFunction := some nd } with
  | .error e => .error e
  | .ok st' =>
    .ok (.node { nd.data with params := (nd.data.params.map (fun ps => ps.reverse)) }
          nd.children nd.body nd.ifBlock nd.elseBlock nd.initializer nd.assignee
          nd.functionArgs, st')

/-- Entry point for lowering one function: the fuel `sizeN nd + 1` always
exceeds the depth of the function body. -/
def generateFunctionCode (nd : ASTNode) : GenSt → Except Err (ASTNode × GenSt) :=
  generateFunctionCodeF (sizeN nd + 1) nd

/-- Second pass of `generateCode`: lower each collected function in
collection order with the given per-function generator, returning the
mutated nodes. -/
def runFuncSeq (g : ASTNode → GenSt → Except Err (ASTNode × GenSt)) :
    List ASTNode → GenSt → Except Err (List ASTNode × GenSt)
  | [], st => .ok ([], st)
  | f :: fs, st =>
    match g f st with
    | .error e => .error e
    | .ok (f', st1) =>
      match runFuncSeq g fs st1 with
      | .error e => .error e
      | .ok (fs', st2) => .ok (f' :: fs', st2)

/-- Stack-pointer bootstrap emitted when the program declares functions. -/
def bootstrapM : M :=
  mseq (emSection (some ("Function data stack setup.")))
    (mseq (emAdd ("int " ++ natStr MAX_SCRATCH) 1 0)
      (mseq (emAdd ("store 0") 0 1) (emSection none)))

/-- Tail of `generateCode` when functions exist: the `b program_end` branch,
the collected functions in collection order (in function context), and the
`program_end` label. -/
def genSecondPass (fuel : Nat) (fns : List ASTNode) (st1 : GenSt) :
    Except Err (List ASTNode × GenSt) :=
  match emAdd ("b program_end") 0 0 st1 with
  | .error e => .error e
  | .ok st2 =>
    match runFuncSeq (generateFunctionCodeF fuel) fns { st2 with inFunction := true } with
    | .error e => .error e
    | .ok (fns', st3) =>
      match mseq (emSection none) (emLabel ("program_end")) st3 with
      | .error e => .error e
      | .ok st4 => .ok (fns', st4)

/-- Embeds `CodeGenerator.generateCode` (fuel-indexed): collect the
functions, emit the stack-pointer bootstrap when any function exists, run
the globals pass from the root, then emit the second pass.  Returns the
list of (mutated) function nodes held by the generator after the run. -/
def generateCodeF (fuel : Nat) (ast : ASTNode) (st0 : GenSt) :
    Except Err (List ASTNode × GenSt) :=
  match mseq (if (collectFunctions ast).length > 0 then bootstrapM else mId) (genF fuel ast)
      { st0 with inFunction := false, curFunction := none } with
  | .error e => .error e
  | .ok st1 =>
    if (collectFunctions ast).length > 0 then genSecondPass fuel (collectFunctions ast) st1
    else .ok ([], st1)

/-- Entry point of code generation: the fuel `sizeN ast + 1` always exceeds
the tree depth. -/
def generateCode (ast : ASTNode) : GenSt → Except Err (List ASTNode × GenSt) :=
  generateCodeF (sizeN ast + 1) ast

/-! ## Auxiliary definitions used by the claim statements -/

mutual

/-- Erasure of function bodies: replace the `body` attribute of every
`function-declaration` node, anywhere in the tree, by `none`.  All other
structure is kept. -/
def eraseBodies : ASTNode → ASTNode
  | .node d cs body ifb elseb init asg fargs =>
    .node d (eraseBodiesL cs)
      (if d.nodeType = "function-declaration" then none else eraseBodiesO body)
      (eraseBodiesO ifb) (eraseBodiesO elseb) (eraseBodiesO init) (eraseBodiesO asg)
      (match fargs with | some l => some (eraseBodiesL l) | none => none)

/-- Erasure over a list of trees. -/
def eraseBodiesL : List ASTNode → List ASTNode
  | [] => []
  | x :: xs => eraseBodies x :: eraseBodiesL xs

/-- Erasure over an optional tree. -/
def eraseBodiesO : Option ASTNode → Option ASTNode
  | none => none
  | some x => some (eraseBodies x)

end

mutual

/-- Children-reachable nodes of the tree in post-order (a node's children
first, then the node itself); named substructures are not entered.  This is
the traversal order of `collectFunctions`. -/
def postorderNodes : ASTNode → List ASTNode
  | nd@(.node _ cs _ _ _ _ _ _) => postorderL cs ++ [nd]

/-- Post-order listing over a list of trees. -/
def postorderL : List ASTNode → List ASTNode
  | [] => []
  | x :: xs => postorderNodes x ++ postorderL xs

end

mutual

/-- Whether the tree contains a `function-declaration` node anywhere,
including inside named substructures. -/
def containsFdecl : ASTNode → Bool
  | .node d cs body ifb elseb init asg fargs =>
    d.nodeType = "function-declaration" || containsFdeclL cs ||
    containsFdeclO body || containsFdeclO ifb || containsFdeclO elseb ||
    containsFdeclO init || containsFdeclO asg ||
    (match fargs with | some l => containsFdeclL l | none => false)

/-- Containment over a list of trees. -/
def containsFdeclL : List ASTNode → Bool
  | [] => false
  | x :: xs => containsFdecl x || containsFdeclL xs

/-- Containment over an optional tree. -/
def containsFdeclO : Option ASTNode → Bool
  | none => false
  | some x => containsFdecl x

end

mutual

/-- Whether no node of the tree, anywhere, carries a plural `symbols`
annotation. -/
def noSymbols : ASTNode → Bool
  | .node d cs body ifb elseb init asg fargs =>
    d.symbols.isNone && noSymbolsL cs &&
    noSymbolsO body && noSymbolsO ifb && noSymbolsO elseb &&
    noSymbolsO init && noSymbolsO asg &&
    (match fargs with | some l => noSymbolsL l | none => true)

/-- Absence of plural annotations over a list of trees. -/
def noSymbolsL : List ASTNode → Bool
  | [] => true
  | x :: xs => noSymbols x && noSymbolsL xs

/-- Absence of plural annotations over an optional tree. -/
def noSymbolsO : Option ASTNode → Bool
  | none => true
  | some x => noSymbols x

end

/-- Lines emitted by the assignment visitor for one target symbol. -/
def assignLines (s : Sym) : List Line :=
  if s.isGlobal then
    [.instr ("dup"), .instr ("store " ++ natStr s.position)]
  else
    [.instr ("int " ++ natStr s.position), .instr ("load 0"), .instr ("+"),
     .instr ("dig 1"), .instr ("stores")]

/-- Declared logical-depth change of the store sequence for one target
symbol.  The source declares `+` at these sites as pushing two and popping
one, so the local sequence raises the logical counter by two. -/
def assignDepth (s : Sym) : Int := if s.isGlobal then 0 else 2

/-- Net compute-stack effect of an emitted instruction under the target VM's
actual semantics, for the instruction forms used by the store sequences:
`dup`, `dig`, `int`, `load` push one; `+` pops two and pushes one; `store`
pops one; `stores` pops two.  Other lines are neutral. -/
def tealEffect (l : Line) : Int :=
  match l with
  | .instr t =>
    if t.data.take 4 = ['i', 'n', 't', ' '] then 1
    else if t.data.take 6 = ['s', 't', 'o', 'r', 'e', ' '] then -1
    else if t = "stores" then -2
    else if t = "dup" || t = "dig 1" || t = "load 0" then 1
    else if t = "+" then -1
    else 0
  | _ => 0

/-- Net compute-stack effect of a sequence of emitted lines under the target
VM's actual semantics. -/
def netEffect (ls : List Line) : Int := (ls.map tealEffect).sum

/-- Projection keeping only instruction and label lines, discarding the
purely cosmetic blank and comment separator lines. -/
def codeLines (ls : List Line) : List Line :=
  ls.filter (fun l => match l with | .instr _ => true | .lab _ => true | .blank => false | .comment _ => false)

/-- Lines of a generator run, for stating concrete evaluations; an error run
yields the empty list. -/
def linesOf (r : Except Err (List ASTNode × GenSt)) : List Line :=
  match r with
  | .ok p => p.2.lines
  | .error _ => []

/-- Error of a computation, when it failed. -/
def errOf {α : Type} (r : Except Err α) : Option Err :=
  match r with
  | .ok _ => none
  | .error e => some e

/-- Lines emitted by the parameter-store sequence for one parameter whose
symbol is found in the scope. -/
def paramLines (scope : SymbolTable) (p : String) : List Line :=
  match scope.get p with
  | none => []
  | some sym =>
    [.instr ("int " ++ natStr sym.position), .instr ("load 0"), .instr ("+"),
     .instr ("stores")]

/-- Lines of the function prologue up to (but not including) the parameter
stores: the entry label, the saved stack pointer, and the stack-frame
allocation sequence. -/
def funcPrologue (nm : String) (numSyms : Nat) : List Line :=
  [.lab nm, .blank, .comment ("Function setup."), .instr ("load 0"),
   .blank, .comment ("Allocate stack frame for the function being called and update the stack_pointer."),
   .blank, .comment ("stack_pointer = stack_pointer - (num_locals+1)"),
   .instr ("load 0"), .instr ("int " ++ natStr (numSyms + 1)), .instr ("-"),
   .instr ("store 0"), .instr ("load 0"), .instr ("swap"), .instr ("stores"), .blank]

/-- Lines of the function epilogue: the cleanup label, the stack-pointer
restore and the catch-all return. -/
def funcEpilogue (nm : String) : List Line :=
  [.lab (nm ++ "-cleanup"), .instr ("load 0"), .instr ("loads"),
   .instr ("store 0"), .instr ("retsub")]

/-- Lines of the stack-pointer bootstrap emitted when functions exist. -/
def bootLines : List Line :=
  [.blank, .comment ("Function data stack setup."),
   .instr ("int " ++ natStr MAX_SCRATCH), .instr ("store 0"), .blank]

/-- Property of a generator computation: on success it only appends to the
emitted lines. -/
def Appends (f : M) : Prop :=
  ∀ st st', f st = .ok st' → ∃ δ, st'.lines = st.lines ++ δ

/-- A label text of the control-statement family: `else_<k>`, `end_<k>`,
`loop_start_<k>` or `loop_end_<k>`. -/
def ctrlShape (s : String) : Prop :=
  ∃ k, s = elseLab k ∨ s = endLab k ∨ s = loopStartLab k ∨ s = loopEndLab k

/-- Property of a generator computation: on success it only appends lines,
and every label line appended is a control label. -/
def LabsCtrl (f : M) : Prop :=
  ∀ st st', f st = .ok st' →
    ∃ δ, st'.lines = st.lines ++ δ ∧ ∀ s, Line.lab s ∈ δ → ctrlShape s

/-- An instruction text that cannot be confused with the if-statement
branch instructions: it does not begin with `bz else_` nor with `b end_`. -/
def cleanText (s : String) : Bool :=
  decide (s.data.take 8 ≠ ("bz else_").data) && decide (s.data.take 6 ≠ ("b end_").data)

mutual

/-- Whether every operation node of the tree renders to an instruction text
that cannot forge an if-statement branch instruction. -/
def cleanN : ASTNode → Bool
  | .node d cs body ifb elseb init asg fargs =>
    (if d.nodeType = "operation" then cleanText (opText d) else true) &&
    cleanL cs && cleanO body && cleanO ifb && cleanO elseb &&
    cleanO init && cleanO asg &&
    (match fargs with | some l => cleanL l | none => true)

/-- Cleanliness over a list of trees. -/
def cleanL : List ASTNode → Bool
  | [] => true
  | x :: xs => cleanN x && cleanL xs

/-- Cleanliness over an optional tree. -/
def cleanO : Option ASTNode → Bool
  | none => true
  | some x => cleanN x

end

/-- Property of a generator computation: on success it only appends lines,
the control-id counter never decreases, and every if-statement label or
branch instruction appended mentions a control id minted during the run
(strictly above the starting counter and at most the final counter). -/
def CtrlRange (f : M) : Prop :=
  ∀ st st', f st = .ok st' →
    st.controlId ≤ st'.controlId ∧
    ∃ δ, st'.lines = st.lines ++ δ ∧
      ∀ k, (Line.lab (elseLab k) ∈ δ ∨ Line.lab (endLab k) ∈ δ ∨
            Line.instr ("bz " ++ elseLab k) ∈ δ ∨ Line.instr ("b " ++ endLab k) ∈ δ) →
        st.controlId < k ∧ k ≤ st'.controlId

/-- Whether a line is an instruction line. -/
def lineIsInstr : Line → Bool
  | .instr _ => true
  | _ => false

/-- An instruction text that coincides with no if-statement branch
instruction, for any control id. -/
def SafeT (t : String) : Prop :=
  ∀ k, t ≠ "bz " ++ elseLab k ∧ t ≠ "b " ++ endLab k

end Aqua

namespace SimpleGen

/-- Node record of the older stripped-down generator (the top-level `compile`
source file): a discriminator, generic children and the attributes read by
`genCode`. -/
inductive SNode where
  | node (nodeType : String) (children : List SNode)
      (opcode value fieldName argIndex stmtType : Option String)

mutual

/-- Embeds the stripped-down `genCode`: walk the children, then append the
line for the node itself; unknown node and statement types abort. -/
def genCode : SNode → List String → Except Aqua.Err (List String)
  | .node nodeType cs opcode value fieldName argIndex stmtType, output =>
    match genCodeList cs output with
    | .error e => .error e
    | .ok out1 =>
      if nodeType = "operator" then .ok (out1 ++ [Aqua.strOpt opcode])
      else if nodeType = "literal" then
        .ok (out1 ++ [Aqua.strOpt opcode ++ " " ++ Aqua.strOpt value])
      else if nodeType = "txn" then .ok (out1 ++ ["txn " ++ Aqua.strOpt fieldName])
      else if nodeType = "arg" then .ok (out1 ++ ["arg " ++ Aqua.strOpt argIndex])
      else if nodeType = "block" then .ok out1
      else if nodeType = "statement" then
        if stmtType = some "expr" then .ok out1
        else if stmtType = some "return" then .ok (out1 ++ ["return"])
        else .error (.unexpectedStatementType (Aqua.strOpt stmtType))
      else .error (.unknownNodeType nodeType)

/-- Children walk of the stripped-down generator. -/
def genCodeList : List SNode → List String → Except Aqua.Err (List String)
  | [], output => .ok output
  | x :: xs, output =>
    match genCode x output with
    | .error e => .error e
    | .ok out1 => genCodeList xs out1

end

/-- Embeds the top-level `compile` wrapper on an already parsed AST (the
parser is an external collaborator): generate the body lines, then prefix
`#pragma version 3` and a CR-LF pair and join the body lines with CR-LF. -/
def compile (ast : SNode) : Except Aqua.Err String :=
  match genCode ast [] with
  | .error e => .error e
  | .ok output => .ok ("#pragma version 3" ++ "\r\n" ++ String.intercalate ("\r\n") output)

end SimpleGen

/-! ## Theorems -/

namespace Aqua

@[simp] theorem data_node (d : NodeData) (cs : List ASTNode) (b i e ini a : Option ASTNode)
    (f : Option (List ASTNode)) : (ASTNode.node d cs b i e ini a f).data = d := rfl

@[simp] theorem children_node (d : NodeData) (cs : List ASTNode) (b i e ini a : Option ASTNode)
    (f : Option (List ASTNode)) : (ASTNode.node d cs b i e ini a f).children = cs := rfl

@[simp] theorem body_node (d : NodeData) (cs : List ASTNode) (b i e ini a : Option ASTNode)
    (f : Option (List ASTNode)) : (ASTNode.node d cs b i e ini a f).body = b := rfl

@[simp] theorem params_node (d : NodeData) (cs : List ASTNode) (b i e ini a : Option ASTNode)
    (f : Option (List ASTNode)) : (ASTNode.node d cs b i e ini a f).params = d.params := rfl

@[simp] theorem nodeType_node (d : NodeData) (cs : List ASTNode) (b i e ini a : Option ASTNode)
    (f : Option (List ASTNode)) : (ASTNode.node d cs b i e ini a f).nodeType = d.nodeType := rfl

@[simp] theorem ifBlock_node (d : NodeData) (cs : List ASTNode) (b i e ini a : Option ASTNode)
    (f : Option (List ASTNode)) : (ASTNode.node d cs b i e ini a f).ifBlock = i := rfl

@[simp] theorem elseBlock_node (d : NodeData) (cs : List ASTNode) (b i e ini a : Option ASTNode)
    (f : Option (List ASTNode)) : (ASTNode.node d cs b i e ini a f).elseBlock = e := rfl

@[simp] theorem initializer_node (d : NodeData) (cs : List ASTNode) (b i e ini a : Option ASTNode)
    (f : Option (List ASTNode)) : (ASTNode.node d cs b i e ini a f).initializer = ini := rfl

@[simp] theorem assignee_node (d : NodeData) (cs : List ASTNode) (b i e ini a : Option ASTNode)
    (f : Option (List ASTNode)) : (ASTNode.node d cs b i e ini a f).assignee = a := rfl

@[simp] theorem functionArgs_node (d : NodeData) (cs : List ASTNode) (b i e ini a : Option ASTNode)
    (f : Option (List ASTNode)) : (ASTNode.node d cs b i e ini a f).functionArgs = f := rfl

@[simp] theorem symbol_node (d : NodeData) (cs : List ASTNode) (b i e ini a : Option ASTNode)
    (f : Option (List ASTNode)) : (ASTNode.node d cs b i e ini a f).symbol = d.symbol := rfl

@[simp] theorem symbols_node (d : NodeData) (cs : List ASTNode) (b i e ini a : Option ASTNode)
    (f : Option (List ASTNode)) : (ASTNode.node d cs b i e ini a f).symbols = d.symbols := rfl

theorem genBody_eq_number (rec : ASTNode → M) (nd : ASTNode)
    (h : nd.data.nodeType = "number") :
    genBody rec nd =
      (
      mseq (genSeq rec nd.children) (emAdd ("int " ++ strOpt nd.data.value) 1 0)
      ) := by
  rw [genBody.eq_def, if_pos h]

theorem genBody_eq_stringLit (rec : ASTNode → M) (nd : ASTNode)
    (h : nd.data.nodeType = "string-literal") :
    genBody rec nd =
      (
      mseq (genSeq rec nd.children) (emAdd ("byte \"" ++ strOpt nd.data.value ++ "\"") 1 0)
      ) := by
  rw [genBody.eq_def, if_neg (fun hc => absurd (h.symm.trans hc) (by decide)), if_pos h]

theorem genBody_eq_operation (rec : ASTNode → M) (nd : ASTNode)
    (h : nd.data.nodeType = "operation") :
    genBody rec nd =
      (
      mseq (genSeq rec nd.children)
        (emAdd (opText nd.data) (nd.data.numItemsAdded.getD 1) (nd.data.numItemsRemoved.getD 2))
      ) := by
  rw [genBody.eq_def, if_neg (fun hc => absurd (h.symm.trans hc) (by decide)), if_neg (fun hc => absurd (h.symm.trans hc) (by decide)), if_pos h]

theorem genBody_eq_exprStmt (rec : ASTNode → M) (nd : ASTNode)
    (h : nd.data.nodeType = "expr-statement") :
    genBody rec nd =
      (
      mseq emResetStack (mseq (genSeq rec nd.children) emPopAll)
      ) := by
  rw [genBody.eq_def, if_neg (fun hc => absurd (h.symm.trans hc) (by decide)), if_neg (fun hc => absurd (h.symm.trans hc) (by decide)), if_neg (fun hc => absurd (h.symm.trans hc) (by decide)), if_pos h]

theorem genBody_eq_returnStmt (rec : ASTNode → M) (nd : ASTNode)
    (h : nd.data.nodeType = "return-statement") :
    genBody rec nd =
      (
      mseq emResetStack
        (mseq (genSeq rec nd.children)
          (fun st =>
            if st.inFunction then
              match st.curFunction with
              | some f => emAdd ("b " ++ f.getName ++ "-cleanup") 0 0 st
              | none => .error .typeError
            else emAdd ("return") 0 0 st))
      ) := by
  rw [genBody.eq_def, if_neg (fun hc => absurd (h.symm.trans hc) (by decide)), if_neg (fun hc => absurd (h.symm.trans hc) (by decide)), if_neg (fun hc => absurd (h.symm.trans hc) (by decide)), if_neg (fun hc => absurd (h.symm.trans hc) (by decide)), if_pos h]

theorem genBody_eq_declareVar (rec : ASTNode → M) (nd : ASTNode)
    (h : nd.data.nodeType = "declare-variable") :
    genBody rec nd =
      (
      mseq emResetStack
        (mseq (genSeq rec nd.children)
          (mseq (match nd.initializer with | some i => rec i | none => mId) emPopAll))
      ) := by
  rw [genBody.eq_def, if_neg (fun hc => absurd (h.symm.trans hc) (by decide)), if_neg (fun hc => absurd (h.symm.trans hc) (by decide)), if_neg (fun hc => absurd (h.symm.trans hc) (by decide)), if_neg (fun hc => absurd (h.symm.trans hc) (by decide)), if_neg (fun hc => absurd (h.symm.trans hc) (by decide)), if_pos h]

theorem genBody_eq_accessVar (rec : ASTNode → M) (nd : ASTNode)
    (h : nd.data.nodeType = "access-variable") :
    genBody rec nd =
      (
      mseq (genSeq rec nd.children)
        (match nd.data.symbol with
         | none => mFail
         | some s =>
           if s.isGlobal then emAdd ("load " ++ natStr s.position) 1 0
           else
             mseq (emAdd ("load 0") 1 0)
               (mseq (emAdd ("int " ++ natStr s.position) 1 0)
                 (mseq (emAdd ("+") 2 1) (emAdd ("loads") 1 1))))
      ) := by
  rw [genBody.eq_def, if_neg (fun hc => absurd (h.symm.trans hc) (by decide)), if_neg (fun hc => absurd (h.symm.trans hc) (by decide)), if_neg (fun hc => absurd (h.symm.trans hc) (by decide)), if_neg (fun hc => absurd (h.symm.trans hc) (by decide)), if_neg (fun hc => absurd (h.symm.trans hc) (by decide)), if_neg (fun hc => absurd (h.symm.trans hc) (by decide)), if_pos h]

theorem genBody_eq_assignStmt (rec : ASTNode → M) (nd : ASTNode)
    (h : nd.data.nodeType = "assignment-statement") :
    genBody rec nd =
      (
      mseq (genSeq rec nd.children)
        (match nd.data.symbol with
         | some s => assignSeq s
         | none =>
           match nd.data.symbols with
           | some l => assignList l.reverse
           | none => fun _ => .error .noAssignmentTarget)
      ) := by
  rw [genBody.eq_def, if_neg (fun hc => absurd (h.symm.trans hc) (by decide)), if_neg (fun hc => absurd (h.symm.trans hc) (by decide)), if_neg (fun hc => absurd (h.symm.trans hc) (by decide)), if_neg (fun hc => absurd (h.symm.trans hc) (by decide)), if_neg (fun hc => absurd (h.symm.trans hc) (by decide)), if_neg (fun hc => absurd (h.symm.trans hc) (by decide)), if_neg (fun hc => absurd (h.symm.trans hc) (by decide)), if_pos h]

theorem genBody_eq_ifStmt (rec : ASTNode → M) (nd : ASTNode)
    (h : nd.data.nodeType = "if-statement") :
    genBody rec nd =
      (
      mseq (genSeq rec nd.children)
        (fun st =>
          let k := st.controlId + 1
          (mseq (emAdd ("bz " ++ elseLab k) 0 1)
            (mseq (match nd.ifBlock with | some b => rec b | none => mFail)
              (mseq (emAdd ("b " ++ endLab k) 0 0)
                (mseq (emLabel (elseLab k))
                  (mseq (match nd.elseBlock with | some e => rec e | none => mId)
                    (emLabel (endLab k)))))))
            { st with controlId := k })
      ) := by
  rw [genBody.eq_def, if_neg (fun hc => absurd (h.symm.trans hc) (by decide)), if_neg (fun hc => absurd (h.symm.trans hc) (by decide)), if_neg (fun hc => absurd (h.symm.trans hc) (by decide)), if_neg (fun hc => absurd (h.symm.trans hc) (by decide)), if_neg (fun hc => absurd (h.symm.trans hc) (by decide)), if_neg (fun hc => absurd (h.symm.trans hc) (by decide)), if_neg (fun hc => absurd (h.symm.trans hc) (by decide)), if_neg (fun hc => absurd (h.symm.trans hc) (by decide)), if_pos h]

theorem genBody_eq_whileStmt (rec : ASTNode → M) (nd : ASTNode)
    (h : nd.data.nodeType = "while-statement") :
    genBody rec nd =
      (
      fun st =>
        let k := st.controlId + 1
        (mseq (emLabel (loopStartLab k))
          (mseq (genSeq rec nd.children)
            (mseq (emAdd ("bz " ++ loopEndLab k) 0 (if nd.children.length > 0 then 1 else 0))
              (mseq (match nd.body with | some b => rec b | none => mFail)
                (mseq (emAdd ("b " ++ loopStartLab k) 0 0) (emLabel (loopEndLab k)))))))
          { st with controlId := k }
      ) := by
  rw [genBody.eq_def, if_neg (fun hc => absurd (h.symm.trans hc) (by decide)), if_neg (fun hc => absurd (h.symm.trans hc) (by decide)), if_neg (fun hc => absurd (h.symm.trans hc) (by decide)), if_neg (fun hc => absurd (h.symm.trans hc) (by decide)), if_neg (fun hc => absurd (h.symm.trans hc) (by decide)), if_neg (fun hc => absurd (h.symm.trans hc) (by decide)), if_neg (fun hc => absurd (h.symm.trans hc) (by decide)), if_neg (fun hc => absurd (h.symm.trans hc) (by decide)), if_neg (fun hc => absurd (h.symm.trans hc) (by decide)), if_pos h]

theorem genBody_eq_functionCall (rec : ASTNode → M) (nd : ASTNode)
    (h : nd.data.nodeType = "function-call") :
    genBody rec nd =
      (
      mseq
        (if isBuiltin (strOpt nd.data.name) then mId
         else match nd.functionArgs with | some l => genSeq rec l | none => mId)
        (mseq (genSeq rec nd.children)
          (if strOpt nd.data.name = "appGlobalPut" then
            mseq (match nd.functionArgs with | some l => genSeq rec l | none => mId)
              (mseq (emAdd ("app_global_put") 0 2) (emAdd ("int 0") 1 0))
          else if strOpt nd.data.name = "appGlobalGet" then
            mseq (match nd.functionArgs with | some l => genSeq rec l | none => mId)
              (emAdd ("app_global_get") 1 1)
          else if strOpt nd.data.name = "appGlobalDel" then
            mseq (match nd.functionArgs with | some l => genSeq rec l | none => mId)
              (mseq (emAdd ("app_global_del") 0 1) (emAdd ("int 0") 1 0))
          else if strOpt nd.data.name = "appLocalPut" then
            mseq (match nd.functionArgs with | some l => genSeq rec l | none => mId)
              (mseq (emAdd ("app_local_put") 0 2) (emAdd ("int 0") 1 0))
          else if strOpt nd.data.name = "appLocalGet" then
            mseq (match nd.functionArgs with | some l => genSeq rec l | none => mId)
              (emAdd ("app_local_get") 1 2)
          else if strOpt nd.data.name = "appLocalDel" then
            mseq (match nd.functionArgs with | some l => genSeq rec l | none => mId)
              (mseq (emAdd ("app_local_del") 0 2) (emAdd ("int 0") 1 0))
          else if strOpt nd.data.name = "btoi" then
            mseq (match nd.functionArgs with | some l => genSeq rec l | none => mId)
              (emAdd ("btoi") 1 1)
          else if strOpt nd.data.name = "itob" then
            mseq (match nd.functionArgs with | some l => genSeq rec l | none => mId)
              (emAdd ("itob") 1 1)
          else if strOpt nd.data.name = "exit" then
            mseq (match nd.functionArgs with | some l => genSeq rec l | none => mId)
              (emAdd ("return") 0 0)
          else if strOpt nd.data.name = "itxn_begin" then
            mseq (emAdd ("itxn_begin") 0 0) (emAdd ("int 0") 1 0)
          else if strOpt nd.data.name = "itxn_field" then
            match nd.functionArgs with
            | some (a :: _) =>
              (match a.data.value with
               | some v => emAdd ("itxn_field " ++ unquote v) 0 1
               | none => mFail)
            | _ => mFail
          else if strOpt nd.data.name = "itxn_submit" then
            mseq (emAdd ("itxn_submit") 0 0) (emAdd ("int 0") 1 0)
          else
            emAdd ("callsub " ++ strOpt nd.data.name) 1
              ((match nd.functionArgs with | some l => (l.length : Int) | none => 0))))
      ) := by
  rw [genBody.eq_def, if_neg (fun hc => absurd (h.symm.trans hc) (by decide)), if_neg (fun hc => absurd (h.symm.trans hc) (by decide)), if_neg (fun hc => absurd (h.symm.trans hc) (by decide)), if_neg (fun hc => absurd (h.symm.trans hc) (by decide)), if_neg (fun hc => absurd (h.symm.trans hc) (by decide)), if_neg (fun hc => absurd (h.symm.trans hc) (by decide)), if_neg (fun hc => absurd (h.symm.trans hc) (by decide)), if_neg (fun hc => absurd (h.symm.trans hc) (by decide)), if_neg (fun hc => absurd (h.symm.trans hc) (by decide)), if_neg (fun hc => absurd (h.symm.trans hc) (by decide)), if_pos h]

theorem genBody_eq_default (rec : ASTNode → M) (nd : ASTNode)
    (h0 : nd.data.nodeType ≠ "number") (h1 : nd.data.nodeType ≠ "string-literal") (h2 : nd.data.nodeType ≠ "operation") (h3 : nd.data.nodeType ≠ "expr-statement") (h4 : nd.data.nodeType ≠ "return-statement") (h5 : nd.data.nodeType ≠ "declare-variable") (h6 : nd.data.nodeType ≠ "access-variable") (h7 : nd.data.nodeType ≠ "assignment-statement") (h8 : nd.data.nodeType ≠ "if-statement") (h9 : nd.data.nodeType ≠ "while-statement") (h10 : nd.data.nodeType ≠ "function-call") :
    genBody rec nd = genSeq rec nd.children := by
  rw [genBody.eq_def, if_neg h0, if_neg h1, if_neg h2, if_neg h3, if_neg h4, if_neg h5, if_neg h6, if_neg h7, if_neg h8, if_neg h9, if_neg h10]

theorem resolveHandler_eq_fdecl (rec : ASTNode → SymbolTable → Except Err (ASTNode × SymbolTable))
    (nd : ASTNode) (cs' : List ASTNode) (t1 : SymbolTable)
    (h : nd.data.nodeType = "function-declaration") :
    resolveHandler rec nd cs' t1 =
      (
    match nd.body with
    | none => .error .typeError
    | some b =>
      match rec b (.mk [] (some t1)) with
      | .error e => .error e
      | .ok (b', localTbl) =>
        .ok (.node { nd.data with scope := some localTbl } cs' (some b') nd.ifBlock nd.elseBlock
              nd.initializer nd.assignee nd.functionArgs, t1)
      ) := by
  rw [resolveHandler.eq_def, if_pos h]

theorem resolveHandler_eq_declareVar (rec : ASTNode → SymbolTable → Except Err (ASTNode × SymbolTable))
    (nd : ASTNode) (cs' : List ASTNode) (t1 : SymbolTable)
    (h : nd.data.nodeType = "declare-variable") :
    resolveHandler rec nd cs' t1 =
      (
    if t1.isDefinedLocally (strOpt nd.data.name) then
      .error (.duplicateDefinition (strOpt nd.data.name))
    else
      let ds := t1.define (strOpt nd.data.name) .Variable
      .ok (.node { nd.data with symbol := some ds.1 } cs' nd.body nd.ifBlock nd.elseBlock
            nd.initializer nd.assignee nd.functionArgs, ds.2)
      ) := by
  rw [resolveHandler.eq_def, if_neg (fun hc => absurd (h.symm.trans hc) (by decide)), if_pos h]

theorem resolveHandler_eq_declareConst (rec : ASTNode → SymbolTable → Except Err (ASTNode × SymbolTable))
    (nd : ASTNode) (cs' : List ASTNode) (t1 : SymbolTable)
    (h : nd.data.nodeType = "declare-constant") :
    resolveHandler rec nd cs' t1 =
      (
    if t1.isDefinedLocally (strOpt nd.data.name) then
      .error (.duplicateDefinition (strOpt nd.data.name))
    else
      let ds := t1.define (strOpt nd.data.name) .Constant
      .ok (.node { nd.data with symbol := some ds.1 } cs' nd.body nd.ifBlock nd.elseBlock
            nd.initializer nd.assignee nd.functionArgs, ds.2)
      ) := by
  rw [resolveHandler.eq_def, if_neg (fun hc => absurd (h.symm.trans hc) (by decide)), if_neg (fun hc => absurd (h.symm.trans hc) (by decide)), if_pos h]

theorem resolveHandler_eq_accessVar (rec : ASTNode → SymbolTable → Except Err (ASTNode × SymbolTable))
    (nd : ASTNode) (cs' : List ASTNode) (t1 : SymbolTable)
    (h : nd.data.nodeType = "access-variable") :
    resolveHandler rec nd cs' t1 =
      (
    match t1.get (strOpt nd.data.name) with
    | none => .error (.undeclaredName (strOpt nd.data.name))
    | some s =>
      .ok (.node { nd.data with symbol := some s } cs' nd.body nd.ifBlock nd.elseBlock
            nd.initializer nd.assignee nd.functionArgs, t1)
      ) := by
  rw [resolveHandler.eq_def, if_neg (fun hc => absurd (h.symm.trans hc) (by decide)), if_neg (fun hc => absurd (h.symm.trans hc) (by decide)), if_neg (fun hc => absurd (h.symm.trans hc) (by decide)), if_pos h]

theorem resolveHandler_eq_assignStmt (rec : ASTNode → SymbolTable → Except Err (ASTNode × SymbolTable))
    (nd : ASTNode) (cs' : List ASTNode) (t1 : SymbolTable)
    (h : nd.data.nodeType = "assignment-statement") :
    resolveHandler rec nd cs' t1 =
      (
    match nd.assignee with
    | none => .error .typeError
    | some a =>
      if a.nodeType ≠ "access-variable" then .error .notAnLvalue
      else
        match t1.get (strOpt a.data.name) with
        | none => .error (.undeclaredName (strOpt a.data.name))
        | some s =>
          if s.type ≠ .Variable then .error (.assignToConstant s.name)
          else
            .ok (.node { nd.data with symbol := some s } cs' nd.body nd.ifBlock nd.elseBlock
                  nd.initializer nd.assignee nd.functionArgs, t1)
      ) := by
  rw [resolveHandler.eq_def, if_neg (fun hc => absurd (h.symm.trans hc) (by decide)), if_neg (fun hc => absurd (h.symm.trans hc) (by decide)), if_neg (fun hc => absurd (h.symm.trans hc) (by decide)), if_neg (fun hc => absurd (h.symm.trans hc) (by decide)), if_pos h]

theorem resolveHandler_eq_ifStmt (rec : ASTNode → SymbolTable → Except Err (ASTNode × SymbolTable))
    (nd : ASTNode) (cs' : List ASTNode) (t1 : SymbolTable)
    (h : nd.data.nodeType = "if-statement") :
    resolveHandler rec nd cs' t1 =
      (
    match nd.ifBlock with
    | none => .error .typeError
    | some ib =>
      match rec ib t1 with
      | .error e => .error e
      | .ok (ib', t2) =>
        match nd.elseBlock with
        | none =>
          .ok (.node nd.data cs' nd.body (some ib') none nd.initializer nd.assignee nd.functionArgs, t2)
        | some eb =>
          match rec eb t2 with
          | .error e => .error e
          | .ok (eb', t3) =>
            .ok (.node nd.data cs' nd.body (some ib') (some eb') nd.initializer nd.assignee
                  nd.functionArgs, t3)
      ) := by
  rw [resolveHandler.eq_def, if_neg (fun hc => absurd (h.symm.trans hc) (by decide)), if_neg (fun hc => absurd (h.symm.trans hc) (by decide)), if_neg (fun hc => absurd (h.symm.trans hc) (by decide)), if_neg (fun hc => absurd (h.symm.trans hc) (by decide)), if_neg (fun hc => absurd (h.symm.trans hc) (by decide)), if_pos h]

theorem resolveHandler_eq_default (rec : ASTNode → SymbolTable → Except Err (ASTNode × SymbolTable))
    (nd : ASTNode) (cs' : List ASTNode) (t1 : SymbolTable)
    (h0 : nd.data.nodeType ≠ "function-declaration") (h1 : nd.data.nodeType ≠ "declare-variable") (h2 : nd.data.nodeType ≠ "declare-constant") (h3 : nd.data.nodeType ≠ "access-variable") (h4 : nd.data.nodeType ≠ "assignment-statement") (h5 : nd.data.nodeType ≠ "if-statement") :
    resolveHandler rec nd cs' t1 =
      .ok (.node nd.data cs' nd.body nd.ifBlock nd.elseBlock nd.initializer nd.assignee
            nd.functionArgs, t1) := by
  rw [resolveHandler.eq_def, if_neg h0, if_neg h1, if_neg h2, if_neg h3, if_neg h4, if_neg h5]

theorem mseq_eq_ok {f g : M} {st stf : GenSt} :
    mseq f g st = .ok stf ↔ ∃ st1, f st = .ok st1 ∧ g st1 = .ok stf := by
  unfold mseq
  cases h : f st <;> simp

theorem data_append (a b : String) : (a ++ b).data = a.data ++ b.data := rfl

theorem emAdd_ok (t : String) (p q : Int) (st : GenSt) (h : q ≤ st.depth) :
    emAdd t p q st =
      .ok { st with lines := st.lines ++ [.instr t], depth := st.depth + p - q } := by
  unfold emAdd
  rw [if_neg (by omega)]

theorem mseq_ok_trans {f g : M} {st st1 st2 : GenSt} (h1 : f st = .ok st1)
    (h2 : g st1 = .ok st2) : mseq f g st = .ok st2 := by
  unfold mseq; rw [h1]; exact h2

theorem emAdd_parts (t : String) (p q : Int) (st s1 : GenSt)
    (h : emAdd t p q st = .ok s1) :
    s1.lines = st.lines ++ [.instr t] ∧ s1.controlId = st.controlId := by
  unfold emAdd at h
  split at h
  · cases h
  · cases h
    exact ⟨rfl, rfl⟩

theorem emLabel_parts (t : String) (st s1 : GenSt)
    (h : emLabel t st = .ok s1) :
    s1.lines = st.lines ++ [.lab t] ∧ s1.controlId = st.controlId := by
  cases h
  exact ⟨rfl, rfl⟩

theorem emSection_parts (t : Option String) (st s1 : GenSt)
    (h : emSection t st = .ok s1) :
    s1.lines = st.lines ++
      (.blank :: (match t with | some x => [.comment x] | none => [])) ∧
    s1.controlId = st.controlId := by
  cases h
  exact ⟨rfl, rfl⟩

theorem exists_ok_of_isOk {ε α : Type} {e : Except ε α} (h : e.isOk = true) :
    ∃ r, e = .ok r := by
  cases e with
  | error e => simp [Except.isOk, Except.toBool] at h
  | ok r => exact ⟨r, rfl⟩

theorem generateFunctionCodeF_ok (fuel : Nat) (nd : ASTNode) (st0 stR : GenSt)
    (h : mseq (funcSetup nd) (mseq (funcParams nd) (funcRest fuel nd))
      { st0 with curFunction := some nd } = .ok stR) :
    generateFunctionCodeF fuel nd st0 =
      .ok (.node { nd.data with params := (nd.data.params.map (fun ps => ps.reverse)) }
            nd.children nd.body nd.ifBlock nd.elseBlock nd.initializer nd.assignee
            nd.functionArgs, stR) := by
  unfold generateFunctionCodeF
  rw [h]

theorem genSecondPass_ok (fuel : Nat) (fn : ASTNode) (st1 st2 : GenSt) (f2 : ASTNode)
    (st3 : GenSt)
    (h1 : emAdd ("b program_end") 0 0 st1 = .ok st2)
    (h2 : generateFunctionCodeF fuel fn { st2 with inFunction := true } = .ok (f2, st3)) :
    genSecondPass fuel [fn] st1 =
      .ok ([f2], { st3 with lines := st3.lines ++ [Line.blank, Line.lab ("program_end")] }) := by
  unfold genSecondPass
  rw [h1]
  simp only [runFuncSeq]
  rw [h2]
  simp only [runFuncSeq]
  simp [mseq, emSection, emLabel, GenSt.mk.injEq]

theorem runFuncSeq_one_ok (g : ASTNode → GenSt → Except Err (ASTNode × GenSt))
    (fn : ASTNode) (st : GenSt) (f2 : ASTNode) (st1 : GenSt)
    (h : g fn st = .ok (f2, st1)) :
    runFuncSeq g [fn] st = .ok ([f2], st1) := by
  simp only [runFuncSeq]
  rw [h]

theorem generateCodeF_ok_with_fns (fuel : Nat) (ast : ASTNode) (st0 stR : GenSt)
    (res : List ASTNode × GenSt)
    (hcond : (collectFunctions ast).length > 0)
    (h : mseq bootstrapM (genF fuel ast)
      { st0 with inFunction := false, curFunction := none } = .ok stR)
    (h2 : genSecondPass fuel (collectFunctions ast) stR = .ok res) :
    generateCodeF fuel ast st0 = .ok res := by
  unfold generateCodeF
  rw [if_pos hcond, h]
  show (if (collectFunctions ast).length > 0 then
      genSecondPass fuel (collectFunctions ast) stR else .ok ([], stR)) = .ok res
  rw [if_pos hcond]
  exact h2

theorem assignSeq_run (s : Sym) (st : GenSt) (hd : 0 ≤ st.depth) :
    assignSeq s st =
      .ok { st with lines := st.lines ++ assignLines s, depth := st.depth + assignDepth s } := by
  by_cases h : s.isGlobal
  · unfold assignSeq
    rw [if_pos h]
    refine mseq_ok_trans (emAdd_ok _ _ _ _ (by omega)) ?_
    refine (emAdd_ok _ _ _ _ (by try dsimp only; omega)).trans ?_
    simp [assignLines, assignDepth, h, GenSt.mk.injEq]
  · unfold assignSeq
    rw [if_neg h]
    refine mseq_ok_trans (emAdd_ok _ _ _ _ (by omega)) ?_
    refine mseq_ok_trans (emAdd_ok _ _ _ _ (by try dsimp only; omega)) ?_
    refine mseq_ok_trans (emAdd_ok _ _ _ _ (by try dsimp only; omega)) ?_
    refine mseq_ok_trans (emAdd_ok _ _ _ _ (by try dsimp only; omega)) ?_
    refine (emAdd_ok _ _ _ _ (by try dsimp only; omega)).trans ?_
    simp [assignLines, assignDepth, h, GenSt.mk.injEq]
    omega

theorem assignDepth_nonneg (s : Sym) : 0 ≤ assignDepth s := by
  unfold assignDepth
  by_cases h : s.isGlobal <;> simp [h]

theorem assignList_run (l : List Sym) (st : GenSt) (hd : 0 ≤ st.depth) :
    assignList l st =
      .ok { st with lines := st.lines ++ l.flatMap assignLines,
                    depth := st.depth + (l.map assignDepth).sum } := by
  induction l generalizing st with
  | nil =>
    simp [assignList, mId]
  | cons s rest ih =>
    refine mseq_ok_trans (assignSeq_run s st hd) ?_
    refine (ih _ (by dsimp only; have := assignDepth_nonneg s; omega)).trans ?_
    simp [GenSt.mk.injEq]
    omega

theorem netEffect_append (a b : List Line) :
    netEffect (a ++ b) = netEffect a + netEffect b := by
  simp [netEffect]

theorem netEffect_assignLines (s : Sym) : netEffect (assignLines s) = 0 := by
  by_cases h : s.isGlobal <;>
    simp [assignLines, netEffect, h, tealEffect, data_append]

theorem netEffect_flatMap_assignLines (l : List Sym) :
    netEffect (l.flatMap assignLines) = 0 := by
  induction l with
  | nil => simp [netEffect]
  | cons s rest ih =>
    rw [List.flatMap_cons, netEffect_append, netEffect_assignLines, ih]
    simp

end Aqua

namespace Aqua

/-- Claim C6: for an assignment-statement node reaching code generation, the
generator fails with the no-assignment-target error when the node carries
neither a singular `symbol` nor a plural `symbols` annotation; otherwise it
emits, per target symbol, `dup` then `store <position>` for a global symbol,
or `int <position>`, `load 0`, `+`, `dig 1`, `stores` for a local symbol
(targets of a `symbols` list are processed in reverse), and each emitted
sequence has net compute-stack effect zero under the target VM semantics, so
the assigned value stays on the compute stack. -/
theorem c6_assignment_visitor (d : NodeData) (body ifb elseb init asg : Option ASTNode)
    (fargs : Option (List ASTNode)) (st : GenSt) (hd : 0 ≤ st.depth)
    (hT : d.nodeType = "assignment-statement") :
    (d.symbol = none → d.symbols = none →
      internalGenerateCode (.node d [] body ifb elseb init asg fargs) st =
        .error .noAssignmentTarget) ∧
    (∀ s, d.symbol = some s →
      internalGenerateCode (.node d [] body ifb elseb init asg fargs) st =
        .ok { st with lines := st.lines ++ assignLines s,
                      depth := st.depth + assignDepth s } ∧
      assignLines s =
        (if s.isGlobal then
          [.instr ("dup"), .instr ("store " ++ natStr s.position)]
         else
          [.instr ("int " ++ natStr s.position), .instr ("load 0"), .instr ("+"),
           .instr ("dig 1"), .instr ("stores")]) ∧
      netEffect (assignLines s) = 0) ∧
    (∀ l, d.symbol = none → d.symbols = some l →
      internalGenerateCode (.node d [] body ifb elseb init asg fargs) st =
        .ok { st with lines := st.lines ++ l.reverse.flatMap assignLines,
                      depth := st.depth + (l.reverse.map assignDepth).sum } ∧
      netEffect (l.reverse.flatMap assignLines) = 0) := by
  refine ⟨?_, ?_, ?_⟩
  · intro h1 h2
    unfold internalGenerateCode
    rw [genF, genBody_eq_assignStmt _ (.node d [] body ifb elseb init asg fargs) hT]
    simp [genSeq, mseq, mId, h1, h2]
  · intro s hs
    refine ⟨?_, rfl, netEffect_assignLines s⟩
    unfold internalGenerateCode
    rw [genF, genBody_eq_assignStmt _ (.node d [] body ifb elseb init asg fargs) hT]
    have hrun := fun s => assignSeq_run s st hd
    simp [genSeq, mseq, mId, hs, hrun]
  · intro l h1 h2
    refine ⟨?_, netEffect_flatMap_assignLines _⟩
    unfold internalGenerateCode
    rw [genF, genBody_eq_assignStmt _ (.node d [] body ifb elseb init asg fargs) hT]
    have hrun := fun l2 => assignList_run l2 st hd
    simp [genSeq, mseq, mId, h1, h2, hrun]

theorem c6_witness :
    internalGenerateCode
      (.node { nodeType := "assignment-statement",
               symbol := some ⟨"x", .Variable, 1, true⟩ } [] none none none none none none)
      initState =
      .ok { initState with lines := [.instr ("dup"), .instr ("store 1")] } ∧
    netEffect [Line.instr ("dup"), Line.instr ("store 1")] = 0 := by
  have h := c6_assignment_visitor { nodeType := "assignment-statement", symbol := some ⟨"x", .Variable, 1, true⟩ } none none none none none none initState (by decide) rfl
  obtain ⟨-, h2, -⟩ := h
  obtain ⟨hrun, hlines, hnet⟩ := h2 ⟨"x", .Variable, 1, true⟩ rfl
  refine ⟨?_, ?_⟩
  · rw [hrun]
    rfl
  · have h3 : assignLines (⟨"x", .Variable, 1, true⟩ : Sym) =
        [Line.instr ("dup"), Line.instr ("store 1")] := rfl
    rw [← h3]
    exact hnet

/-- Claim C5: for an assignment-statement node handed to the resolver, it
fails with the not-an-lvalue error when the assignee is not an
`access-variable` node; otherwise with the undeclared-name error when the
assignee's name is not found by the parent-chain lookup; otherwise with the
assign-to-constant error when the found symbol is not a variable; otherwise
it attaches the found symbol to the assignment node and succeeds. -/
theorem c5_resolver_assignment (d : NodeData) (body ifb elseb init : Option ASTNode)
    (a : ASTNode) (fargs : Option (List ASTNode)) (tbl : SymbolTable)
    (hT : d.nodeType = "assignment-statement") :
    (a.nodeType ≠ "access-variable" →
      internalResolveSymbols (.node d [] body ifb elseb init (some a) fargs) tbl =
        .error .notAnLvalue) ∧
    (a.nodeType = "access-variable" → tbl.get (strOpt a.data.name) = none →
      internalResolveSymbols (.node d [] body ifb elseb init (some a) fargs) tbl =
        .error (.undeclaredName (strOpt a.data.name))) ∧
    (∀ s, a.nodeType = "access-variable" → tbl.get (strOpt a.data.name) = some s →
      s.type ≠ .Variable →
      internalResolveSymbols (.node d [] body ifb elseb init (some a) fargs) tbl =
        .error (.assignToConstant s.name)) ∧
    (∀ s, a.nodeType = "access-variable" → tbl.get (strOpt a.data.name) = some s →
      s.type = .Variable →
      internalResolveSymbols (.node d [] body ifb elseb init (some a) fargs) tbl =
        .ok (.node { d with symbol := some s } [] body ifb elseb init (some a) fargs, tbl)) := by
  refine ⟨?_, ?_, ?_, ?_⟩
  · intro ha
    unfold internalResolveSymbols
    rw [resolveF, resolveBody.eq_def]
    simp only [children_node, resolveSeq]
    rw [resolveHandler_eq_assignStmt _ (.node d [] body ifb elseb init (some a) fargs) _ _ hT]
    simp [ha]
  · intro ha hget
    unfold internalResolveSymbols
    rw [resolveF, resolveBody.eq_def]
    simp only [children_node, resolveSeq]
    rw [resolveHandler_eq_assignStmt _ (.node d [] body ifb elseb init (some a) fargs) _ _ hT]
    simp [ha, hget]
  · intro s ha hget hs
    unfold internalResolveSymbols
    rw [resolveF, resolveBody.eq_def]
    simp only [children_node, resolveSeq]
    rw [resolveHandler_eq_assignStmt _ (.node d [] body ifb elseb init (some a) fargs) _ _ hT]
    simp [ha, hget, hs]
  · intro s ha hget hs
    unfold internalResolveSymbols
    rw [resolveF, resolveBody.eq_def]
    simp only [children_node, resolveSeq]
    rw [resolveHandler_eq_assignStmt _ (.node d [] body ifb elseb init (some a) fargs) _ _ hT]
    simp [ha, hget, hs]

theorem c5_witness :
    internalResolveSymbols
      (.node { nodeType := "assignment-statement" } []
        none none none none
        (some (.node { nodeType := "number", value := some ("1") } [] none none none none none none))
        none)
      (.mk [] none) =
      .error .notAnLvalue := by
  have h := c5_resolver_assignment { nodeType := "assignment-statement" }
      none none none none
      (.node { nodeType := "number", value := some ("1") } [] none none none none none none)
      none (.mk [] none) rfl
  exact h.1 (by decide)

end Aqua

namespace SimpleGen

/-- Claim C8: the top-level `compile` wrapper returns the generated body
prefixed by `#pragma version 3` followed by a CR-LF pair, with the emitted
body lines joined by CR-LF pairs. -/
theorem c8_compile_format (ast : SNode) (out : List String)
    (h : genCode ast [] = .ok out) :
    compile ast = .ok ("#pragma version 3" ++ "\r\n" ++ String.intercalate ("\r\n") out) := by
  unfold compile
  rw [h]

theorem c8_witness :
    genCode (.node ("statement") [.node ("literal") [] (some ("int")) (some ("1")) none none none]
        none none none none (some ("return"))) [] =
      .ok ["int 1", "return"] ∧
    compile (.node ("statement") [.node ("literal") [] (some ("int")) (some ("1")) none none none]
        none none none none (some ("return"))) =
      .ok ("#pragma version 3" ++ "\r\n" ++ String.intercalate ("\r\n") ["int 1", "return"]) := by
  refine ⟨rfl, ?_⟩
  exact c8_compile_format _ _ rfl

end SimpleGen

namespace Aqua

theorem appends_mId : Appends mId := by
  intro st st' h
  cases h
  exact ⟨[], by simp⟩

theorem appends_mFail : Appends mFail := by
  intro st st' h
  cases h

theorem appends_emAdd (t : String) (p q : Int) : Appends (emAdd t p q) := by
  intro st st' h
  unfold emAdd at h
  split at h
  · cases h
  · cases h
    exact ⟨[.instr t], rfl⟩

theorem appends_emLabel (t : String) : Appends (emLabel t) := by
  intro st st' h
  cases h
  exact ⟨[.lab t], rfl⟩

theorem appends_emSection (t : Option String) : Appends (emSection t) := by
  intro st st' h
  cases h
  exact ⟨_, rfl⟩

theorem appends_emResetStack : Appends emResetStack := by
  intro st st' h
  cases h
  exact ⟨[], by simp⟩

theorem appends_emPopAll : Appends emPopAll := by
  intro st st' h
  cases h
  exact ⟨_, rfl⟩

theorem appends_mseq {f g : M} (hf : Appends f) (hg : Appends g) : Appends (mseq f g) := by
  intro st st' h
  unfold mseq at h
  cases hfe : f st with
  | error e => rw [hfe] at h; cases h
  | ok st1 =>
    rw [hfe] at h
    obtain ⟨d1, h1⟩ := hf st st1 hfe
    obtain ⟨d2, h2⟩ := hg st1 st' h
    exact ⟨d1 ++ d2, by rw [h2, h1, List.append_assoc]⟩

theorem appends_genSeq {f : ASTNode → M} (hf : ∀ c, Appends (f c)) (l : List ASTNode) :
    Appends (genSeq f l) := by
  induction l with
  | nil => exact appends_mId
  | cons x xs ih => exact appends_mseq (hf x) ih

theorem appends_opt {α : Type} (o : Option α) (f : α → M) (g : M)
    (hf : ∀ x, Appends (f x)) (hg : Appends g) :
    Appends (match o with | some x => f x | none => g) := by
  cases o with
  | none => exact hg
  | some x => exact hf x

theorem appends_assignSeq (s : Sym) : Appends (assignSeq s) := by
  unfold assignSeq
  by_cases h : s.isGlobal
  · rw [if_pos h]
    exact appends_mseq (appends_emAdd _ _ _) (appends_emAdd _ _ _)
  · rw [if_neg h]
    exact appends_mseq (appends_emAdd _ _ _) (appends_mseq (appends_emAdd _ _ _)
      (appends_mseq (appends_emAdd _ _ _) (appends_mseq (appends_emAdd _ _ _)
        (appends_emAdd _ _ _))))

theorem appends_assignList (l : List Sym) : Appends (assignList l) := by
  induction l with
  | nil => exact appends_mId
  | cons s rest ih => exact appends_mseq (appends_assignSeq s) ih

theorem appends_paramStore (sc : SymbolTable) (p : String) : Appends (paramStore sc p) := by
  unfold paramStore
  cases sc.get p with
  | none => exact appends_mFail
  | some sym =>
    exact appends_mseq (appends_emAdd _ _ _)
      (appends_mseq (appends_emAdd _ _ _)
        (appends_mseq (appends_emAdd _ _ _) (appends_emAdd _ _ _)))

theorem appends_paramStores (sc : SymbolTable) (ps : List String) :
    Appends (paramStores sc ps) := by
  induction ps with
  | nil => exact appends_mId
  | cons p rest ih => exact appends_mseq (appends_paramStore sc p) ih

theorem appends_ite (c : Prop) [Decidable c] {f g : M} (hf : Appends f) (hg : Appends g) :
    Appends (if c then f else g) := by
  split
  · exact hf
  · exact hg

theorem appends_bump {f : M} (hf : Appends f) :
    Appends (fun st => f { st with controlId := st.controlId + 1 }) := by
  intro st st' h
  obtain ⟨d1, h1⟩ := hf { st with controlId := st.controlId + 1 } st' h
  exact ⟨d1, h1⟩

theorem appends_genBody (rec : ASTNode → M) (hrec : ∀ c, Appends (rec c)) (nd : ASTNode) :
    Appends (genBody rec nd) := by
  by_cases h1 : nd.data.nodeType = "number"
  · rw [genBody_eq_number rec nd h1]
    exact appends_mseq (appends_genSeq hrec _) (appends_emAdd _ _ _)
  by_cases h2 : nd.data.nodeType = "string-literal"
  · rw [genBody_eq_stringLit rec nd h2]
    exact appends_mseq (appends_genSeq hrec _) (appends_emAdd _ _ _)
  by_cases h3 : nd.data.nodeType = "operation"
  · rw [genBody_eq_operation rec nd h3]
    exact appends_mseq (appends_genSeq hrec _) (appends_emAdd _ _ _)
  by_cases h4 : nd.data.nodeType = "expr-statement"
  · rw [genBody_eq_exprStmt rec nd h4]
    exact appends_mseq appends_emResetStack (appends_mseq (appends_genSeq hrec _) appends_emPopAll)
  by_cases h5 : nd.data.nodeType = "return-statement"
  · rw [genBody_eq_returnStmt rec nd h5]
    refine appends_mseq appends_emResetStack (appends_mseq (appends_genSeq hrec _) ?_)
    intro st st' h
    dsimp only at h
    split at h
    · cases hcf : st.curFunction with
      | some f => rw [hcf] at h; exact appends_emAdd _ _ _ st st' h
      | none => rw [hcf] at h; cases h
    · exact appends_emAdd _ _ _ st st' h
  by_cases h6 : nd.data.nodeType = "declare-variable"
  · rw [genBody_eq_declareVar rec nd h6]
    refine appends_mseq appends_emResetStack (appends_mseq (appends_genSeq hrec _) ?_)
    cases nd.initializer with
    | some i => exact appends_mseq (hrec i) appends_emPopAll
    | none => exact appends_mseq appends_mId appends_emPopAll
  by_cases h7 : nd.data.nodeType = "access-variable"
  · rw [genBody_eq_accessVar rec nd h7]
    refine appends_mseq (appends_genSeq hrec _) ?_
    cases nd.data.symbol with
    | none => exact appends_mFail
    | some sy =>
      exact appends_ite _ (appends_emAdd _ _ _)
        (appends_mseq (appends_emAdd _ _ _)
          (appends_mseq (appends_emAdd _ _ _)
            (appends_mseq (appends_emAdd _ _ _) (appends_emAdd _ _ _))))
  by_cases h8 : nd.data.nodeType = "assignment-statement"
  · rw [genBody_eq_assignStmt rec nd h8]
    refine appends_mseq (appends_genSeq hrec _) ?_
    cases nd.data.symbol with
    | some sy => exact appends_assignSeq sy
    | none =>
      cases nd.data.symbols with
      | some l => exact appends_assignList l.reverse
      | none => intro st st' h; cases h
  by_cases h9 : nd.data.nodeType = "if-statement"
  · rw [genBody_eq_ifStmt rec nd h9]
    refine appends_mseq (appends_genSeq hrec _) ?_
    intro st st' h
    have hifb : Appends (match nd.ifBlock with | some b => rec b | none => mFail) := by
      cases nd.ifBlock with
      | some b => exact hrec b
      | none => exact appends_mFail
    have helb : Appends (match nd.elseBlock with | some e => rec e | none => mId) := by
      cases nd.elseBlock with
      | some e => exact hrec e
      | none => exact appends_mId
    have hch : Appends (mseq (emAdd ("bz " ++ elseLab (st.controlId + 1)) 0 1)
        (mseq (match nd.ifBlock with | some b => rec b | none => mFail)
          (mseq (emAdd ("b " ++ endLab (st.controlId + 1)) 0 0)
            (mseq (emLabel (elseLab (st.controlId + 1)))
              (mseq (match nd.elseBlock with | some e => rec e | none => mId)
                (emLabel (endLab (st.controlId + 1)))))))) :=
      appends_mseq (appends_emAdd _ _ _)
        (appends_mseq hifb
          (appends_mseq (appends_emAdd _ _ _)
            (appends_mseq (appends_emLabel _)
              (appends_mseq helb (appends_emLabel _)))))
    obtain ⟨dd, hdd⟩ := hch { st with controlId := st.controlId + 1 } st' h
    exact ⟨dd, hdd⟩
  by_cases h10 : nd.data.nodeType = "while-statement"
  · rw [genBody_eq_whileStmt rec nd h10]
    intro st st' h
    have hb : Appends (match nd.body with | some b => rec b | none => mFail) := by
      cases nd.body with
      | some b => exact hrec b
      | none => exact appends_mFail
    have hch : Appends (mseq (emLabel (loopStartLab (st.controlId + 1)))
        (mseq (genSeq rec nd.children)
          (mseq (emAdd ("bz " ++ loopEndLab (st.controlId + 1)) 0
              (if nd.children.length > 0 then 1 else 0))
            (mseq (match nd.body with | some b => rec b | none => mFail)
              (mseq (emAdd ("b " ++ loopStartLab (st.controlId + 1)) 0 0)
                (emLabel (loopEndLab (st.controlId + 1)))))))) :=
      appends_mseq (appends_emLabel _)
        (appends_mseq (appends_genSeq hrec _)
          (appends_mseq (appends_emAdd _ _ _)
            (appends_mseq hb
              (appends_mseq (appends_emAdd _ _ _) (appends_emLabel _)))))
    obtain ⟨dd, hdd⟩ := hch { st with controlId := st.controlId + 1 } st' h
    exact ⟨dd, hdd⟩
  by_cases h11 : nd.data.nodeType = "function-call"
  · rw [genBody_eq_functionCall rec nd h11]
    have hargs : Appends (match nd.functionArgs with | some l => genSeq rec l | none => mId) := by
      cases nd.functionArgs with
      | some l => exact appends_genSeq hrec l
      | none => exact appends_mId
    have hfield : Appends (match nd.functionArgs with
        | some (a :: _) =>
          (match a.data.value with
           | some v => emAdd ("itxn_field " ++ unquote v) 0 1
           | none => mFail)
        | _ => mFail) := by
      cases nd.functionArgs with
      | none => exact appends_mFail
      | some l =>
        cases l with
        | nil => exact appends_mFail
        | cons a rest =>
          show Appends (match a.data.value with
            | some v => emAdd ("itxn_field " ++ unquote v) 0 1
            | none => mFail)
          cases a.data.value with
          | none => exact appends_mFail
          | some v => exact appends_emAdd _ _ _
    refine appends_mseq (appends_ite _ appends_mId hargs)
      (appends_mseq (appends_genSeq hrec _) ?_)
    refine appends_ite _ (appends_mseq hargs (appends_mseq (appends_emAdd _ _ _) (appends_emAdd _ _ _))) ?_
    refine appends_ite _ (appends_mseq hargs (appends_emAdd _ _ _)) ?_
    refine appends_ite _ (appends_mseq hargs (appends_mseq (appends_emAdd _ _ _) (appends_emAdd _ _ _))) ?_
    refine appends_ite _ (appends_mseq hargs (appends_mseq (appends_emAdd _ _ _) (appends_emAdd _ _ _))) ?_
    refine appends_ite _ (appends_mseq hargs (appends_emAdd _ _ _)) ?_
    refine appends_ite _ (appends_mseq hargs (appends_mseq (appends_emAdd _ _ _) (appends_emAdd _ _ _))) ?_
    refine appends_ite _ (appends_mseq hargs (appends_emAdd _ _ _)) ?_
    refine appends_ite _ (appends_mseq hargs (appends_emAdd _ _ _)) ?_
    refine appends_ite _ (appends_mseq hargs (appends_emAdd _ _ _)) ?_
    refine appends_ite _ (appends_mseq (appends_emAdd _ _ _) (appends_emAdd _ _ _)) ?_
    refine appends_ite _ hfield ?_
    refine appends_ite _ (appends_mseq (appends_emAdd _ _ _) (appends_emAdd _ _ _)) ?_
    exact appends_emAdd _ _ _
  rw [genBody_eq_default rec nd h1 h2 h3 h4 h5 h6 h7 h8 h9 h10 h11]
  exact appends_genSeq hrec _

theorem appends_genF (fuel : Nat) (nd : ASTNode) : Appends (genF fuel nd) := by
  induction fuel generalizing nd with
  | zero => exact appends_mFail
  | succ f ih =>
    rw [genF]
    exact appends_genBody _ ih nd

end Aqua

namespace Aqua

theorem paramStore_run (sc : SymbolTable) (p : String) (sym : Sym) (st : GenSt)
    (h : sc.get p = some sym) (hd : 0 ≤ st.depth) :
    paramStore sc p st =
      .ok { st with lines := st.lines ++ paramLines sc p, depth := st.depth + 1 } := by
  unfold paramStore
  rw [h]
  refine mseq_ok_trans (emAdd_ok _ _ _ _ (by omega)) ?_
  refine mseq_ok_trans (emAdd_ok _ _ _ _ (by try dsimp only; omega)) ?_
  refine mseq_ok_trans (emAdd_ok _ _ _ _ (by try dsimp only; omega)) ?_
  refine (emAdd_ok _ _ _ _ (by try dsimp only; omega)).trans ?_
  simp [paramLines, h, GenSt.mk.injEq]
  omega

theorem paramStores_run (sc : SymbolTable) (ps : List String) (st : GenSt)
    (h : ∀ p ∈ ps, (sc.get p).isSome) (hd : 0 ≤ st.depth) :
    paramStores sc ps st =
      .ok { st with lines := st.lines ++ ps.flatMap (paramLines sc),
                    depth := st.depth + ps.length } := by
  induction ps generalizing st with
  | nil => simp [paramStores, mId]
  | cons p rest ih =>
    obtain ⟨sym, hsym⟩ := Option.isSome_iff_exists.1 (h p (List.mem_cons_self p rest))
    rw [paramStores]
    refine mseq_ok_trans (paramStore_run sc p sym st hsym hd) ?_
    refine (ih _ (fun q hq => h q (List.mem_cons_of_mem p hq))
      (by try dsimp only; omega)).trans ?_
    simp [GenSt.mk.injEq]
    omega

theorem funcSetup_run (nd : ASTNode) (sc : SymbolTable) (st : GenSt)
    (h : nd.data.scope = some sc) (hd : 0 ≤ st.depth) :
    funcSetup nd st =
      .ok { st with lines := st.lines ++ funcPrologue nd.getName sc.getNumSymbols,
                    depth := st.depth + 2 } := by
  unfold funcSetup
  rw [h]
  refine mseq_ok_trans rfl ?_
  refine mseq_ok_trans rfl ?_
  refine mseq_ok_trans (emAdd_ok _ _ _ _ (by try dsimp only; omega)) ?_
  refine mseq_ok_trans rfl ?_
  refine mseq_ok_trans rfl ?_
  refine mseq_ok_trans (emAdd_ok _ _ _ _ (by try dsimp only; omega)) ?_
  refine mseq_ok_trans (emAdd_ok _ _ _ _ (by try dsimp only; omega)) ?_
  refine mseq_ok_trans (emAdd_ok _ _ _ _ (by try dsimp only; omega)) ?_
  refine mseq_ok_trans (emAdd_ok _ _ _ _ (by try dsimp only; omega)) ?_
  refine mseq_ok_trans (emAdd_ok _ _ _ _ (by try dsimp only; omega)) ?_
  refine mseq_ok_trans (emAdd_ok _ _ _ _ (by try dsimp only; omega)) ?_
  refine mseq_ok_trans (emAdd_ok _ _ _ _ (by try dsimp only; omega)) ?_
  unfold emSection
  simp [funcPrologue, GenSt.mk.injEq]
  omega

theorem funcParams_run (nd : ASTNode) (ps : List String) (sc : SymbolTable) (st : GenSt)
    (hp : nd.data.params = some ps) (hs : nd.data.scope = some sc)
    (h : ∀ p ∈ ps, (sc.get p).isSome) (hd : 0 ≤ st.depth) :
    funcParams nd st =
      .ok { st with
            lines := st.lines ++
              ([Line.blank, Line.comment ("Setup arguments.")] ++
                ps.reverse.flatMap (paramLines sc)),
            depth := st.depth + ps.length } := by
  unfold funcParams
  rw [hp, hs]
  refine mseq_ok_trans rfl ?_
  refine (paramStores_run sc ps.reverse _ (fun q hq => h q (List.mem_reverse.1 hq))
    (by try dsimp only; omega)).trans ?_
  simp [GenSt.mk.injEq]

theorem paramStore_parts (sc : SymbolTable) (p : String) (st st' : GenSt)
    (hok : paramStore sc p st = .ok st') :
    st'.lines = st.lines ++ paramLines sc p := by
  unfold paramStore at hok
  cases hget : sc.get p with
  | none =>
    rw [hget] at hok
    cases hok
  | some sym =>
    rw [hget] at hok
    obtain ⟨t1, e1, hok⟩ := mseq_eq_ok.1 hok
    obtain ⟨l1, -⟩ := emAdd_parts _ _ _ _ _ e1
    obtain ⟨t2, e2, hok⟩ := mseq_eq_ok.1 hok
    obtain ⟨l2, -⟩ := emAdd_parts _ _ _ _ _ e2
    obtain ⟨t3, e3, hok⟩ := mseq_eq_ok.1 hok
    obtain ⟨l3, -⟩ := emAdd_parts _ _ _ _ _ e3
    obtain ⟨l4, -⟩ := emAdd_parts _ _ _ _ _ hok
    rw [l4, l3, l2, l1]
    simp [paramLines, hget]

theorem paramStores_parts (sc : SymbolTable) (ps : List String) (st st' : GenSt)
    (hok : paramStores sc ps st = .ok st') :
    st'.lines = st.lines ++ ps.flatMap (paramLines sc) := by
  induction ps generalizing st with
  | nil =>
    cases hok
    simp
  | cons p rest ih =>
    obtain ⟨t1, e1, hok⟩ := mseq_eq_ok.1 hok
    have l1 := paramStore_parts sc p _ _ e1
    have l2 := ih _ hok
    rw [l2, l1]
    simp

theorem funcSetup_parts (nd : ASTNode) (sc : SymbolTable) (st st' : GenSt)
    (h : nd.data.scope = some sc) (hok : funcSetup nd st = .ok st') :
    st'.lines = st.lines ++ funcPrologue nd.getName sc.getNumSymbols := by
  unfold funcSetup at hok
  rw [h] at hok
  obtain ⟨t1, e1, hok⟩ := mseq_eq_ok.1 hok
  obtain ⟨l1, -⟩ := emLabel_parts _ _ _ e1
  obtain ⟨t2, e2, hok⟩ := mseq_eq_ok.1 hok
  obtain ⟨l2, -⟩ := emSection_parts _ _ _ e2
  obtain ⟨t3, e3, hok⟩ := mseq_eq_ok.1 hok
  obtain ⟨l3, -⟩ := emAdd_parts _ _ _ _ _ e3
  obtain ⟨t4, e4, hok⟩ := mseq_eq_ok.1 hok
  obtain ⟨l4, -⟩ := emSection_parts _ _ _ e4
  obtain ⟨t5, e5, hok⟩ := mseq_eq_ok.1 hok
  obtain ⟨l5, -⟩ := emSection_parts _ _ _ e5
  obtain ⟨t6, e6, hok⟩ := mseq_eq_ok.1 hok
  obtain ⟨l6, -⟩ := emAdd_parts _ _ _ _ _ e6
  obtain ⟨t7, e7, hok⟩ := mseq_eq_ok.1 hok
  obtain ⟨l7, -⟩ := emAdd_parts _ _ _ _ _ e7
  obtain ⟨t8, e8, hok⟩ := mseq_eq_ok.1 hok
  obtain ⟨l8, -⟩ := emAdd_parts _ _ _ _ _ e8
  obtain ⟨t9, e9, hok⟩ := mseq_eq_ok.1 hok
  obtain ⟨l9, -⟩ := emAdd_parts _ _ _ _ _ e9
  obtain ⟨t10, e10, hok⟩ := mseq_eq_ok.1 hok
  obtain ⟨l10, -⟩ := emAdd_parts _ _ _ _ _ e10
  obtain ⟨t11, e11, hok⟩ := mseq_eq_ok.1 hok
  obtain ⟨l11, -⟩ := emAdd_parts _ _ _ _ _ e11
  obtain ⟨t12, e12, hok⟩ := mseq_eq_ok.1 hok
  obtain ⟨l12, -⟩ := emAdd_parts _ _ _ _ _ e12
  obtain ⟨l13, -⟩ := emSection_parts _ _ _ hok
  rw [l13, l12, l11, l10, l9, l8, l7, l6, l5, l4, l3, l2, l1]
  simp [funcPrologue]

theorem funcParams_parts (nd : ASTNode) (ps : List String) (sc : SymbolTable)
    (st st' : GenSt)
    (hp : nd.data.params = some ps) (hs : nd.data.scope = some sc)
    (hok : funcParams nd st = .ok st') :
    st'.lines = st.lines ++
      ([Line.blank, Line.comment ("Setup arguments.")] ++
        ps.reverse.flatMap (paramLines sc)) := by
  unfold funcParams at hok
  rw [hp, hs] at hok
  obtain ⟨t1, e1, hok⟩ := mseq_eq_ok.1 hok
  obtain ⟨l1, -⟩ := emSection_parts _ _ _ e1
  have l2 := paramStores_parts sc ps.reverse _ _ hok
  rw [l2, l1]
  simp

end Aqua

namespace Aqua

theorem funcRest_number_ok (m : Nat) (nd : ASTNode) (v : String)
    (hb : nd.body = some (.node { nodeType := "number", value := some v } []
      none none none none none none))
    (st : GenSt) (hd : 0 ≤ st.depth) :
    funcRest (m + 1) nd st =
      .ok { st with
            lines := st.lines ++ ([Line.blank, Line.comment ("Function body.")] ++
              [Line.instr ("int " ++ v)] ++ funcEpilogue nd.getName),
            depth := st.depth + 1 } := by
  have hbody : genF (m + 1)
      (.node { nodeType := "number", value := some v } [] none none none none none none)
      { st with lines := st.lines ++ [Line.blank, Line.comment ("Function body.")] } =
      .ok { st with
            lines := st.lines ++
              [Line.blank, Line.comment ("Function body."), Line.instr ("int " ++ v)],
            depth := st.depth + 1 } := by
    rw [genF, genBody_eq_number _
      (.node { nodeType := "number", value := some v } [] none none none none none none) rfl]
    refine mseq_ok_trans rfl ?_
    refine (emAdd_ok _ _ _ _ (by try dsimp only; omega)).trans ?_
    simp [GenSt.mk.injEq, strOpt]
  unfold funcRest
  rw [hb]
  refine mseq_ok_trans rfl ?_
  refine mseq_ok_trans hbody ?_
  refine mseq_ok_trans rfl ?_
  refine mseq_ok_trans (emAdd_ok _ _ _ _ (by try dsimp only; omega)) ?_
  refine mseq_ok_trans (emAdd_ok _ _ _ _ (by try dsimp only; omega)) ?_
  refine mseq_ok_trans (emAdd_ok _ _ _ _ (by try dsimp only; omega)) ?_
  refine (emAdd_ok _ _ _ _ (by try dsimp only; omega)).trans ?_
  simp [funcEpilogue, GenSt.mk.injEq]

theorem funcRest_run (fuel : Nat) (nd b : ASTNode) (hb : nd.body = some b)
    (st stR : GenSt) (h : funcRest fuel nd st = .ok stR) :
    ∃ db, stR.lines =
      st.lines ++ ([Line.blank, Line.comment ("Function body.")] ++ db ++ funcEpilogue nd.getName) := by
  unfold funcRest at h
  rw [hb] at h
  obtain ⟨t0, e0, h⟩ := mseq_eq_ok.1 h
  obtain ⟨l0, -⟩ := emSection_parts _ _ _ e0
  obtain ⟨t1, e1, h⟩ := mseq_eq_ok.1 h
  obtain ⟨db, hdb⟩ := appends_genF fuel b _ _ e1
  obtain ⟨t2, e2, h⟩ := mseq_eq_ok.1 h
  obtain ⟨l2, -⟩ := emLabel_parts _ _ _ e2
  obtain ⟨t3, e3, h⟩ := mseq_eq_ok.1 h
  obtain ⟨l3, -⟩ := emAdd_parts _ _ _ _ _ e3
  obtain ⟨t4, e4, h⟩ := mseq_eq_ok.1 h
  obtain ⟨l4, -⟩ := emAdd_parts _ _ _ _ _ e4
  obtain ⟨t5, e5, h⟩ := mseq_eq_ok.1 h
  obtain ⟨l5, -⟩ := emAdd_parts _ _ _ _ _ e5
  obtain ⟨l6, -⟩ := emAdd_parts _ _ _ _ _ h
  refine ⟨db, ?_⟩
  rw [l6, l5, l4, l3, l2, hdb, l0]
  simp [funcEpilogue]

/-- Claim C4: for a function node with a non-empty parameter list, the
emitted prologue stores the parameters in reverse declaration order: after
the stack-frame allocation sequence and before the function body, the
output contains, for each parameter taken last-declared first, the sequence
`int <position>` (the parameter's position looked up in the function
scope), `load 0`, `+`, `stores`. -/
theorem c4_reverse_param_stores
    (d : NodeData) (cs : List ASTNode) (b : ASTNode) (ifb elseb init asg : Option ASTNode)
    (fargs : Option (List ASTNode)) (ps : List String) (sc : SymbolTable)
    (st0 : GenSt) (nd' : ASTNode) (st' : GenSt)
    (hps : d.params = some ps) (hne : ps ≠ [])
    (hsc : d.scope = some sc)
    (hmem : ∀ p ∈ ps, (sc.get p).isSome)
    (hok : generateFunctionCode (.node d cs (some b) ifb elseb init asg fargs) st0 =
      .ok (nd', st')) :
    (∀ p sym, sc.get p = some sym →
      paramLines sc p = [Line.instr ("int " ++ natStr sym.position), Line.instr ("load 0"),
        Line.instr ("+"), Line.instr ("stores")]) ∧
    ∃ dbody, st'.lines = st0.lines
      ++ funcPrologue (strOpt d.name) sc.getNumSymbols
      ++ ([Line.blank, Line.comment ("Setup arguments.")] ++ ps.reverse.flatMap (paramLines sc))
      ++ ([Line.blank, Line.comment ("Function body.")] ++ dbody
          ++ funcEpilogue (strOpt d.name)) := by
  constructor
  · intro p sym hsym
    unfold paramLines
    rw [hsym]
  unfold generateFunctionCode generateFunctionCodeF at hok
  split at hok
  · cases hok
  next stR hfr =>
    obtain ⟨u1, e1, hfr⟩ := mseq_eq_ok.1 hfr
    have hl1 := funcSetup_parts (ASTNode.node d cs (some b) ifb elseb init asg fargs)
      sc _ _ hsc e1
    obtain ⟨u2, e2, hfr⟩ := mseq_eq_ok.1 hfr
    have hl2 := funcParams_parts (ASTNode.node d cs (some b) ifb elseb init asg fargs)
      ps sc _ _ hps hsc e2
    obtain ⟨db, hdb⟩ :=
      funcRest_run _ (ASTNode.node d cs (some b) ifb elseb init asg fargs) b rfl _ stR hfr
    have hst : st' = stR := by
      cases hok
      rfl
    refine ⟨db, ?_⟩
    rw [hst, hdb, hl2, hl1]
    simp
    rfl

end Aqua

namespace Aqua

theorem c4_witness :
    ∃ nd' st' dbody,
      generateFunctionCode
        (.node { nodeType := "function-declaration", name := some ("f"),
                 params := some (["a", "b"]),
                 scope := some (.mk [("a", ⟨"a", .Variable, 1, false⟩),
                                     ("b", ⟨"b", .Variable, 2, false⟩)] none) }
          [] (some (.node { nodeType := "number", value := some ("1") } []
                none none none none none none))
          none none none none none)
        initState = .ok (nd', st') ∧
      st'.lines = initState.lines
        ++ funcPrologue ("f") 2
        ++ ([Line.blank, Line.comment ("Setup arguments.")] ++
            (["a", "b"] : List String).reverse.flatMap
              (paramLines (.mk [("a", ⟨"a", .Variable, 1, false⟩),
                                ("b", ⟨"b", .Variable, 2, false⟩)] none)))
        ++ ([Line.blank, Line.comment ("Function body.")] ++ dbody
            ++ funcEpilogue ("f")) := by
  have e1 : funcSetup (.node { nodeType := "function-declaration", name := some ("f"), params := some (["a", "b"]), scope := some (.mk [("a", ⟨"a", .Variable, 1, false⟩), ("b", ⟨"b", .Variable, 2, false⟩)] none) } [] (some (.node { nodeType := "number", value := some ("1") } [] none none none none none none)) none none none none none) ⟨[], 0, 0, false, some (.node { nodeType := "function-declaration", name := some ("f"), params := some (["a", "b"]), scope := some (.mk [("a", ⟨"a", .Variable, 1, false⟩), ("b", ⟨"b", .Variable, 2, false⟩)] none) } [] (some (.node { nodeType := "number", value := some ("1") } [] none none none none none none)) none none none none none)⟩ = .ok ⟨funcPrologue ("f") 2, 2, 0, false, some (.node { nodeType := "function-declaration", name := some ("f"), params := some (["a", "b"]), scope := some (.mk [("a", ⟨"a", .Variable, 1, false⟩), ("b", ⟨"b", .Variable, 2, false⟩)] none) } [] (some (.node { nodeType := "number", value := some ("1") } [] none none none none none none)) none none none none none)⟩ :=
    funcSetup_run _ (.mk [("a", ⟨"a", .Variable, 1, false⟩), ("b", ⟨"b", .Variable, 2, false⟩)] none) _ rfl (by decide)
  have e2 : funcParams (.node { nodeType := "function-declaration", name := some ("f"), params := some (["a", "b"]), scope := some (.mk [("a", ⟨"a", .Variable, 1, false⟩), ("b", ⟨"b", .Variable, 2, false⟩)] none) } [] (some (.node { nodeType := "number", value := some ("1") } [] none none none none none none)) none none none none none) ⟨funcPrologue ("f") 2, 2, 0, false, some (.node { nodeType := "function-declaration", name := some ("f"), params := some (["a", "b"]), scope := some (.mk [("a", ⟨"a", .Variable, 1, false⟩), ("b", ⟨"b", .Variable, 2, false⟩)] none) } [] (some (.node { nodeType := "number", value := some ("1") } [] none none none none none none)) none none none none none)⟩ = .ok ⟨funcPrologue ("f") 2 ++ ([Line.blank, Line.comment ("Setup arguments.")] ++ (["a", "b"] : List String).reverse.flatMap (paramLines (.mk [("a", ⟨"a", .Variable, 1, false⟩), ("b", ⟨"b", .Variable, 2, false⟩)] none))), 4, 0, false, some (.node { nodeType := "function-declaration", name := some ("f"), params := some (["a", "b"]), scope := some (.mk [("a", ⟨"a", .Variable, 1, false⟩), ("b", ⟨"b", .Variable, 2, false⟩)] none) } [] (some (.node { nodeType := "number", value := some ("1") } [] none none none none none none)) none none none none none)⟩ :=
    funcParams_run _ (["a", "b"]) _ _ rfl rfl (by decide) (by decide)
  obtain ⟨r3, e3⟩ : ∃ r3, funcRest 4 (.node { nodeType := "function-declaration", name := some ("f"), params := some (["a", "b"]), scope := some (.mk [("a", ⟨"a", .Variable, 1, false⟩), ("b", ⟨"b", .Variable, 2, false⟩)] none) } [] (some (.node { nodeType := "number", value := some ("1") } [] none none none none none none)) none none none none none) ⟨funcPrologue ("f") 2 ++ ([Line.blank, Line.comment ("Setup arguments.")] ++ (["a", "b"] : List String).reverse.flatMap (paramLines (.mk [("a", ⟨"a", .Variable, 1, false⟩), ("b", ⟨"b", .Variable, 2, false⟩)] none))), 4, 0, false, some (.node { nodeType := "function-declaration", name := some ("f"), params := some (["a", "b"]), scope := some (.mk [("a", ⟨"a", .Variable, 1, false⟩), ("b", ⟨"b", .Variable, 2, false⟩)] none) } [] (some (.node { nodeType := "number", value := some ("1") } [] none none none none none none)) none none none none none)⟩ = .ok r3 := ⟨_, rfl⟩
  have hok0 := generateFunctionCodeF_ok 4 (.node { nodeType := "function-declaration", name := some ("f"), params := some (["a", "b"]), scope := some (.mk [("a", ⟨"a", .Variable, 1, false⟩), ("b", ⟨"b", .Variable, 2, false⟩)] none) } [] (some (.node { nodeType := "number", value := some ("1") } [] none none none none none none)) none none none none none) initState r3 (mseq_ok_trans e1 (mseq_ok_trans e2 e3))
  have hok : generateFunctionCode (.node { nodeType := "function-declaration", name := some ("f"), params := some (["a", "b"]), scope := some (.mk [("a", ⟨"a", .Variable, 1, false⟩), ("b", ⟨"b", .Variable, 2, false⟩)] none) } [] (some (.node { nodeType := "number", value := some ("1") } [] none none none none none none)) none none none none none) initState = _ := hok0
  have h := c4_reverse_param_stores
    { nodeType := "function-declaration", name := some ("f"),
      params := some (["a", "b"]),
      scope := some (.mk [("a", ⟨"a", .Variable, 1, false⟩),
                          ("b", ⟨"b", .Variable, 2, false⟩)] none) }
    [] (.node { nodeType := "number", value := some ("1") } [] none none none none none none)
    none none none none none
    (["a", "b"])
    (.mk [("a", ⟨"a", .Variable, 1, false⟩), ("b", ⟨"b", .Variable, 2, false⟩)] none)
    initState _ _ rfl (by decide) rfl (by decide) hok
  obtain ⟨-, dbody, hl⟩ := h
  exact ⟨_, _, dbody, hok, hl⟩

end Aqua

namespace Aqua

theorem sizeN_node_eq (d : NodeData) (cs : List ASTNode)
    (body ifb elseb init asg : Option ASTNode) (fargs : Option (List ASTNode)) :
    sizeN (.node d cs body ifb elseb init asg fargs) =
      sizeL cs + sizeO body + sizeO ifb + sizeO elseb + sizeO init + sizeO asg +
        (match fargs with | some l => sizeL l + 1 | none => 0) + 1 := by
  rw [sizeN.eq_def]

theorem sizeL_nil_eq : sizeL [] = 0 := by rw [sizeL.eq_def]

theorem sizeL_cons_eq (x : ASTNode) (xs : List ASTNode) :
    sizeL (x :: xs) = sizeN x + sizeL xs := by rw [sizeL.eq_def]

theorem sizeO_none_eq : sizeO none = 0 := by rw [sizeO.eq_def]

theorem sizeO_some_eq (x : ASTNode) : sizeO (some x) = sizeN x + 1 := by rw [sizeO.eq_def]

theorem bootstrapM_run (st : GenSt) (hd : 0 ≤ st.depth) :
    bootstrapM st = .ok { st with lines := st.lines ++ bootLines } := by
  unfold bootstrapM
  refine mseq_ok_trans rfl ?_
  refine mseq_ok_trans (emAdd_ok _ _ _ _ (by try dsimp only; omega)) ?_
  refine mseq_ok_trans (emAdd_ok _ _ _ _ (by try dsimp only; omega)) ?_
  unfold emSection
  simp [bootLines, GenSt.mk.injEq]

theorem bootstrapM_parts_full (st st' : GenSt) (h : bootstrapM st = .ok st') :
    st' = { st with lines := st.lines ++ bootLines } := by
  unfold bootstrapM at h
  obtain ⟨t1, e1, h⟩ := mseq_eq_ok.1 h
  cases e1
  obtain ⟨t2, e2, h⟩ := mseq_eq_ok.1 h
  unfold emAdd at e2
  split at e2
  · cases e2
  cases e2
  obtain ⟨t3, e3, h⟩ := mseq_eq_ok.1 h
  unfold emAdd at e3
  split at e3
  · cases e3
  cases e3
  cases h
  simp [bootLines, GenSt.mk.injEq]

theorem bootstrapM_parts (st st' : GenSt) (h : bootstrapM st = .ok st') :
    st'.lines = st.lines ++ bootLines := by
  unfold bootstrapM at h
  obtain ⟨t1, e1, h⟩ := mseq_eq_ok.1 h
  obtain ⟨l1, -⟩ := emSection_parts _ _ _ e1
  obtain ⟨t2, e2, h⟩ := mseq_eq_ok.1 h
  obtain ⟨l2, -⟩ := emAdd_parts _ _ _ _ _ e2
  obtain ⟨t3, e3, h⟩ := mseq_eq_ok.1 h
  obtain ⟨l3, -⟩ := emAdd_parts _ _ _ _ _ e3
  obtain ⟨l4, -⟩ := emSection_parts _ _ _ h
  rw [l4, l3, l2, l1]
  simp [bootLines]

theorem generateFunctionCodeF_decomp (fuel : Nat)
    (d : NodeData) (cs : List ASTNode) (b : ASTNode) (ifb elseb init asg : Option ASTNode)
    (fargs : Option (List ASTNode)) (ps : List String) (sc : SymbolTable)
    (st0 : GenSt) (nd' : ASTNode) (st' : GenSt)
    (hps : d.params = some ps)
    (hsc : d.scope = some sc)
    (hmem : ∀ p ∈ ps, (sc.get p).isSome)
    (hok : generateFunctionCodeF fuel (.node d cs (some b) ifb elseb init asg fargs) st0 =
      .ok (nd', st')) :
    nd' = .node { d with params := some ps.reverse } cs (some b) ifb elseb init asg fargs ∧
    ∃ dbody, st'.lines = st0.lines
      ++ funcPrologue (strOpt d.name) sc.getNumSymbols
      ++ ([Line.blank, Line.comment ("Setup arguments.")] ++ ps.reverse.flatMap (paramLines sc))
      ++ ([Line.blank, Line.comment ("Function body.")] ++ dbody
          ++ funcEpilogue (strOpt d.name)) := by
  unfold generateFunctionCodeF at hok
  split at hok
  · cases hok
  next stR hfr =>
    obtain ⟨u1, e1, hfr⟩ := mseq_eq_ok.1 hfr
    have hl1 := funcSetup_parts (ASTNode.node d cs (some b) ifb elseb init asg fargs)
      sc _ _ hsc e1
    obtain ⟨u2, e2, hfr⟩ := mseq_eq_ok.1 hfr
    have hl2 := funcParams_parts (ASTNode.node d cs (some b) ifb elseb init asg fargs)
      ps sc _ _ hps hsc e2
    obtain ⟨db, hdb⟩ :=
      funcRest_run _ (ASTNode.node d cs (some b) ifb elseb init asg fargs) b rfl _ stR hfr
    have hpair : nd' = ASTNode.node
          { d with params := some ps.reverse } cs (some b) ifb elseb init asg fargs ∧
        st' = stR := by
      cases hok
      refine ⟨?_, rfl⟩
      simp [hps]
    obtain ⟨hn, hst⟩ := hpair
    refine ⟨hn, db, ?_⟩
    rw [hst, hdb, hl2, hl1]
    simp
    rfl

end Aqua

namespace Aqua

theorem genF_root_skip (m : Nat)
    (d : NodeData) (b : ASTNode) (ifb elseb init asg : Option ASTNode)
    (fargs : Option (List ASTNode)) (st : GenSt)
    (hT : d.nodeType = "function-declaration") :
    genF (m + 2)
      (.node { nodeType := "block-statement" }
        [.node d [] (some b) ifb elseb init asg fargs] none none none none none none) st =
      .ok st := by
  rw [genF]
  rw [genBody_eq_default _
      (.node { nodeType := "block-statement" }
        [.node d [] (some b) ifb elseb init asg fargs] none none none none none none)
      (by simp) (by simp) (by simp) (by simp) (by simp) (by simp)
      (by simp) (by simp) (by simp) (by simp) (by simp)]
  simp only [children_node, genSeq]
  unfold mseq
  rw [genF]
  rw [genBody_eq_default _ (.node d [] (some b) ifb elseb init asg fargs)
      (fun hc => absurd (hT.symm.trans hc) (by decide))
      (fun hc => absurd (hT.symm.trans hc) (by decide))
      (fun hc => absurd (hT.symm.trans hc) (by decide))
      (fun hc => absurd (hT.symm.trans hc) (by decide))
      (fun hc => absurd (hT.symm.trans hc) (by decide))
      (fun hc => absurd (hT.symm.trans hc) (by decide))
      (fun hc => absurd (hT.symm.trans hc) (by decide))
      (fun hc => absurd (hT.symm.trans hc) (by decide))
      (fun hc => absurd (hT.symm.trans hc) (by decide))
      (fun hc => absurd (hT.symm.trans hc) (by decide))
      (fun hc => absurd (hT.symm.trans hc) (by decide))]
  simp only [children_node, genSeq, mId]

theorem genSecondPass_one (fuel : Nat) (fn : ASTNode) (st1 : GenSt)
    (fns : List ASTNode) (st' : GenSt)
    (hok : genSecondPass fuel [fn] st1 = .ok (fns, st')) :
    ∃ f' st3, generateFunctionCodeF fuel fn
        { st1 with lines := st1.lines ++ [Line.instr ("b program_end")],
                   inFunction := true } = .ok (f', st3) ∧
      fns = [f'] ∧
      st' = { st3 with lines := st3.lines ++ [Line.blank, Line.lab ("program_end")] } := by
  unfold genSecondPass at hok
  split at hok
  · cases hok
  next stB hemadd =>
    unfold emAdd at hemadd
    split at hemadd
    · cases hemadd
    cases hemadd
    simp only [runFuncSeq, mseq, emSection, emLabel, add_zero, sub_zero] at hok
    split at hok
    next e heq =>
      split at heq
      · cases hok
      · cases heq
    next fs' st2 heq =>
      split at heq
      · cases heq
      next f2 st4 hgfc =>
        cases heq
        cases hok
        exact ⟨f2, _, hgfc, rfl, by simp⟩

end Aqua

namespace Aqua

theorem generateCode_one_fn
    (d : NodeData) (b : ASTNode) (ifb elseb init asg : Option ASTNode)
    (fargs : Option (List ASTNode)) (ps : List String) (sc : SymbolTable)
    (st0 : GenSt) (fns : List ASTNode) (st' : GenSt)
    (hT : d.nodeType = "function-declaration")
    (hps : d.params = some ps) (hsc : d.scope = some sc)
    (hmem : ∀ p ∈ ps, (sc.get p).isSome)
    (hok : generateCode
        (.node { nodeType := "block-statement" }
          [.node d [] (some b) ifb elseb init asg fargs] none none none none none none) st0 =
      .ok (fns, st')) :
    fns = [.node { d with params := some ps.reverse } [] (some b) ifb elseb init asg fargs] ∧
    ∃ dbody, st'.lines = st0.lines ++ bootLines ++ [Line.instr ("b program_end")]
      ++ funcPrologue (strOpt d.name) sc.getNumSymbols
      ++ ([Line.blank, Line.comment ("Setup arguments.")] ++ ps.reverse.flatMap (paramLines sc))
      ++ ([Line.blank, Line.comment ("Function body.")] ++ dbody ++ funcEpilogue (strOpt d.name))
      ++ [Line.blank, Line.lab ("program_end")] := by
  unfold generateCode generateCodeF at hok
  have hcol : collectFunctions
      (.node { nodeType := "block-statement" }
        [.node d [] (some b) ifb elseb init asg fargs] none none none none none none) =
      [.node d [] (some b) ifb elseb init asg fargs] := by
    rw [collectFunctions.eq_def]
    simp only [collectFunctionsL, collectFunctions.eq_def, hT]
    simp
  simp only [hcol, List.length_cons, List.length_nil, gt_iff_lt, Nat.zero_lt_succ,
    if_true] at hok
  have hsz : sizeN
      (.node { nodeType := "block-statement" }
        [.node d [] (some b) ifb elseb init asg fargs] none none none none none none) =
      sizeN (.node d [] (some b) ifb elseb init asg fargs) + 1 := by
    rw [sizeN_node_eq, sizeL_cons_eq, sizeL_nil_eq, sizeO_none_eq]
    simp
  have hgf : ∀ st, genF
      (sizeN (.node { nodeType := "block-statement" }
        [.node d [] (some b) ifb elseb init asg fargs] none none none none none none) + 1)
      (.node { nodeType := "block-statement" }
        [.node d [] (some b) ifb elseb init asg fargs] none none none none none none) st =
      .ok st := by
    intro st
    rw [hsz]
    exact genF_root_skip (sizeN (.node d [] (some b) ifb elseb init asg fargs))
      d b ifb elseb init asg fargs st hT
  split at hok
  · cases hok
  next st1 hms =>
    obtain ⟨sB, hB, hG⟩ := mseq_eq_ok.1 hms
    rw [hgf sB] at hG
    cases hG
    have hbl := bootstrapM_parts _ _ hB
    obtain ⟨f', st3, hgfc, hfns, hst⟩ := genSecondPass_one _ _ _ _ _ hok
    obtain ⟨hn, db, hl⟩ := generateFunctionCodeF_decomp _ d [] b ifb elseb init asg fargs
      ps sc _ f' st3 hps hsc hmem hgfc
    refine ⟨by rw [hfns, hn], db, ?_⟩
    rw [hst]
    simp only [GenSt.lines]
    rw [hl]
    simp only [GenSt.lines]
    rw [hbl]

end Aqua

namespace Aqua

/-- Claim C9: code generation mutates its input AST: for a
function-declaration node whose parameter list has two or more entries,
the run returns the function node with its `params` list holding the
reverse of the original order (the in-place reversal), and a second
`generateCode` call on the same AST — which, by the aliasing of the
mutation, holds the reversed node — emits the parameter store sequences in
the opposite order to the first call: the first call stores the parameters
in the order `ps.reverse`, the second in the order `ps`. -/
theorem c9_params_reversed_in_place
    (d : NodeData) (b : ASTNode) (ifb elseb init asg : Option ASTNode)
    (fargs : Option (List ASTNode)) (ps : List String) (sc : SymbolTable)
    (st0 st1 : GenSt) (fns fns2 : List ASTNode) (st' st'' : GenSt)
    (hT : d.nodeType = "function-declaration")
    (hps : d.params = some ps) (hlen : 2 ≤ ps.length)
    (hsc : d.scope = some sc)
    (hmem : ∀ p ∈ ps, (sc.get p).isSome)
    (hok : generateCode
        (.node { nodeType := "block-statement" }
          [.node d [] (some b) ifb elseb init asg fargs] none none none none none none) st0 =
      .ok (fns, st'))
    (hok2 : generateCode
        (.node { nodeType := "block-statement" }
          [.node { d with params := some ps.reverse } [] (some b) ifb elseb init asg fargs]
          none none none none none none) st1 =
      .ok (fns2, st'')) :
    fns = [.node { d with params := some ps.reverse } [] (some b) ifb elseb init asg fargs] ∧
    (∃ dbody, st'.lines = st0.lines ++ bootLines ++ [Line.instr ("b program_end")]
      ++ funcPrologue (strOpt d.name) sc.getNumSymbols
      ++ ([Line.blank, Line.comment ("Setup arguments.")] ++ ps.reverse.flatMap (paramLines sc))
      ++ ([Line.blank, Line.comment ("Function body.")] ++ dbody ++ funcEpilogue (strOpt d.name))
      ++ [Line.blank, Line.lab ("program_end")]) ∧
    (∃ dbody, st''.lines = st1.lines ++ bootLines ++ [Line.instr ("b program_end")]
      ++ funcPrologue (strOpt d.name) sc.getNumSymbols
      ++ ([Line.blank, Line.comment ("Setup arguments.")] ++ ps.flatMap (paramLines sc))
      ++ ([Line.blank, Line.comment ("Function body.")] ++ dbody ++ funcEpilogue (strOpt d.name))
      ++ [Line.blank, Line.lab ("program_end")]) := by
  obtain ⟨hfns, db1, hl1⟩ :=
    generateCode_one_fn d b ifb elseb init asg fargs ps sc st0 fns st' hT hps hsc hmem hok
  obtain ⟨-, db2, hl2⟩ :=
    generateCode_one_fn { d with params := some ps.reverse } b ifb elseb init asg fargs
      ps.reverse sc st1 fns2 st'' hT rfl hsc
      (fun p hp => hmem p (List.mem_reverse.1 hp)) hok2
  rw [List.reverse_reverse] at hl2
  exact ⟨hfns, ⟨db1, hl1⟩, ⟨db2, hl2⟩⟩

end Aqua

namespace Aqua

theorem c9_run_exists (ps : List String)
    (hmem : ∀ p ∈ ps, (SymbolTable.get
        (.mk [("a", ⟨"a", .Variable, 1, false⟩), ("b", ⟨"b", .Variable, 2, false⟩)] none)
        p).isSome) :
    ∃ r, generateCode
      (.node { nodeType := "block-statement" }
        [.node { nodeType := "function-declaration", name := some ("f"),
                 params := some ps,
                 scope := some (.mk [("a", ⟨"a", .Variable, 1, false⟩),
                                     ("b", ⟨"b", .Variable, 2, false⟩)] none) } []
          (some (.node { nodeType := "number", value := some ("1") } []
            none none none none none none))
          none none none none none] none none none none none none) initState = .ok r := by
  have hgf : ∀ st, genF
      (sizeN (.node { nodeType := "block-statement" } [.node { nodeType := "function-declaration", name := some ("f"), params := some ps, scope := some (.mk [("a", ⟨"a", .Variable, 1, false⟩), ("b", ⟨"b", .Variable, 2, false⟩)] none) } [] (some (.node { nodeType := "number", value := some ("1") } [] none none none none none none)) none none none none none] none none none none none none) + 1)
      (.node { nodeType := "block-statement" } [.node { nodeType := "function-declaration", name := some ("f"), params := some ps, scope := some (.mk [("a", ⟨"a", .Variable, 1, false⟩), ("b", ⟨"b", .Variable, 2, false⟩)] none) } [] (some (.node { nodeType := "number", value := some ("1") } [] none none none none none none)) none none none none none] none none none none none none) st = .ok st :=
    fun st => rfl
  have hboot : mseq bootstrapM
      (genF (sizeN (.node { nodeType := "block-statement" } [.node { nodeType := "function-declaration", name := some ("f"), params := some ps, scope := some (.mk [("a", ⟨"a", .Variable, 1, false⟩), ("b", ⟨"b", .Variable, 2, false⟩)] none) } [] (some (.node { nodeType := "number", value := some ("1") } [] none none none none none none)) none none none none none] none none none none none none) + 1) (.node { nodeType := "block-statement" } [.node { nodeType := "function-declaration", name := some ("f"), params := some ps, scope := some (.mk [("a", ⟨"a", .Variable, 1, false⟩), ("b", ⟨"b", .Variable, 2, false⟩)] none) } [] (some (.node { nodeType := "number", value := some ("1") } [] none none none none none none)) none none none none none] none none none none none none))
      ⟨[], 0, 0, false, none⟩ = .ok ⟨bootLines, 0, 0, false, none⟩ :=
    mseq_ok_trans (bootstrapM_run _ (by decide)) (hgf _)
  have e1 : funcSetup (.node { nodeType := "function-declaration", name := some ("f"), params := some ps, scope := some (.mk [("a", ⟨"a", .Variable, 1, false⟩), ("b", ⟨"b", .Variable, 2, false⟩)] none) } [] (some (.node { nodeType := "number", value := some ("1") } [] none none none none none none)) none none none none none) ⟨bootLines ++ [Line.instr ("b program_end")], 0, 0, true, some (.node { nodeType := "function-declaration", name := some ("f"), params := some ps, scope := some (.mk [("a", ⟨"a", .Variable, 1, false⟩), ("b", ⟨"b", .Variable, 2, false⟩)] none) } [] (some (.node { nodeType := "number", value := some ("1") } [] none none none none none none)) none none none none none)⟩ = .ok ⟨(bootLines ++ [Line.instr ("b program_end")]) ++ funcPrologue ("f") 2, 2, 0, true, some (.node { nodeType := "function-declaration", name := some ("f"), params := some ps, scope := some (.mk [("a", ⟨"a", .Variable, 1, false⟩), ("b", ⟨"b", .Variable, 2, false⟩)] none) } [] (some (.node { nodeType := "number", value := some ("1") } [] none none none none none none)) none none none none none)⟩ :=
    funcSetup_run _ (.mk [("a", ⟨"a", .Variable, 1, false⟩), ("b", ⟨"b", .Variable, 2, false⟩)] none) _ rfl (by try dsimp only; omega)
  have e2 : funcParams (.node { nodeType := "function-declaration", name := some ("f"), params := some ps, scope := some (.mk [("a", ⟨"a", .Variable, 1, false⟩), ("b", ⟨"b", .Variable, 2, false⟩)] none) } [] (some (.node { nodeType := "number", value := some ("1") } [] none none none none none none)) none none none none none) ⟨(bootLines ++ [Line.instr ("b program_end")]) ++ funcPrologue ("f") 2, 2, 0, true, some (.node { nodeType := "function-declaration", name := some ("f"), params := some ps, scope := some (.mk [("a", ⟨"a", .Variable, 1, false⟩), ("b", ⟨"b", .Variable, 2, false⟩)] none) } [] (some (.node { nodeType := "number", value := some ("1") } [] none none none none none none)) none none none none none)⟩ = .ok ⟨((bootLines ++ [Line.instr ("b program_end")]) ++ funcPrologue ("f") 2) ++ ([Line.blank, Line.comment ("Setup arguments.")] ++ ps.reverse.flatMap (paramLines (.mk [("a", ⟨"a", .Variable, 1, false⟩), ("b", ⟨"b", .Variable, 2, false⟩)] none))), 2 + ps.length, 0, true, some (.node { nodeType := "function-declaration", name := some ("f"), params := some ps, scope := some (.mk [("a", ⟨"a", .Variable, 1, false⟩), ("b", ⟨"b", .Variable, 2, false⟩)] none) } [] (some (.node { nodeType := "number", value := some ("1") } [] none none none none none none)) none none none none none)⟩ :=
    funcParams_run _ ps _ _ rfl rfl hmem (by try dsimp only; omega)
  have e3 := funcRest_number_ok (sizeN (.node { nodeType := "block-statement" } [.node { nodeType := "function-declaration", name := some ("f"), params := some ps, scope := some (.mk [("a", ⟨"a", .Variable, 1, false⟩), ("b", ⟨"b", .Variable, 2, false⟩)] none) } [] (some (.node { nodeType := "number", value := some ("1") } [] none none none none none none)) none none none none none] none none none none none none))
    (.node { nodeType := "function-declaration", name := some ("f"), params := some ps, scope := some (.mk [("a", ⟨"a", .Variable, 1, false⟩), ("b", ⟨"b", .Variable, 2, false⟩)] none) } [] (some (.node { nodeType := "number", value := some ("1") } [] none none none none none none)) none none none none none) ("1") rfl
    ⟨((bootLines ++ [Line.instr ("b program_end")]) ++ funcPrologue ("f") 2) ++ ([Line.blank, Line.comment ("Setup arguments.")] ++ ps.reverse.flatMap (paramLines (.mk [("a", ⟨"a", .Variable, 1, false⟩), ("b", ⟨"b", .Variable, 2, false⟩)] none))), 2 + ps.length, 0, true, some (.node { nodeType := "function-declaration", name := some ("f"), params := some ps, scope := some (.mk [("a", ⟨"a", .Variable, 1, false⟩), ("b", ⟨"b", .Variable, 2, false⟩)] none) } [] (some (.node { nodeType := "number", value := some ("1") } [] none none none none none none)) none none none none none)⟩
    (by try dsimp only; omega)
  have hgfc := generateFunctionCodeF_ok
    (sizeN (.node { nodeType := "block-statement" } [.node { nodeType := "function-declaration", name := some ("f"), params := some ps, scope := some (.mk [("a", ⟨"a", .Variable, 1, false⟩), ("b", ⟨"b", .Variable, 2, false⟩)] none) } [] (some (.node { nodeType := "number", value := some ("1") } [] none none none none none none)) none none none none none] none none none none none none) + 1)
    (.node { nodeType := "function-declaration", name := some ("f"), params := some ps, scope := some (.mk [("a", ⟨"a", .Variable, 1, false⟩), ("b", ⟨"b", .Variable, 2, false⟩)] none) } [] (some (.node { nodeType := "number", value := some ("1") } [] none none none none none none)) none none none none none)
    ⟨bootLines ++ [Line.instr ("b program_end")], 0, 0, true, none⟩ _
    (mseq_ok_trans e1 (mseq_ok_trans e2 e3))
  have hsp := genSecondPass_ok
    (sizeN (.node { nodeType := "block-statement" } [.node { nodeType := "function-declaration", name := some ("f"), params := some ps, scope := some (.mk [("a", ⟨"a", .Variable, 1, false⟩), ("b", ⟨"b", .Variable, 2, false⟩)] none) } [] (some (.node { nodeType := "number", value := some ("1") } [] none none none none none none)) none none none none none] none none none none none none) + 1)
    (.node { nodeType := "function-declaration", name := some ("f"), params := some ps, scope := some (.mk [("a", ⟨"a", .Variable, 1, false⟩), ("b", ⟨"b", .Variable, 2, false⟩)] none) } [] (some (.node { nodeType := "number", value := some ("1") } [] none none none none none none)) none none none none none)
    ⟨bootLines, 0, 0, false, none⟩ _ _ _
    (emAdd_ok _ _ _ _ (by decide)) hgfc
  have hfin := generateCodeF_ok_with_fns _ _ initState _ _ (by exact Nat.zero_lt_succ 0) hboot hsp
  exact ⟨_, hfin⟩

end Aqua

namespace Aqua

theorem c9_witness :
    ∃ fns st' fns2 st'',
      generateCode
        (.node { nodeType := "block-statement" }
          [.node { nodeType := "function-declaration", name := some ("f"),
                   params := some (["a", "b"]),
                   scope := some (.mk [("a", ⟨"a", .Variable, 1, false⟩),
                                       ("b", ⟨"b", .Variable, 2, false⟩)] none) } []
            (some (.node { nodeType := "number", value := some ("1") } []
              none none none none none none))
            none none none none none] none none none none none none) initState =
        .ok (fns, st') ∧
      generateCode
        (.node { nodeType := "block-statement" }
          [.node { nodeType := "function-declaration", name := some ("f"),
                   params := some (["b", "a"]),
                   scope := some (.mk [("a", ⟨"a", .Variable, 1, false⟩),
                                       ("b", ⟨"b", .Variable, 2, false⟩)] none) } []
            (some (.node { nodeType := "number", value := some ("1") } []
              none none none none none none))
            none none none none none] none none none none none none) initState =
        .ok (fns2, st'') ∧
      fns = [.node { nodeType := "function-declaration", name := some ("f"),
                     params := some (["b", "a"]),
                     scope := some (.mk [("a", ⟨"a", .Variable, 1, false⟩),
                                         ("b", ⟨"b", .Variable, 2, false⟩)] none) } []
              (some (.node { nodeType := "number", value := some ("1") } []
                none none none none none none))
              none none none none none] ∧
      (∃ dbody, st'.lines = initState.lines ++ bootLines ++ [Line.instr ("b program_end")]
        ++ funcPrologue ("f") 2
        ++ ([Line.blank, Line.comment ("Setup arguments.")] ++
            (["a", "b"] : List String).reverse.flatMap
              (paramLines (.mk [("a", ⟨"a", .Variable, 1, false⟩),
                                ("b", ⟨"b", .Variable, 2, false⟩)] none)))
        ++ ([Line.blank, Line.comment ("Function body.")] ++ dbody ++ funcEpilogue ("f"))
        ++ [Line.blank, Line.lab ("program_end")]) ∧
      (∃ dbody, st''.lines = initState.lines ++ bootLines ++ [Line.instr ("b program_end")]
        ++ funcPrologue ("f") 2
        ++ ([Line.blank, Line.comment ("Setup arguments.")] ++
            (["a", "b"] : List String).flatMap
              (paramLines (.mk [("a", ⟨"a", .Variable, 1, false⟩),
                                ("b", ⟨"b", .Variable, 2, false⟩)] none)))
        ++ ([Line.blank, Line.comment ("Function body.")] ++ dbody ++ funcEpilogue ("f"))
        ++ [Line.blank, Line.lab ("program_end")]) := by
  obtain ⟨⟨fns, st'⟩, hok⟩ := c9_run_exists (["a", "b"]) (by decide)
  obtain ⟨⟨fns2, st''⟩, hok2⟩ := c9_run_exists (["b", "a"]) (by decide)
  have h := c9_params_reversed_in_place
    { nodeType := "function-declaration", name := some ("f"),
      params := some (["a", "b"]),
      scope := some (.mk [("a", ⟨"a", .Variable, 1, false⟩),
                          ("b", ⟨"b", .Variable, 2, false⟩)] none) }
    (.node { nodeType := "number", value := some ("1") } [] none none none none none none)
    none none none none none
    (["a", "b"])
    (.mk [("a", ⟨"a", .Variable, 1, false⟩), ("b", ⟨"b", .Variable, 2, false⟩)] none)
    initState initState fns fns2 st' st''
    rfl rfl (by decide) rfl (by decide) hok hok2
  obtain ⟨hfns, h1, h2⟩ := h
  exact ⟨fns, st', fns2, st'', hok, hok2, hfns, h1, h2⟩

end Aqua

namespace Aqua

theorem mseq_congr {f f' g g' : M} (hf : ∀ st, f st = f' st) (hg : ∀ st, g st = g' st) :
    ∀ st, mseq f g st = mseq f' g' st := by
  intro st
  unfold mseq
  rw [hf]
  cases f' st with
  | error e => rfl
  | ok s => exact hg s

theorem ite_m_congr {c : Prop} [Decidable c] {f f' g g' : M}
    (hf : ∀ st, f st = f' st) (hg : ∀ st, g st = g' st) :
    ∀ st, (if c then f else g) st = (if c then f' else g') st := by
  intro st
  by_cases h : c
  · rw [if_pos h, if_pos h]
    exact hf st
  · rw [if_neg h, if_neg h]
    exact hg st

theorem genSeq_congr_mem {rec rec' : ASTNode → M} :
    ∀ (l : List ASTNode), (∀ x ∈ l, ∀ st, rec x st = rec' x st) →
      ∀ st, genSeq rec l st = genSeq rec' l st := by
  intro l
  induction l with
  | nil => intro _ _; rfl
  | cons x xs ihl =>
    intro h st
    simp only [genSeq]
    exact mseq_congr (h x (List.mem_cons_self x xs))
      (ihl (fun y hy st2 => h y (List.mem_cons_of_mem x hy) st2)) st

end Aqua

namespace Aqua

theorem genBody_congr (rec rec' : ASTNode → M) (nd' nd : ASTNode)
    (hd : nd'.data = nd.data)
    (hcs : ∀ st, genSeq rec nd'.children st = genSeq rec' nd.children st)
    (hclen : nd'.children.length = nd.children.length)
    (hbody : nd.data.nodeType = "while-statement" →
      ∀ st, (match nd'.body with | some b => rec b | none => mFail) st =
        (match nd.body with | some b => rec' b | none => mFail) st)
    (hif : ∀ st, (match nd'.ifBlock with | some b => rec b | none => mFail) st =
      (match nd.ifBlock with | some b => rec' b | none => mFail) st)
    (helse : ∀ st, (match nd'.elseBlock with | some e => rec e | none => mId) st =
      (match nd.elseBlock with | some e => rec' e | none => mId) st)
    (hinit : ∀ st, (match nd'.initializer with | some i => rec i | none => mId) st =
      (match nd.initializer with | some i => rec' i | none => mId) st)
    (hfargs : ∀ st, (match nd'.functionArgs with | some l => genSeq rec l | none => mId) st =
      (match nd.functionArgs with | some l => genSeq rec' l | none => mId) st)
    (hfalen : (match nd'.functionArgs with | some l => (l.length : Int) | none => 0) =
      (match nd.functionArgs with | some l => (l.length : Int) | none => 0))
    (hitxn : ∀ st, (match nd'.functionArgs with
        | some (a :: _) => (match a.data.value with
            | some v => emAdd ("itxn_field " ++ unquote v) 0 1
            | none => mFail)
        | _ => mFail) st =
      (match nd.functionArgs with
        | some (a :: _) => (match a.data.value with
            | some v => emAdd ("itxn_field " ++ unquote v) 0 1
            | none => mFail)
        | _ => mFail) st) :
    ∀ st, genBody rec nd' st = genBody rec' nd st := by
  intro st
  by_cases h1 : nd.data.nodeType = "number"
  · rw [genBody_eq_number rec nd' (by rw [hd]; exact h1), genBody_eq_number rec' nd h1]
    exact mseq_congr hcs (fun s => by rw [hd]) st
  by_cases h2 : nd.data.nodeType = "string-literal"
  · rw [genBody_eq_stringLit rec nd' (by rw [hd]; exact h2), genBody_eq_stringLit rec' nd h2]
    exact mseq_congr hcs (fun s => by rw [hd]) st
  by_cases h3 : nd.data.nodeType = "operation"
  · rw [genBody_eq_operation rec nd' (by rw [hd]; exact h3), genBody_eq_operation rec' nd h3]
    exact mseq_congr hcs (fun s => by rw [hd]) st
  by_cases h4 : nd.data.nodeType = "expr-statement"
  · rw [genBody_eq_exprStmt rec nd' (by rw [hd]; exact h4), genBody_eq_exprStmt rec' nd h4]
    exact mseq_congr (fun _ => rfl) (mseq_congr hcs (fun _ => rfl)) st
  by_cases h5 : nd.data.nodeType = "return-statement"
  · rw [genBody_eq_returnStmt rec nd' (by rw [hd]; exact h5), genBody_eq_returnStmt rec' nd h5]
    exact mseq_congr (fun _ => rfl) (mseq_congr hcs (fun _ => rfl)) st
  by_cases h6 : nd.data.nodeType = "declare-variable"
  · rw [genBody_eq_declareVar rec nd' (by rw [hd]; exact h6), genBody_eq_declareVar rec' nd h6]
    exact mseq_congr (fun _ => rfl) (mseq_congr hcs (mseq_congr hinit (fun _ => rfl))) st
  by_cases h7 : nd.data.nodeType = "access-variable"
  · rw [genBody_eq_accessVar rec nd' (by rw [hd]; exact h7), genBody_eq_accessVar rec' nd h7]
    exact mseq_congr hcs (fun s => by rw [hd]) st
  by_cases h8 : nd.data.nodeType = "assignment-statement"
  · rw [genBody_eq_assignStmt rec nd' (by rw [hd]; exact h8), genBody_eq_assignStmt rec' nd h8]
    exact mseq_congr hcs (fun s => by rw [hd]) st
  by_cases h9 : nd.data.nodeType = "if-statement"
  · rw [genBody_eq_ifStmt rec nd' (by rw [hd]; exact h9), genBody_eq_ifStmt rec' nd h9]
    exact mseq_congr hcs
      (fun s =>
        mseq_congr (fun _ => rfl)
          (mseq_congr hif
            (mseq_congr (fun _ => rfl)
              (mseq_congr (fun _ => rfl)
                (mseq_congr helse (fun _ => rfl)))))
          { s with controlId := s.controlId + 1 }) st
  by_cases h10 : nd.data.nodeType = "while-statement"
  · rw [genBody_eq_whileStmt rec nd' (by rw [hd]; exact h10), genBody_eq_whileStmt rec' nd h10]
    exact mseq_congr (fun _ => rfl)
      (mseq_congr hcs
        (mseq_congr (fun s => by rw [hclen])
          (mseq_congr (hbody h10)
            (mseq_congr (fun _ => rfl) (fun _ => rfl)))))
      { st with controlId := st.controlId + 1 }
  by_cases h11 : nd.data.nodeType = "function-call"
  · rw [genBody_eq_functionCall rec nd' (by rw [hd]; exact h11), genBody_eq_functionCall rec' nd h11]
    refine mseq_congr (fun s => ?_) (mseq_congr hcs (fun s => ?_)) st
    · rw [hd]
      exact ite_m_congr (fun _ => rfl) hfargs s
    · rw [hd]
      refine ite_m_congr (mseq_congr hfargs (fun _ => rfl)) (fun s2 => ?_) s
      refine ite_m_congr (mseq_congr hfargs (fun _ => rfl)) (fun s3 => ?_) s2
      refine ite_m_congr (mseq_congr hfargs (fun _ => rfl)) (fun s4 => ?_) s3
      refine ite_m_congr (mseq_congr hfargs (fun _ => rfl)) (fun s5 => ?_) s4
      refine ite_m_congr (mseq_congr hfargs (fun _ => rfl)) (fun s6 => ?_) s5
      refine ite_m_congr (mseq_congr hfargs (fun _ => rfl)) (fun s7 => ?_) s6
      refine ite_m_congr (mseq_congr hfargs (fun _ => rfl)) (fun s8 => ?_) s7
      refine ite_m_congr (mseq_congr hfargs (fun _ => rfl)) (fun s9 => ?_) s8
      refine ite_m_congr (mseq_congr hfargs (fun _ => rfl)) (fun s10 => ?_) s9
      refine ite_m_congr (fun _ => rfl) (fun s11 => ?_) s10
      refine ite_m_congr hitxn (fun s12 => ?_) s11
      refine ite_m_congr (fun _ => rfl) (fun s13 => ?_) s12
      rw [hfalen]
  rw [genBody_eq_default rec nd' (by rw [hd]; exact h1) (by rw [hd]; exact h2)
      (by rw [hd]; exact h3) (by rw [hd]; exact h4) (by rw [hd]; exact h5)
      (by rw [hd]; exact h6) (by rw [hd]; exact h7) (by rw [hd]; exact h8)
      (by rw [hd]; exact h9) (by rw [hd]; exact h10) (by rw [hd]; exact h11),
    genBody_eq_default rec' nd h1 h2 h3 h4 h5 h6 h7 h8 h9 h10 h11]
  exact hcs st

end Aqua

namespace Aqua

theorem sizeL_mem_le (c : ASTNode) : ∀ (cs : List ASTNode), c ∈ cs → sizeN c ≤ sizeL cs := by
  intro cs
  induction cs with
  | nil => intro h; cases h
  | cons x xs ih =>
    intro h
    rw [sizeL_cons_eq]
    rcases List.mem_cons.1 h with h1 | h2
    · subst h1; omega
    · have := ih h2; omega

theorem genF_mono (f1 : Nat) : ∀ (f2 : Nat) (nd : ASTNode) (st : GenSt),
    sizeN nd < f1 → sizeN nd < f2 → genF f1 nd st = genF f2 nd st := by
  induction f1 with
  | zero => intro f2 nd st h1 _; exact absurd h1 (Nat.not_lt_zero _)
  | succ f1 ih =>
    intro f2 nd st h1 h2
    cases f2 with
    | zero => exact absurd h2 (Nat.not_lt_zero _)
    | succ f2 =>
      rw [genF, genF]
      cases nd with
      | node d cs body ifb elseb init asg fargs =>
        have hsz := sizeN_node_eq d cs body ifb elseb init asg fargs
        have hstep : ∀ m st2,
            sizeN m < sizeN (ASTNode.node d cs body ifb elseb init asg fargs) →
            genF f1 m st2 = genF f2 m st2 := by
          intro m st2 hm
          exact ih f2 m st2 (by omega) (by omega)
        refine genBody_congr (genF f1) (genF f2) _ _ rfl ?_ rfl ?_ ?_ ?_ ?_ ?_ rfl ?_ st
        · refine genSeq_congr_mem cs (fun x hx st2 => hstep x st2 ?_)
          have := sizeL_mem_le x cs hx
          omega
        · intro _ st2
          cases body with
          | none => rfl
          | some b =>
            refine hstep b st2 ?_
            have := sizeO_some_eq b
            omega
        · intro st2
          cases ifb with
          | none => rfl
          | some b =>
            refine hstep b st2 ?_
            have := sizeO_some_eq b
            omega
        · intro st2
          cases elseb with
          | none => rfl
          | some e =>
            refine hstep e st2 ?_
            have := sizeO_some_eq e
            omega
        · intro st2
          cases init with
          | none => rfl
          | some i =>
            refine hstep i st2 ?_
            have := sizeO_some_eq i
            omega
        · intro st2
          cases fargs with
          | none => rfl
          | some l =>
            have hred : (match (some l : Option (List ASTNode)) with
                | some l2 => sizeL l2 + 1 | none => 0) = sizeL l + 1 := rfl
            rw [hred] at hsz
            refine genSeq_congr_mem l (fun x hx st3 => hstep x st3 ?_) st2
            have := sizeL_mem_le x l hx
            omega
        · intro st2
          cases fargs with
          | none => rfl
          | some l => rfl

end Aqua

namespace Aqua

theorem eraseBodiesL_length : ∀ (l : List ASTNode), (eraseBodiesL l).length = l.length := by
  intro l
  induction l with
  | nil => rfl
  | cons x xs ih =>
    show (eraseBodies x :: eraseBodiesL xs).length = (x :: xs).length
    simp [ih]

theorem genSeq_eraseL (fuel : Nat)
    (ih : ∀ nd st, genF fuel (eraseBodies nd) st = genF fuel nd st) :
    ∀ (l : List ASTNode) (st), genSeq (genF fuel) (eraseBodiesL l) st = genSeq (genF fuel) l st := by
  intro l
  induction l with
  | nil => intro _; rfl
  | cons x xs ihl =>
    intro st
    show genSeq (genF fuel) (eraseBodies x :: eraseBodiesL xs) st = _
    simp only [genSeq]
    exact mseq_congr (ih x) ihl st

theorem genF_erase (fuel : Nat) : ∀ (nd : ASTNode) (st : GenSt),
    genF fuel (eraseBodies nd) st = genF fuel nd st := by
  induction fuel with
  | zero => intro nd st; rfl
  | succ fuel ih =>
    intro nd st
    cases nd with
    | node d cs body ifb elseb init asg fargs =>
      have he : eraseBodies (.node d cs body ifb elseb init asg fargs) =
          .node d (eraseBodiesL cs)
            (if d.nodeType = "function-declaration" then none else eraseBodiesO body)
            (eraseBodiesO ifb) (eraseBodiesO elseb) (eraseBodiesO init) (eraseBodiesO asg)
            (match fargs with | some l => some (eraseBodiesL l) | none => none) := by
        rw [eraseBodies.eq_def]
      rw [he, genF, genF]
      clear he
      refine genBody_congr (genF fuel) (genF fuel)
        (.node d (eraseBodiesL cs)
          (if d.nodeType = "function-declaration" then none else eraseBodiesO body)
          (eraseBodiesO ifb) (eraseBodiesO elseb) (eraseBodiesO init) (eraseBodiesO asg)
          (match fargs with | some l => some (eraseBodiesL l) | none => none))
        (.node d cs body ifb elseb init asg fargs)
        rfl ?_ ?_ ?_ ?_ ?_ ?_ ?_ ?_ ?_ st
      · exact genSeq_eraseL fuel ih cs
      · exact eraseBodiesL_length cs
      · intro hw st2
        have hnf : ¬ d.nodeType = "function-declaration" := by
          intro hc
          exact absurd (hw.symm.trans hc) (by decide)
        show (match (if d.nodeType = "function-declaration" then none
              else eraseBodiesO body) with
            | some b => genF fuel b | none => mFail) st2 = _
        rw [if_neg hnf]
        cases body with
        | none => rfl
        | some b => exact ih b st2
      · intro st2
        cases ifb with
        | none => rfl
        | some b => exact ih b st2
      · intro st2
        cases elseb with
        | none => rfl
        | some e => exact ih e st2
      · intro st2
        cases init with
        | none => rfl
        | some i => exact ih i st2
      · intro st2
        cases fargs with
        | none => rfl
        | some l => exact genSeq_eraseL fuel ih l st2
      · cases fargs with
        | none => rfl
        | some l =>
          show ((eraseBodiesL l).length : Int) = (l.length : Int)
          rw [eraseBodiesL_length]
      · intro st2
        cases fargs with
        | none => rfl
        | some l =>
          cases l with
          | nil => rfl
          | cons a rest =>
            cases a with
            | node da csa bodya ifba elseba inita asga fargsa => rfl

end Aqua

namespace Aqua

mutual

theorem sizeN_erase_le : ∀ (nd : ASTNode), sizeN (eraseBodies nd) ≤ sizeN nd
  | .node d cs body ifb elseb init asg fargs => by
    have he : eraseBodies (.node d cs body ifb elseb init asg fargs) =
        .node d (eraseBodiesL cs)
          (if d.nodeType = "function-declaration" then none else eraseBodiesO body)
          (eraseBodiesO ifb) (eraseBodiesO elseb) (eraseBodiesO init) (eraseBodiesO asg)
          (match fargs with | some l => some (eraseBodiesL l) | none => none) := by
      rw [eraseBodies.eq_def]
    have hcs := sizeL_erase_le cs
    have hifb := sizeO_erase_le ifb
    have helseb := sizeO_erase_le elseb
    have hinit := sizeO_erase_le init
    have hasg := sizeO_erase_le asg
    have hbody : sizeO (if d.nodeType = "function-declaration" then none
        else eraseBodiesO body) ≤ sizeO body := by
      split
      · rw [sizeO_none_eq]
        exact Nat.zero_le _
      · exact sizeO_erase_le body
    rw [he, sizeN_node_eq, sizeN_node_eq]
    cases fargs with
    | none =>
      simp only []
      omega
    | some l =>
      have hl := sizeL_erase_le l
      simp only []
      omega

theorem sizeL_erase_le : ∀ (l : List ASTNode), sizeL (eraseBodiesL l) ≤ sizeL l
  | [] => Nat.le_refl _
  | x :: xs => by
    have h1 := sizeN_erase_le x
    have h2 := sizeL_erase_le xs
    have he : eraseBodiesL (x :: xs) = eraseBodies x :: eraseBodiesL xs := by
      rw [eraseBodiesL.eq_def]
    rw [he, sizeL_cons_eq, sizeL_cons_eq]
    omega

theorem sizeO_erase_le : ∀ (o : Option ASTNode), sizeO (eraseBodiesO o) ≤ sizeO o
  | none => Nat.le_refl _
  | some x => by
    have := sizeN_erase_le x
    have he : eraseBodiesO (some x) = some (eraseBodies x) := by
      rw [eraseBodiesO.eq_def]
    rw [he, sizeO_some_eq, sizeO_some_eq]
    omega

end

end Aqua

namespace Aqua

/-- Claim C1: in the globals pass, function-declaration nodes produce no
emitted code and function bodies contribute nothing: the pass's outcome on
any tree equals its outcome on the same tree with every
function-declaration body erased (so no instruction originating from a
function body is emitted before the `b program_end` branch, the bodies
being emitted only by the dedicated second pass), and a
function-declaration node itself (which carries no generic children) is a
no-op of the pass. -/
theorem c1_globals_pass_ignores_function_bodies
    (ast : ASTNode) (st : GenSt)
    (d : NodeData) (body ifb elseb init asg : Option ASTNode)
    (fargs : Option (List ASTNode))
    (hT : d.nodeType = "function-declaration") :
    internalGenerateCode (eraseBodies ast) st = internalGenerateCode ast st ∧
    internalGenerateCode (.node d [] body ifb elseb init asg fargs) st = .ok st := by
  constructor
  · unfold internalGenerateCode
    have h1 := genF_mono (sizeN (eraseBodies ast) + 1) (sizeN ast + 1) (eraseBodies ast) st
      (Nat.lt_succ_self _) (by have := sizeN_erase_le ast; omega)
    rw [h1, genF_erase]
  · unfold internalGenerateCode
    rw [genF]
    rw [genBody_eq_default _ (.node d [] body ifb elseb init asg fargs)
        (fun hc => absurd (hT.symm.trans hc) (by decide))
        (fun hc => absurd (hT.symm.trans hc) (by decide))
        (fun hc => absurd (hT.symm.trans hc) (by decide))
        (fun hc => absurd (hT.symm.trans hc) (by decide))
        (fun hc => absurd (hT.symm.trans hc) (by decide))
        (fun hc => absurd (hT.symm.trans hc) (by decide))
        (fun hc => absurd (hT.symm.trans hc) (by decide))
        (fun hc => absurd (hT.symm.trans hc) (by decide))
        (fun hc => absurd (hT.symm.trans hc) (by decide))
        (fun hc => absurd (hT.symm.trans hc) (by decide))
        (fun hc => absurd (hT.symm.trans hc) (by decide))]
    simp only [children_node, genSeq]
    rfl

theorem c1_witness :
    internalGenerateCode
      (eraseBodies (.node { nodeType := "block-statement" }
        [.node { nodeType := "function-declaration", name := some ("f") } []
          (some (.node { nodeType := "number", value := some ("1") } []
            none none none none none none))
          none none none none none] none none none none none none))
      initState =
    internalGenerateCode
      (.node { nodeType := "block-statement" }
        [.node { nodeType := "function-declaration", name := some ("f") } []
          (some (.node { nodeType := "number", value := some ("1") } []
            none none none none none none))
          none none none none none] none none none none none none) initState ∧
    internalGenerateCode
      (.node { nodeType := "function-declaration", name := some ("f") } []
        (some (.node { nodeType := "number", value := some ("1") } []
          none none none none none none))
        none none none none none) initState = .ok initState :=
  c1_globals_pass_ignores_function_bodies
    (.node { nodeType := "block-statement" }
      [.node { nodeType := "function-declaration", name := some ("f") } []
        (some (.node { nodeType := "number", value := some ("1") } []
          none none none none none none))
        none none none none none] none none none none none none)
    initState
    { nodeType := "function-declaration", name := some ("f") }
    (some (.node { nodeType := "number", value := some ("1") } [] none none none none none none))
    none none none none none rfl

end Aqua

namespace Aqua

theorem appends_funcParams (nd : ASTNode) : Appends (funcParams nd) := by
  unfold funcParams
  cases hp : nd.data.params with
  | none => exact appends_mId
  | some ps =>
    cases hs : nd.data.scope with
    | none => exact appends_mFail
    | some sc =>
      exact appends_mseq (appends_emSection _) (appends_paramStores sc ps.reverse)

theorem appends_funcRest (fuel : Nat) (nd : ASTNode) : Appends (funcRest fuel nd) := by
  unfold funcRest
  refine appends_mseq (appends_emSection _) (appends_mseq ?_ ?_)
  · cases nd.body with
    | none => exact appends_mFail
    | some b => exact appends_genF fuel b
  · exact appends_mseq (appends_emLabel _)
      (appends_mseq (appends_emAdd _ _ _)
        (appends_mseq (appends_emAdd _ _ _)
          (appends_mseq (appends_emAdd _ _ _) (appends_emAdd _ _ _))))

theorem generateFunctionCodeF_lab (fuel : Nat) (nd : ASTNode) (st : GenSt)
    (r : ASTNode × GenSt)
    (h : generateFunctionCodeF fuel nd st = .ok r) :
    ∃ rest, r.2.lines = st.lines ++ Line.lab nd.getName :: rest := by
  unfold generateFunctionCodeF at h
  split at h
  · cases h
  next st2 heq =>
    cases h
    obtain ⟨s1, hsetup, hrest⟩ := mseq_eq_ok.1 heq
    cases hsc : nd.data.scope with
    | none =>
      exfalso
      unfold funcSetup at hsetup
      rw [hsc] at hsetup
      obtain ⟨t1, -, hsetup⟩ := mseq_eq_ok.1 hsetup
      obtain ⟨t2, -, hsetup⟩ := mseq_eq_ok.1 hsetup
      obtain ⟨t3, -, hsetup⟩ := mseq_eq_ok.1 hsetup
      obtain ⟨t4, -, hsetup⟩ := mseq_eq_ok.1 hsetup
      obtain ⟨t5, -, hsetup⟩ := mseq_eq_ok.1 hsetup
      obtain ⟨t6, -, hsetup⟩ := mseq_eq_ok.1 hsetup
      obtain ⟨t7, hbad, -⟩ := mseq_eq_ok.1 hsetup
      cases hbad
    | some sc =>
      have hl1 := funcSetup_parts nd sc _ _ hsc hsetup
      obtain ⟨δ2, hδ2⟩ :=
        appends_mseq (appends_funcParams nd) (appends_funcRest fuel nd) _ st2 hrest
      refine ⟨(funcPrologue nd.getName sc.getNumSymbols).tail ++ δ2, ?_⟩
      rw [hδ2, hl1]
      simp [funcPrologue]

theorem runFuncSeq_order (fuel : Nat) : ∀ (fns : List ASTNode) (st : GenSt)
    (fns' : List ASTNode) (st' : GenSt),
    runFuncSeq (generateFunctionCodeF fuel) fns st = .ok (fns', st') →
    ∃ δs : List (List Line), δs.length = fns.length ∧
      st'.lines = st.lines ++ δs.flatten ∧
      ∀ i (hi : i < fns.length) (hδ : i < δs.length),
        ∃ rest, δs.get ⟨i, hδ⟩ = Line.lab ((fns.get ⟨i, hi⟩).getName) :: rest := by
  intro fns
  induction fns with
  | nil =>
    intro st fns' st' h
    simp only [runFuncSeq] at h
    cases h
    refine ⟨[], rfl, by simp, ?_⟩
    intro i hi _
    exact absurd hi (Nat.not_lt_zero _)
  | cons f fs ih =>
    intro st fns' st' h
    simp only [runFuncSeq] at h
    split at h
    · cases h
    next f1 st1 heq1 =>
      split at h
      · cases h
      next fs1 st2 heq2 =>
        cases h
        obtain ⟨rest0, hl0⟩ := generateFunctionCodeF_lab fuel f st (f1, st1) heq1
        obtain ⟨δs, hlen, hlines, hidx⟩ := ih st1 fs1 _ heq2
        refine ⟨(Line.lab f.getName :: rest0) :: δs, by simp [hlen], ?_, ?_⟩
        · rw [hlines, hl0]
          simp
        · intro i hi hδ
          cases i with
          | zero => exact ⟨rest0, rfl⟩
          | succ j =>
            have hj : j < fs.length := by
              simpa using hi
            have hjd : j < δs.length := by
              simpa using hδ
            obtain ⟨r2, hr2⟩ := hidx j hj hjd
            exact ⟨r2, hr2⟩

end Aqua

namespace Aqua

mutual

theorem collectFunctions_postorder : ∀ (nd : ASTNode),
    collectFunctions nd = (postorderNodes nd).filter
      (fun m => m.data.nodeType == "function-declaration")
  | .node d cs body ifb elseb init asg fargs => by
    have hl := collectFunctionsL_postorder cs
    have hc : collectFunctions (.node d cs body ifb elseb init asg fargs) =
        collectFunctionsL cs ++
          (if d.nodeType = "function-declaration"
            then [.node d cs body ifb elseb init asg fargs] else []) := by
      rw [collectFunctions.eq_def]
    have hpo : postorderNodes (.node d cs body ifb elseb init asg fargs) =
        postorderL cs ++ [.node d cs body ifb elseb init asg fargs] := by
      rw [postorderNodes.eq_def]
    rw [hc, hpo, List.filter_append, ← hl]
    by_cases h : d.nodeType = "function-declaration" <;> simp [h]

theorem collectFunctionsL_postorder : ∀ (l : List ASTNode),
    collectFunctionsL l = (postorderL l).filter
      (fun m => m.data.nodeType == "function-declaration")
  | [] => rfl
  | x :: xs => by
    have h1 := collectFunctions_postorder x
    have h2 := collectFunctionsL_postorder xs
    have hc : collectFunctionsL (x :: xs) = collectFunctions x ++ collectFunctionsL xs := by
      rw [collectFunctionsL.eq_def]
    have hpo : postorderL (x :: xs) = postorderNodes x ++ postorderL xs := by
      rw [postorderL.eq_def]
    rw [hc, hpo, List.filter_append, h1, h2]

end

/-- Claim C3 (amended): the collection pass appends exactly the
function-declaration nodes reachable through the generic `children` edges,
children-first in source order (the post-order filter of the tree), and
the second pass emits the collected functions in that collection order:
its output is a concatenation of one block per collected function, in
list order, each block starting with that function's entry label. -/
theorem c3_collection_order
    (ast : ASTNode) (fuel : Nat) (st : GenSt) (fns' : List ASTNode) (st' : GenSt)
    (hok : runFuncSeq (generateFunctionCodeF fuel) (collectFunctions ast) st =
      .ok (fns', st')) :
    collectFunctions ast = (postorderNodes ast).filter
      (fun m => m.data.nodeType == "function-declaration") ∧
    ∃ δs : List (List Line), δs.length = (collectFunctions ast).length ∧
      st'.lines = st.lines ++ δs.flatten ∧
      ∀ i (hi : i < (collectFunctions ast).length) (hδ : i < δs.length),
        ∃ rest, δs.get ⟨i, hδ⟩ =
          Line.lab (((collectFunctions ast).get ⟨i, hi⟩).getName) :: rest := by
  exact ⟨collectFunctions_postorder ast, runFuncSeq_order fuel _ st fns' st' hok⟩

/-- Claim C3 counterexample: a function-declaration node sitting in an
`ifBlock` attribute (not reachable through `children`) is in the AST but is
never appended to `functions` — the collection result is empty. -/
theorem c3_counterexample :
    containsFdecl
      (.node { nodeType := "if-statement" } [] none
        (some (.node { nodeType := "function-declaration", name := some ("g") } []
          none none none none none none))
        none none none none) = true ∧
    collectFunctions
      (.node { nodeType := "if-statement" } [] none
        (some (.node { nodeType := "function-declaration", name := some ("g") } []
          none none none none none none))
        none none none none) = [] := by
  exact ⟨rfl, rfl⟩

end Aqua

namespace Aqua

theorem c3_witness :
    ∃ fns' st',
      runFuncSeq (generateFunctionCodeF 4)
        (collectFunctions
          (.node { nodeType := "function-declaration", name := some ("f"),
                   params := some (["a", "b"]),
                   scope := some (.mk [("a", ⟨"a", .Variable, 1, false⟩),
                                       ("b", ⟨"b", .Variable, 2, false⟩)] none) } []
            (some (.node { nodeType := "number", value := some ("1") } []
              none none none none none none))
            none none none none none)) initState = .ok (fns', st') ∧
      collectFunctions
        (.node { nodeType := "function-declaration", name := some ("f"),
                 params := some (["a", "b"]),
                 scope := some (.mk [("a", ⟨"a", .Variable, 1, false⟩),
                                     ("b", ⟨"b", .Variable, 2, false⟩)] none) } []
          (some (.node { nodeType := "number", value := some ("1") } []
            none none none none none none))
          none none none none none) =
        (postorderNodes
          (.node { nodeType := "function-declaration", name := some ("f"),
                   params := some (["a", "b"]),
                   scope := some (.mk [("a", ⟨"a", .Variable, 1, false⟩),
                                       ("b", ⟨"b", .Variable, 2, false⟩)] none) } []
            (some (.node { nodeType := "number", value := some ("1") } []
              none none none none none none))
            none none none none none)).filter
          (fun m => m.data.nodeType == "function-declaration") ∧
      ∃ δs : List (List Line),
        δs.length = (collectFunctions
          (.node { nodeType := "function-declaration", name := some ("f"),
                   params := some (["a", "b"]),
                   scope := some (.mk [("a", ⟨"a", .Variable, 1, false⟩),
                                       ("b", ⟨"b", .Variable, 2, false⟩)] none) } []
            (some (.node { nodeType := "number", value := some ("1") } []
              none none none none none none))
            none none none none none)).length ∧
        st'.lines = initState.lines ++ δs.flatten ∧
        ∀ i (hi : i < (collectFunctions
            (.node { nodeType := "function-declaration", name := some ("f"),
                     params := some (["a", "b"]),
                     scope := some (.mk [("a", ⟨"a", .Variable, 1, false⟩),
                                         ("b", ⟨"b", .Variable, 2, false⟩)] none) } []
              (some (.node { nodeType := "number", value := some ("1") } []
                none none none none none none))
              none none none none none)).length) (hδ : i < δs.length),
          ∃ rest, δs.get ⟨i, hδ⟩ =
            Line.lab (((collectFunctions
              (.node { nodeType := "function-declaration", name := some ("f"),
                       params := some (["a", "b"]),
                       scope := some (.mk [("a", ⟨"a", .Variable, 1, false⟩),
                                           ("b", ⟨"b", .Variable, 2, false⟩)] none) } []
                (some (.node { nodeType := "number", value := some ("1") } []
                  none none none none none none))
                none none none none none)).get ⟨i, hi⟩).getName) :: rest := by
  obtain ⟨r, hok⟩ :
      ∃ r, runFuncSeq (generateFunctionCodeF 4)
        (collectFunctions
          (.node { nodeType := "function-declaration", name := some ("f"),
                   params := some (["a", "b"]),
                   scope := some (.mk [("a", ⟨"a", .Variable, 1, false⟩),
                                       ("b", ⟨"b", .Variable, 2, false⟩)] none) } []
            (some (.node { nodeType := "number", value := some ("1") } []
              none none none none none none))
            none none none none none)) initState = .ok r := by
    have e1 : funcSetup (.node { nodeType := "function-declaration", name := some ("f"), params := some (["a", "b"]), scope := some (.mk [("a", ⟨"a", .Variable, 1, false⟩), ("b", ⟨"b", .Variable, 2, false⟩)] none) } [] (some (.node { nodeType := "number", value := some ("1") } [] none none none none none none)) none none none none none) ⟨[], 0, 0, false, some (.node { nodeType := "function-declaration", name := some ("f"), params := some (["a", "b"]), scope := some (.mk [("a", ⟨"a", .Variable, 1, false⟩), ("b", ⟨"b", .Variable, 2, false⟩)] none) } [] (some (.node { nodeType := "number", value := some ("1") } [] none none none none none none)) none none none none none)⟩ = .ok ⟨funcPrologue ("f") 2, 2, 0, false, some (.node { nodeType := "function-declaration", name := some ("f"), params := some (["a", "b"]), scope := some (.mk [("a", ⟨"a", .Variable, 1, false⟩), ("b", ⟨"b", .Variable, 2, false⟩)] none) } [] (some (.node { nodeType := "number", value := some ("1") } [] none none none none none none)) none none none none none)⟩ :=
      funcSetup_run _ (.mk [("a", ⟨"a", .Variable, 1, false⟩), ("b", ⟨"b", .Variable, 2, false⟩)] none) _ rfl (by decide)
    have e2 : funcParams (.node { nodeType := "function-declaration", name := some ("f"), params := some (["a", "b"]), scope := some (.mk [("a", ⟨"a", .Variable, 1, false⟩), ("b", ⟨"b", .Variable, 2, false⟩)] none) } [] (some (.node { nodeType := "number", value := some ("1") } [] none none none none none none)) none none none none none) ⟨funcPrologue ("f") 2, 2, 0, false, some (.node { nodeType := "function-declaration", name := some ("f"), params := some (["a", "b"]), scope := some (.mk [("a", ⟨"a", .Variable, 1, false⟩), ("b", ⟨"b", .Variable, 2, false⟩)] none) } [] (some (.node { nodeType := "number", value := some ("1") } [] none none none none none none)) none none none none none)⟩ = .ok ⟨funcPrologue ("f") 2 ++ ([Line.blank, Line.comment ("Setup arguments.")] ++ (["a", "b"] : List String).reverse.flatMap (paramLines (.mk [("a", ⟨"a", .Variable, 1, false⟩), ("b", ⟨"b", .Variable, 2, false⟩)] none))), 4, 0, false, some (.node { nodeType := "function-declaration", name := some ("f"), params := some (["a", "b"]), scope := some (.mk [("a", ⟨"a", .Variable, 1, false⟩), ("b", ⟨"b", .Variable, 2, false⟩)] none) } [] (some (.node { nodeType := "number", value := some ("1") } [] none none none none none none)) none none none none none)⟩ :=
      funcParams_run _ (["a", "b"]) _ _ rfl rfl (by decide) (by decide)
    have e3 := funcRest_number_ok 3 (.node { nodeType := "function-declaration", name := some ("f"), params := some (["a", "b"]), scope := some (.mk [("a", ⟨"a", .Variable, 1, false⟩), ("b", ⟨"b", .Variable, 2, false⟩)] none) } [] (some (.node { nodeType := "number", value := some ("1") } [] none none none none none none)) none none none none none) ("1") rfl ⟨funcPrologue ("f") 2 ++ ([Line.blank, Line.comment ("Setup arguments.")] ++ (["a", "b"] : List String).reverse.flatMap (paramLines (.mk [("a", ⟨"a", .Variable, 1, false⟩), ("b", ⟨"b", .Variable, 2, false⟩)] none))), 4, 0, false, some (.node { nodeType := "function-declaration", name := some ("f"), params := some (["a", "b"]), scope := some (.mk [("a", ⟨"a", .Variable, 1, false⟩), ("b", ⟨"b", .Variable, 2, false⟩)] none) } [] (some (.node { nodeType := "number", value := some ("1") } [] none none none none none none)) none none none none none)⟩ (by decide)
    have hgfc := generateFunctionCodeF_ok 4 (.node { nodeType := "function-declaration", name := some ("f"), params := some (["a", "b"]), scope := some (.mk [("a", ⟨"a", .Variable, 1, false⟩), ("b", ⟨"b", .Variable, 2, false⟩)] none) } [] (some (.node { nodeType := "number", value := some ("1") } [] none none none none none none)) none none none none none) initState _ (mseq_ok_trans e1 (mseq_ok_trans e2 e3))
    have hcol : collectFunctions (.node { nodeType := "function-declaration", name := some ("f"), params := some (["a", "b"]), scope := some (.mk [("a", ⟨"a", .Variable, 1, false⟩), ("b", ⟨"b", .Variable, 2, false⟩)] none) } [] (some (.node { nodeType := "number", value := some ("1") } [] none none none none none none)) none none none none none) = [.node { nodeType := "function-declaration", name := some ("f"), params := some (["a", "b"]), scope := some (.mk [("a", ⟨"a", .Variable, 1, false⟩), ("b", ⟨"b", .Variable, 2, false⟩)] none) } [] (some (.node { nodeType := "number", value := some ("1") } [] none none none none none none)) none none none none none] := rfl
    rw [hcol]
    exact ⟨_, runFuncSeq_one_ok _ _ _ _ _ hgfc⟩
  obtain ⟨fns', st'⟩ := r
  have h := c3_collection_order
    (.node { nodeType := "function-declaration", name := some ("f"),
             params := some (["a", "b"]),
             scope := some (.mk [("a", ⟨"a", .Variable, 1, false⟩),
                                 ("b", ⟨"b", .Variable, 2, false⟩)] none) } []
      (some (.node { nodeType := "number", value := some ("1") } []
        none none none none none none))
      none none none none none) 4 initState fns' st' hok
  exact ⟨fns', st', hok, h.1, h.2⟩

end Aqua

namespace Aqua

theorem noSymbols_node_eq (d : NodeData) (cs : List ASTNode)
    (body ifb elseb init asg : Option ASTNode) (fargs : Option (List ASTNode)) :
    noSymbols (.node d cs body ifb elseb init asg fargs) =
      (d.symbols.isNone && noSymbolsL cs &&
        noSymbolsO body && noSymbolsO ifb && noSymbolsO elseb &&
        noSymbolsO init && noSymbolsO asg &&
        (match fargs with | some l => noSymbolsL l | none => true)) := by
  rw [noSymbols.eq_def]

theorem noSymbolsL_cons_eq (x : ASTNode) (xs : List ASTNode) :
    noSymbolsL (x :: xs) = (noSymbols x && noSymbolsL xs) := by
  rw [noSymbolsL.eq_def]

theorem noSymbolsO_some_eq (x : ASTNode) : noSymbolsO (some x) = noSymbols x := by
  rw [noSymbolsO.eq_def]

theorem noSymbols_rebuild (d2 : NodeData) (cs : List ASTNode)
    (body ifb elseb init asg : Option ASTNode) (fargs : Option (List ASTNode))
    (hsym : d2.symbols.isNone = true) (hcs : noSymbolsL cs = true)
    (hbody : noSymbolsO body = true) (hifb : noSymbolsO ifb = true)
    (helseb : noSymbolsO elseb = true) (hinit : noSymbolsO init = true)
    (hasg : noSymbolsO asg = true)
    (hfargs : (match fargs with | some l => noSymbolsL l | none => true) = true) :
    noSymbols (.node d2 cs body ifb elseb init asg fargs) = true := by
  rw [noSymbols_node_eq]
  simp only [Bool.and_eq_true]
  exact ⟨⟨⟨⟨⟨⟨⟨hsym, hcs⟩, hbody⟩, hifb⟩, helseb⟩, hinit⟩, hasg⟩, hfargs⟩

theorem resolveSeq_noSymbols
    (rec : ASTNode → SymbolTable → Except Err (ASTNode × SymbolTable))
    (hrec : ∀ x tbl x' t', noSymbols x = true → rec x tbl = .ok (x', t') →
      noSymbols x' = true) :
    ∀ (l : List ASTNode) (tbl : SymbolTable) (l' : List ASTNode) (t' : SymbolTable),
      noSymbolsL l = true → resolveSeq rec l tbl = .ok (l', t') → noSymbolsL l' = true := by
  intro l
  induction l with
  | nil =>
    intro tbl l' t' _ h
    simp only [resolveSeq] at h
    cases h
    rfl
  | cons x xs ih =>
    intro tbl l' t' hns h
    rw [noSymbolsL_cons_eq, Bool.and_eq_true] at hns
    simp only [resolveSeq] at h
    split at h
    · cases h
    next x1 t1 heq1 =>
      split at h
      · cases h
      next xs1 t2 heq2 =>
        cases h
        rw [noSymbolsL_cons_eq, Bool.and_eq_true]
        exact ⟨hrec x tbl x1 t1 hns.1 heq1, ih t1 xs1 _ hns.2 heq2⟩

end Aqua

namespace Aqua

theorem noSymbolsO_none_eq : noSymbolsO none = true := by
  rw [noSymbolsO.eq_def]

theorem resolveF_noSymbols (fuel : Nat) : ∀ (nd : ASTNode) (tbl : SymbolTable)
    (nd' : ASTNode) (tbl' : SymbolTable),
    noSymbols nd = true → resolveF fuel nd tbl = .ok (nd', tbl') → noSymbols nd' = true := by
  induction fuel with
  | zero =>
    intro nd tbl nd' tbl' _ h
    simp only [resolveF] at h
    cases h
  | succ fuel ih =>
    intro nd tbl nd' tbl' hns h
    cases nd with
    | node d cs body ifb elseb init asg fargs =>
      rw [resolveF] at h
      unfold resolveBody at h
      simp only [children_node] at h
      rw [noSymbols_node_eq] at hns
      simp only [Bool.and_eq_true] at hns
      obtain ⟨⟨⟨⟨⟨⟨⟨hsym, hcs⟩, hbody⟩, hifb⟩, helseb⟩, hinit⟩, hasg⟩, hfargs⟩ := hns
      split at h
      · cases h
      next cs' t1 heq1 =>
        have hcs' : noSymbolsL cs' = true :=
          resolveSeq_noSymbols _ (fun x t x' t' => ih x t x' t') cs tbl cs' t1 hcs heq1
        by_cases hT1 : d.nodeType = "function-declaration"
        · rw [resolveHandler_eq_fdecl _ (.node d cs body ifb elseb init asg fargs) _ _ hT1] at h
          simp only [body_node, ifBlock_node, elseBlock_node, initializer_node,
            assignee_node, functionArgs_node, data_node] at h
          cases body with
          | none => cases h
          | some b =>
            simp only [] at h
            cases hres : resolveF fuel b (.mk [] (some t1)) with
            | error e =>
              rw [hres] at h
              cases h
            | ok p =>
              obtain ⟨b2, lt⟩ := p
              rw [hres] at h
              cases h
              have hb : noSymbols b = true := by
                rw [noSymbolsO_some_eq] at hbody
                exact hbody
              refine noSymbols_rebuild _ _ _ _ _ _ _ _ hsym hcs' ?_ hifb helseb hinit hasg hfargs
              rw [noSymbolsO_some_eq]
              exact ih b _ b2 lt hb hres
        by_cases hT2 : d.nodeType = "declare-variable"
        · rw [resolveHandler_eq_declareVar _ (.node d cs body ifb elseb init asg fargs) _ _ hT2] at h
          simp only [body_node, ifBlock_node, elseBlock_node, initializer_node,
            assignee_node, functionArgs_node, data_node] at h
          split at h
          · cases h
          · cases h
            exact noSymbols_rebuild _ _ _ _ _ _ _ _ hsym hcs' hbody hifb helseb hinit hasg hfargs
        by_cases hT3 : d.nodeType = "declare-constant"
        · rw [resolveHandler_eq_declareConst _ (.node d cs body ifb elseb init asg fargs) _ _ hT3] at h
          simp only [body_node, ifBlock_node, elseBlock_node, initializer_node,
            assignee_node, functionArgs_node, data_node] at h
          split at h
          · cases h
          · cases h
            exact noSymbols_rebuild _ _ _ _ _ _ _ _ hsym hcs' hbody hifb helseb hinit hasg hfargs
        by_cases hT4 : d.nodeType = "access-variable"
        · rw [resolveHandler_eq_accessVar _ (.node d cs body ifb elseb init asg fargs) _ _ hT4] at h
          simp only [body_node, ifBlock_node, elseBlock_node, initializer_node,
            assignee_node, functionArgs_node, data_node] at h
          split at h
          · cases h
          next s heq2 =>
            cases h
            exact noSymbols_rebuild _ _ _ _ _ _ _ _ hsym hcs' hbody hifb helseb hinit hasg hfargs
        by_cases hT5 : d.nodeType = "assignment-statement"
        · rw [resolveHandler_eq_assignStmt _ (.node d cs body ifb elseb init asg fargs) _ _ hT5] at h
          simp only [body_node, ifBlock_node, elseBlock_node, initializer_node,
            assignee_node, functionArgs_node, data_node] at h
          cases asg with
          | none => cases h
          | some a =>
            simp only [] at h
            by_cases hlv : a.nodeType ≠ "access-variable"
            · rw [if_pos hlv] at h
              cases h
            · rw [if_neg hlv] at h
              cases hg : SymbolTable.get t1 (strOpt a.data.name) with
              | none =>
                rw [hg] at h
                cases h
              | some s =>
                rw [hg] at h
                simp only [] at h
                by_cases hst : s.type ≠ SymbolType.Variable
                · rw [if_pos hst] at h
                  cases h
                · rw [if_neg hst] at h
                  cases h
                  exact noSymbols_rebuild _ _ _ _ _ _ _ _ hsym hcs' hbody hifb helseb hinit
                    hasg hfargs
        by_cases hT6 : d.nodeType = "if-statement"
        · rw [resolveHandler_eq_ifStmt _ (.node d cs body ifb elseb init asg fargs) _ _ hT6] at h
          simp only [body_node, ifBlock_node, elseBlock_node, initializer_node,
            assignee_node, functionArgs_node, data_node] at h
          cases ifb with
          | none => cases h
          | some ib =>
            simp only [] at h
            have hib : noSymbols ib = true := by
              rw [noSymbolsO_some_eq] at hifb
              exact hifb
            cases hres : resolveF fuel ib t1 with
            | error e =>
              rw [hres] at h
              cases h
            | ok p =>
              obtain ⟨ib2, t2⟩ := p
              rw [hres] at h
              have hib2 : noSymbolsO (some ib2) = true := by
                rw [noSymbolsO_some_eq]
                exact ih ib _ ib2 t2 hib hres
              cases elseb with
              | none =>
                cases h
                exact noSymbols_rebuild _ _ _ _ _ _ _ _ hsym hcs' hbody hib2
                  noSymbolsO_none_eq hinit hasg hfargs
              | some eb =>
                simp only [] at h
                have heb : noSymbols eb = true := by
                  rw [noSymbolsO_some_eq] at helseb
                  exact helseb
                cases hres2 : resolveF fuel eb t2 with
                | error e =>
                  rw [hres2] at h
                  cases h
                | ok p2 =>
                  obtain ⟨eb2, t3⟩ := p2
                  rw [hres2] at h
                  cases h
                  refine noSymbols_rebuild _ _ _ _ _ _ _ _ hsym hcs' hbody hib2 ?_ hinit
                    hasg hfargs
                  rw [noSymbolsO_some_eq]
                  exact ih eb _ eb2 _ heb hres2
        rw [resolveHandler_eq_default _ (.node d cs body ifb elseb init asg fargs) _ _
          hT1 hT2 hT3 hT4 hT5 hT6] at h
        simp only [body_node, ifBlock_node, elseBlock_node, initializer_node,
          assignee_node, functionArgs_node, data_node] at h
        cases h
        exact noSymbols_rebuild _ _ _ _ _ _ _ _ hsym hcs' hbody hifb helseb hinit hasg hfargs

end Aqua

namespace Aqua

/-- Claim C10 (amended): the resolver only ever attaches the singular
`symbol` annotation and never a `symbols` list — a tree with no plural
annotation resolves to a tree with no plural annotation — so the code
generator's multi-target `symbols` branch is unreachable on resolver
output; but the NoAssignmentTarget error branch is reachable: the resolver
has no while-statement handler, so an assignment-statement inside a while
body keeps both annotations empty and the generator raises the error. -/
theorem c10_no_symbols_attached :
    (∀ (ast ast' : ASTNode), noSymbols ast = true → resolveSymbols ast = .ok ast' →
      noSymbols ast' = true) ∧
    (∀ (d : NodeData) (body ifb elseb init asg : Option ASTNode)
      (fargs : Option (List ASTNode)) (st : GenSt),
      d.nodeType = "assignment-statement" → d.symbol = none → d.symbols = none →
      internalGenerateCode (.node d [] body ifb elseb init asg fargs) st =
        .error .noAssignmentTarget) := by
  constructor
  · intro ast ast' hns hok
    unfold resolveSymbols at hok
    cases hres : internalResolveSymbols ast (.mk [] none) with
    | error e =>
      rw [hres] at hok
      cases hok
    | ok p =>
      obtain ⟨nd1, t1⟩ := p
      rw [hres] at hok
      simp only [Except.map] at hok
      cases hok
      exact resolveF_noSymbols _ ast _ _ t1 hns hres
  · intro d body ifb elseb init asg fargs st hT hsym hsyms
    unfold internalGenerateCode
    rw [genF, genBody_eq_assignStmt _ (.node d [] body ifb elseb init asg fargs) hT]
    simp [genSeq, mseq, mId, hsym, hsyms]

/-- Claim C10 counterexample: the resolver has no while-statement handler,
so it succeeds on a while node whose body holds an unannotated
assignment-statement without ever visiting that assignment; the code
generator then reaches the NoAssignmentTarget error branch on the
resolver's own output. -/
theorem c10_counterexample :
    ∃ nd', resolveSymbols
      (.node { nodeType := "while-statement" } []
        (some (.node { nodeType := "block-statement" }
          [.node { nodeType := "assignment-statement" } [] none none none none
            (some (.node { nodeType := "access-variable", name := some ("x") } []
              none none none none none none))
            none] none none none none none none))
        none none none none none) = .ok nd' ∧
      internalGenerateCode nd' initState = .error .noAssignmentTarget :=
  ⟨_, rfl, rfl⟩

end Aqua

namespace Aqua

theorem c10_witness :
    noSymbols
      (.node { nodeType := "while-statement" } []
        (some (.node { nodeType := "block-statement" }
          [.node { nodeType := "assignment-statement" } [] none none none none
            (some (.node { nodeType := "access-variable", name := some ("x") } []
              none none none none none none))
            none] none none none none none none))
        none none none none none) = true ∧
    (∃ nd', resolveSymbols
      (.node { nodeType := "while-statement" } []
        (some (.node { nodeType := "block-statement" }
          [.node { nodeType := "assignment-statement" } [] none none none none
            (some (.node { nodeType := "access-variable", name := some ("x") } []
              none none none none none none))
            none] none none none none none none))
        none none none none none) = .ok nd' ∧ noSymbols nd' = true) ∧
    internalGenerateCode
      (.node { nodeType := "assignment-statement" } [] none none none none none none)
      initState = .error .noAssignmentTarget := by
  refine ⟨rfl, ⟨_, rfl, ?_⟩, ?_⟩
  · exact (c10_no_symbols_attached).1
      (.node { nodeType := "while-statement" } []
        (some (.node { nodeType := "block-statement" }
          [.node { nodeType := "assignment-statement" } [] none none none none
            (some (.node { nodeType := "access-variable", name := some ("x") } []
              none none none none none none))
            none] none none none none none none))
        none none none none none) _ rfl rfl
  · exact (c10_no_symbols_attached).2 { nodeType := "assignment-statement" }
      none none none none none none initState rfl rfl rfl

end Aqua

namespace Aqua

theorem labs_mId : LabsCtrl mId := by
  intro st st' h
  cases h
  exact ⟨[], by simp, fun s hs => absurd hs (List.not_mem_nil _)⟩

theorem labs_mFail : LabsCtrl mFail := by
  intro st st' h
  cases h

theorem labs_emAdd (t : String) (p q : Int) : LabsCtrl (emAdd t p q) := by
  intro st st' h
  unfold emAdd at h
  split at h
  · cases h
  · cases h
    refine ⟨[.instr t], rfl, fun s hs => ?_⟩
    rcases List.mem_singleton.1 hs with h1
    cases h1

theorem labs_emLabel_ctrl (s0 : String) (hs0 : ctrlShape s0) : LabsCtrl (emLabel s0) := by
  intro st st' h
  cases h
  refine ⟨[.lab s0], rfl, fun s hs => ?_⟩
  rcases List.mem_singleton.1 hs with h1
  cases h1
  exact hs0

theorem labs_emSection (t : Option String) : LabsCtrl (emSection t) := by
  intro st st' h
  cases h
  refine ⟨.blank :: (match t with | some tt => [.comment tt] | none => []), rfl,
    fun s hs => ?_⟩
  rcases List.mem_cons.1 hs with h1 | h2
  · cases h1
  · cases t with
    | some tt =>
      rcases List.mem_singleton.1 h2 with h3
      cases h3
    | none => exact absurd h2 (List.not_mem_nil _)

theorem labs_emResetStack : LabsCtrl emResetStack := by
  intro st st' h
  cases h
  exact ⟨[], by simp, fun s hs => absurd hs (List.not_mem_nil _)⟩

theorem labs_emPopAll : LabsCtrl emPopAll := by
  intro st st' h
  cases h
  refine ⟨List.replicate st.depth.toNat (.instr ("pop")), rfl, fun s hs => ?_⟩
  have := (List.eq_of_mem_replicate hs)
  cases this

theorem labs_mseq {f g : M} (hf : LabsCtrl f) (hg : LabsCtrl g) : LabsCtrl (mseq f g) := by
  intro st st' h
  obtain ⟨s1, h1, h2⟩ := mseq_eq_ok.1 h
  obtain ⟨δ1, hδ1, hl1⟩ := hf st s1 h1
  obtain ⟨δ2, hδ2, hl2⟩ := hg s1 st' h2
  refine ⟨δ1 ++ δ2, by rw [hδ2, hδ1, List.append_assoc], fun s hs => ?_⟩
  rcases List.mem_append.1 hs with h3 | h4
  · exact hl1 s h3
  · exact hl2 s h4

theorem labs_genSeq {f : ASTNode → M} (hf : ∀ c, LabsCtrl (f c)) (l : List ASTNode) :
    LabsCtrl (genSeq f l) := by
  induction l with
  | nil => exact labs_mId
  | cons x xs ih => exact labs_mseq (hf x) ih

theorem labs_ite (c : Prop) [Decidable c] {f g : M} (hf : LabsCtrl f) (hg : LabsCtrl g) :
    LabsCtrl (if c then f else g) := by
  by_cases h : c
  · rw [if_pos h]; exact hf
  · rw [if_neg h]; exact hg

theorem labs_assignSeq (s : Sym) : LabsCtrl (assignSeq s) := by
  unfold assignSeq
  by_cases h : s.isGlobal
  · rw [if_pos h]
    exact labs_mseq (labs_emAdd _ _ _) (labs_emAdd _ _ _)
  · rw [if_neg h]
    exact labs_mseq (labs_emAdd _ _ _)
      (labs_mseq (labs_emAdd _ _ _)
        (labs_mseq (labs_emAdd _ _ _)
          (labs_mseq (labs_emAdd _ _ _) (labs_emAdd _ _ _))))

theorem labs_assignList (l : List Sym) : LabsCtrl (assignList l) := by
  induction l with
  | nil => exact labs_mId
  | cons s rest ih => exact labs_mseq (labs_assignSeq s) ih

end Aqua

namespace Aqua

theorem labs_genBody (rec : ASTNode → M) (hrec : ∀ c, LabsCtrl (rec c)) (nd : ASTNode) :
    LabsCtrl (genBody rec nd) := by
  by_cases h1 : nd.data.nodeType = "number"
  · rw [genBody_eq_number rec nd h1]
    exact labs_mseq (labs_genSeq hrec _) (labs_emAdd _ _ _)
  by_cases h2 : nd.data.nodeType = "string-literal"
  · rw [genBody_eq_stringLit rec nd h2]
    exact labs_mseq (labs_genSeq hrec _) (labs_emAdd _ _ _)
  by_cases h3 : nd.data.nodeType = "operation"
  · rw [genBody_eq_operation rec nd h3]
    exact labs_mseq (labs_genSeq hrec _) (labs_emAdd _ _ _)
  by_cases h4 : nd.data.nodeType = "expr-statement"
  · rw [genBody_eq_exprStmt rec nd h4]
    exact labs_mseq labs_emResetStack (labs_mseq (labs_genSeq hrec _) labs_emPopAll)
  by_cases h5 : nd.data.nodeType = "return-statement"
  · rw [genBody_eq_returnStmt rec nd h5]
    refine labs_mseq labs_emResetStack (labs_mseq (labs_genSeq hrec _) ?_)
    intro st st' h
    dsimp only at h
    split at h
    · cases hcf : st.curFunction with
      | some f => rw [hcf] at h; exact labs_emAdd _ _ _ st st' h
      | none => rw [hcf] at h; cases h
    · exact labs_emAdd _ _ _ st st' h
  by_cases h6 : nd.data.nodeType = "declare-variable"
  · rw [genBody_eq_declareVar rec nd h6]
    refine labs_mseq labs_emResetStack (labs_mseq (labs_genSeq hrec _) ?_)
    cases nd.initializer with
    | some i => exact labs_mseq (hrec i) labs_emPopAll
    | none => exact labs_mseq labs_mId labs_emPopAll
  by_cases h7 : nd.data.nodeType = "access-variable"
  · rw [genBody_eq_accessVar rec nd h7]
    refine labs_mseq (labs_genSeq hrec _) ?_
    cases nd.data.symbol with
    | none => exact labs_mFail
    | some sy =>
      exact labs_ite _ (labs_emAdd _ _ _)
        (labs_mseq (labs_emAdd _ _ _)
          (labs_mseq (labs_emAdd _ _ _)
            (labs_mseq (labs_emAdd _ _ _) (labs_emAdd _ _ _))))
  by_cases h8 : nd.data.nodeType = "assignment-statement"
  · rw [genBody_eq_assignStmt rec nd h8]
    refine labs_mseq (labs_genSeq hrec _) ?_
    cases nd.data.symbol with
    | some sy => exact labs_assignSeq sy
    | none =>
      cases nd.data.symbols with
      | some l => exact labs_assignList l.reverse
      | none => intro st st' h; cases h
  by_cases h9 : nd.data.nodeType = "if-statement"
  · rw [genBody_eq_ifStmt rec nd h9]
    refine labs_mseq (labs_genSeq hrec _) ?_
    intro st st' h
    have hifb : LabsCtrl (match nd.ifBlock with | some b => rec b | none => mFail) := by
      cases nd.ifBlock with
      | some b => exact hrec b
      | none => exact labs_mFail
    have helb : LabsCtrl (match nd.elseBlock with | some e => rec e | none => mId) := by
      cases nd.elseBlock with
      | some e => exact hrec e
      | none => exact labs_mId
    have hch : LabsCtrl (mseq (emAdd ("bz " ++ elseLab (st.controlId + 1)) 0 1)
        (mseq (match nd.ifBlock with | some b => rec b | none => mFail)
          (mseq (emAdd ("b " ++ endLab (st.controlId + 1)) 0 0)
            (mseq (emLabel (elseLab (st.controlId + 1)))
              (mseq (match nd.elseBlock with | some e => rec e | none => mId)
                (emLabel (endLab (st.controlId + 1)))))))) :=
      labs_mseq (labs_emAdd _ _ _)
        (labs_mseq hifb
          (labs_mseq (labs_emAdd _ _ _)
            (labs_mseq (labs_emLabel_ctrl _ ⟨st.controlId + 1, Or.inl rfl⟩)
              (labs_mseq helb
                (labs_emLabel_ctrl _ ⟨st.controlId + 1, Or.inr (Or.inl rfl)⟩)))))
    obtain ⟨δ, hδ, hl⟩ := hch { st with controlId := st.controlId + 1 } st' h
    exact ⟨δ, hδ, hl⟩
  by_cases h10 : nd.data.nodeType = "while-statement"
  · rw [genBody_eq_whileStmt rec nd h10]
    intro st st' h
    have hb : LabsCtrl (match nd.body with | some b => rec b | none => mFail) := by
      cases nd.body with
      | some b => exact hrec b
      | none => exact labs_mFail
    have hch : LabsCtrl (mseq (emLabel (loopStartLab (st.controlId + 1)))
        (mseq (genSeq rec nd.children)
          (mseq (emAdd ("bz " ++ loopEndLab (st.controlId + 1)) 0
              (if nd.children.length > 0 then 1 else 0))
            (mseq (match nd.body with | some b => rec b | none => mFail)
              (mseq (emAdd ("b " ++ loopStartLab (st.controlId + 1)) 0 0)
                (emLabel (loopEndLab (st.controlId + 1)))))))) :=
      labs_mseq (labs_emLabel_ctrl _ ⟨st.controlId + 1, Or.inr (Or.inr (Or.inl rfl))⟩)
        (labs_mseq (labs_genSeq hrec _)
          (labs_mseq (labs_emAdd _ _ _)
            (labs_mseq hb
              (labs_mseq (labs_emAdd _ _ _)
                (labs_emLabel_ctrl _ ⟨st.controlId + 1, Or.inr (Or.inr (Or.inr rfl))⟩)))))
    obtain ⟨δ, hδ, hl⟩ := hch { st with controlId := st.controlId + 1 } st' h
    exact ⟨δ, hδ, hl⟩
  by_cases h11 : nd.data.nodeType = "function-call"
  · rw [genBody_eq_functionCall rec nd h11]
    have hargs : LabsCtrl (match nd.functionArgs with | some l => genSeq rec l | none => mId) := by
      cases nd.functionArgs with
      | some l => exact labs_genSeq hrec l
      | none => exact labs_mId
    have hfield : LabsCtrl (match nd.functionArgs with
        | some (a :: _) =>
          (match a.data.value with
           | some v => emAdd ("itxn_field " ++ unquote v) 0 1
           | none => mFail)
        | _ => mFail) := by
      cases nd.functionArgs with
      | none => exact labs_mFail
      | some l =>
        cases l with
        | nil => exact labs_mFail
        | cons a rest =>
          show LabsCtrl (match a.data.value with
            | some v => emAdd ("itxn_field " ++ unquote v) 0 1
            | none => mFail)
          cases a.data.value with
          | none => exact labs_mFail
          | some v => exact labs_emAdd _ _ _
    refine labs_mseq (labs_ite _ labs_mId hargs)
      (labs_mseq (labs_genSeq hrec _) ?_)
    refine labs_ite _ (labs_mseq hargs (labs_mseq (labs_emAdd _ _ _) (labs_emAdd _ _ _))) ?_
    refine labs_ite _ (labs_mseq hargs (labs_emAdd _ _ _)) ?_
    refine labs_ite _ (labs_mseq hargs (labs_mseq (labs_emAdd _ _ _) (labs_emAdd _ _ _))) ?_
    refine labs_ite _ (labs_mseq hargs (labs_mseq (labs_emAdd _ _ _) (labs_emAdd _ _ _))) ?_
    refine labs_ite _ (labs_mseq hargs (labs_emAdd _ _ _)) ?_
    refine labs_ite _ (labs_mseq hargs (labs_mseq (labs_emAdd _ _ _) (labs_emAdd _ _ _))) ?_
    refine labs_ite _ (labs_mseq hargs (labs_emAdd _ _ _)) ?_
    refine labs_ite _ (labs_mseq hargs (labs_emAdd _ _ _)) ?_
    refine labs_ite _ (labs_mseq hargs (labs_emAdd _ _ _)) ?_
    refine labs_ite _ (labs_mseq (labs_emAdd _ _ _) (labs_emAdd _ _ _)) ?_
    refine labs_ite _ hfield ?_
    refine labs_ite _ (labs_mseq (labs_emAdd _ _ _) (labs_emAdd _ _ _)) ?_
    exact labs_emAdd _ _ _
  rw [genBody_eq_default rec nd h1 h2 h3 h4 h5 h6 h7 h8 h9 h10 h11]
  exact labs_genSeq hrec _

theorem labs_genF (fuel : Nat) (nd : ASTNode) : LabsCtrl (genF fuel nd) := by
  induction fuel generalizing nd with
  | zero => exact labs_mFail
  | succ f ih =>
    rw [genF]
    exact labs_genBody (genF f) ih nd

end Aqua

namespace Aqua

theorem ctrlShape_ne_program_end (s : String) (h : ctrlShape s) : s ≠ "program_end" := by
  obtain ⟨k, h1 | h2 | h3 | h4⟩ := h
  · subst h1
    intro he
    have hd := congrArg String.data he
    simp only [elseLab, data_append] at hd
    simp at hd
  · subst h2
    intro he
    have hd := congrArg String.data he
    simp only [endLab, data_append] at hd
    simp at hd
  · subst h3
    intro he
    have hd := congrArg String.data he
    simp only [loopStartLab, data_append] at hd
    simp at hd
  · subst h4
    intro he
    have hd := congrArg String.data he
    simp only [loopEndLab, data_append] at hd
    simp at hd

theorem cleanup_ne_program_end (nm : String) : nm ++ "-cleanup" ≠ "program_end" := by
  intro h
  have hd := congrArg (fun s => s.data.reverse) h
  simp only [data_append, List.reverse_append] at hd
  simp at hd

theorem funcPrologue_labels (nm : String) (n : Nat) (s : String)
    (hs : Line.lab s ∈ funcPrologue nm n) : s = nm := by
  simp [funcPrologue] at hs
  exact hs

theorem labs_funcParams (nd : ASTNode) : LabsCtrl (funcParams nd) := by
  unfold funcParams
  cases hp : nd.data.params with
  | none => exact labs_mId
  | some ps =>
    cases hs : nd.data.scope with
    | none => exact labs_mFail
    | some sc =>
      refine labs_mseq (labs_emSection _) ?_
      generalize ps.reverse = l
      induction l with
      | nil => exact labs_mId
      | cons p rest ih =>
        refine labs_mseq ?_ ih
        unfold paramStore
        cases sc.get p with
        | none => exact labs_mFail
        | some sym =>
          exact labs_mseq (labs_emAdd _ _ _)
            (labs_mseq (labs_emAdd _ _ _)
              (labs_mseq (labs_emAdd _ _ _) (labs_emAdd _ _ _)))

theorem generateFunctionCodeF_labels (fuel : Nat) (nd : ASTNode) (st : GenSt)
    (r : ASTNode × GenSt)
    (h : generateFunctionCodeF fuel nd st = .ok r) :
    ∃ δ, r.2.lines = st.lines ++ δ ∧
      ∀ s, Line.lab s ∈ δ →
        s = nd.getName ∨ s = nd.getName ++ "-cleanup" ∨ ctrlShape s := by
  unfold generateFunctionCodeF at h
  split at h
  · cases h
  next st2 heq =>
    cases h
    obtain ⟨s1, hsetup, hrest⟩ := mseq_eq_ok.1 heq
    cases hsc : nd.data.scope with
    | none =>
      exfalso
      unfold funcSetup at hsetup
      rw [hsc] at hsetup
      obtain ⟨t1, -, hsetup⟩ := mseq_eq_ok.1 hsetup
      obtain ⟨t2, -, hsetup⟩ := mseq_eq_ok.1 hsetup
      obtain ⟨t3, -, hsetup⟩ := mseq_eq_ok.1 hsetup
      obtain ⟨t4, -, hsetup⟩ := mseq_eq_ok.1 hsetup
      obtain ⟨t5, -, hsetup⟩ := mseq_eq_ok.1 hsetup
      obtain ⟨t6, -, hsetup⟩ := mseq_eq_ok.1 hsetup
      obtain ⟨t7, hbad, -⟩ := mseq_eq_ok.1 hsetup
      cases hbad
    | some sc =>
      have hl1 := funcSetup_parts nd sc _ _ hsc hsetup
      obtain ⟨s2, hpar, hrest2⟩ := mseq_eq_ok.1 hrest
      obtain ⟨δp, hδp, hlp⟩ := labs_funcParams nd _ s2 hpar
      unfold funcRest at hrest2
      obtain ⟨s3, hsec, hrest3⟩ := mseq_eq_ok.1 hrest2
      obtain ⟨δs, hδs, hls⟩ := labs_emSection _ _ s3 hsec
      obtain ⟨s4, hbody, hrest4⟩ := mseq_eq_ok.1 hrest3
      obtain ⟨δb, hδb, hlb⟩ : ∃ δ, s4.lines = s3.lines ++ δ ∧
          ∀ s, Line.lab s ∈ δ → ctrlShape s := by
        cases hb : nd.body with
        | none =>
          rw [hb] at hbody
          cases hbody
        | some b =>
          rw [hb] at hbody
          exact labs_genF fuel b _ s4 hbody
      obtain ⟨s5, hlab, hrest5⟩ := mseq_eq_ok.1 hrest4
      have hs5 : s5 = { s4 with lines := s4.lines ++ [Line.lab (nd.getName ++ "-cleanup")] } := by
        simp only [emLabel] at hlab
        cases hlab
        rfl
      obtain ⟨δe, hδe, hle⟩ :=
        (labs_mseq (labs_emAdd ("load 0") 1 0)
          (labs_mseq (labs_emAdd ("loads") 1 1)
            (labs_mseq (labs_emAdd ("store 0") 0 1) (labs_emAdd ("retsub") 0 0)))) s5 st2 hrest5
      refine ⟨funcPrologue nd.getName sc.getNumSymbols ++ δp ++ δs ++ δb
        ++ [Line.lab (nd.getName ++ "-cleanup")] ++ δe, ?_, ?_⟩
      · rw [hδe, hs5]
        simp only [GenSt.lines]
        rw [hδb, hδs, hδp, hl1]
        simp [List.append_assoc]
      · intro s hs
        simp only [List.append_assoc, List.mem_append] at hs
        rcases hs with h1 | h2 | h3 | h4 | h5 | h6
        · exact Or.inl (funcPrologue_labels _ _ _ h1)
        · exact Or.inr (Or.inr (hlp s h2))
        · exact Or.inr (Or.inr (hls s h3))
        · exact Or.inr (Or.inr (hlb s h4))
        · rcases List.mem_singleton.1 h5 with h7
          cases h7
          exact Or.inr (Or.inl rfl)
        · exact Or.inr (Or.inr (hle s h6))

end Aqua

namespace Aqua

theorem runFuncSeq_labels (fuel : Nat) : ∀ (fns : List ASTNode) (st : GenSt)
    (fns' : List ASTNode) (st' : GenSt),
    runFuncSeq (generateFunctionCodeF fuel) fns st = .ok (fns', st') →
    ∃ Δ, st'.lines = st.lines ++ Δ ∧
      ∀ s, Line.lab s ∈ Δ →
        (∃ f, f ∈ fns ∧ (s = f.getName ∨ s = f.getName ++ "-cleanup")) ∨ ctrlShape s := by
  intro fns
  induction fns with
  | nil =>
    intro st fns' st' h
    simp only [runFuncSeq] at h
    cases h
    exact ⟨[], by simp, fun s hs => absurd hs (List.not_mem_nil _)⟩
  | cons f fs ih =>
    intro st fns' st' h
    simp only [runFuncSeq] at h
    split at h
    · cases h
    next f1 st1 heq1 =>
      split at h
      · cases h
      next fs1 st2 heq2 =>
        cases h
        obtain ⟨δ1, hδ1, hl1⟩ := generateFunctionCodeF_labels fuel f st (f1, st1) heq1
        obtain ⟨Δ, hΔ, hl2⟩ := ih st1 fs1 _ heq2
        refine ⟨δ1 ++ Δ, by rw [hΔ, hδ1, List.append_assoc], fun s hs => ?_⟩
        rcases List.mem_append.1 hs with h1 | h2
        · rcases hl1 s h1 with h3 | h3 | h3
          · exact Or.inl ⟨f, List.mem_cons_self f fs, Or.inl h3⟩
          · exact Or.inl ⟨f, List.mem_cons_self f fs, Or.inr h3⟩
          · exact Or.inr h3
        · rcases hl2 s h2 with ⟨g, hg, h3⟩ | h3
          · exact Or.inl ⟨g, List.mem_cons_of_mem f hg, h3⟩
          · exact Or.inr h3

theorem generateCode_no_fn (ast : ASTNode) (st0 : GenSt) (fns' : List ASTNode) (st' : GenSt)
    (h0 : (collectFunctions ast).length = 0)
    (hok : generateCode ast st0 = .ok (fns', st')) :
    fns' = [] ∧
    genF (sizeN ast + 1) ast { st0 with inFunction := false, curFunction := none } =
      .ok st' := by
  unfold generateCode generateCodeF at hok
  have hng : ¬ ((collectFunctions ast).length > 0) := by omega
  simp only [if_neg hng, mseq, mId] at hok
  split at hok
  · cases hok
  next st1 heq =>
    cases hok
    exact ⟨rfl, heq⟩

theorem generateCode_with_fns (ast : ASTNode) (st0 : GenSt) (fns' : List ASTNode)
    (st' : GenSt) (h0 : (collectFunctions ast).length > 0)
    (hok : generateCode ast st0 = .ok (fns', st')) :
    ∃ st1, genF (sizeN ast + 1) ast
        { st0 with lines := st0.lines ++ bootLines, inFunction := false,
                   curFunction := none } = .ok st1 ∧
      genSecondPass (sizeN ast + 1) (collectFunctions ast) st1 = .ok (fns', st') := by
  unfold generateCode generateCodeF at hok
  simp only [if_pos h0] at hok
  split at hok
  · cases hok
  next st1 heq =>
    obtain ⟨sB, hB, hG⟩ := mseq_eq_ok.1 heq
    have hsB := bootstrapM_parts_full _ _ hB
    subst hsB
    exact ⟨st1, hG, hok⟩

theorem genSecondPass_decomp (fuel : Nat) (fns : List ASTNode) (st1 : GenSt)
    (fns' : List ASTNode) (st' : GenSt)
    (h : genSecondPass fuel fns st1 = .ok (fns', st')) :
    ∃ st3, runFuncSeq (generateFunctionCodeF fuel) fns
        { st1 with lines := st1.lines ++ [Line.instr ("b program_end")],
                   inFunction := true } = .ok (fns', st3) ∧
      st' = { st3 with lines := st3.lines ++ [Line.blank, Line.lab ("program_end")] } := by
  unfold genSecondPass at h
  split at h
  · cases h
  next st2 hem =>
    unfold emAdd at hem
    split at hem
    · cases hem
    cases hem
    simp only [add_zero, sub_zero] at h
    split at h
    · cases h
    next fns2 st3 heq =>
      simp only [mseq, emSection, emLabel] at h
      cases h
      exact ⟨st3, heq, by simp⟩

end Aqua

namespace Aqua

/-- Claim C2 (amended): when the program declares at least one function and
no collected function is named `program_end`, the output starts with the
stack-pointer bootstrap (whose instruction lines are `int <MAX_SCRATCH>`
then `store 0`, the first instructions of the output), the collected
function bodies all appear after the unconditional `b program_end`
instruction, and the `program_end` label appears exactly once, at the very
end; when no function is declared, the run adds nothing to the plain
globals-pass output and no `program_end` label is emitted. -/
theorem c2_bootstrap_and_program_end
    (ast : ASTNode) (st0 : GenSt) (fns' : List ASTNode) (st' : GenSt)
    (h0 : st0.lines = [])
    (hok : generateCode ast st0 = .ok (fns', st')) :
    ((collectFunctions ast).length > 0 →
      (∀ f, f ∈ collectFunctions ast → f.getName ≠ "program_end") →
      ∃ δg Δ,
        st'.lines = bootLines ++ (δg ++ ([Line.instr ("b program_end")] ++ (Δ
          ++ [Line.blank, Line.lab ("program_end")]))) ∧
        (∃ rest, st'.lines.filter lineIsInstr =
          [Line.instr ("int " ++ natStr MAX_SCRATCH), Line.instr ("store 0")] ++ rest) ∧
        st'.lines.count (Line.lab ("program_end")) = 1) ∧
    ((collectFunctions ast).length = 0 →
      fns' = [] ∧
      genF (sizeN ast + 1) ast { st0 with inFunction := false, curFunction := none } =
        .ok st' ∧
      st'.lines.count (Line.lab ("program_end")) = 0) := by
  constructor
  · intro hfn hname
    obtain ⟨st1, hgf, hsp⟩ := generateCode_with_fns ast st0 fns' st' hfn hok
    obtain ⟨δg, hδg, hlg⟩ := labs_genF (sizeN ast + 1) ast _ st1 hgf
    obtain ⟨st3, hrun, hst⟩ := genSecondPass_decomp _ _ _ _ _ hsp
    obtain ⟨Δ, hΔ, hlΔ⟩ := runFuncSeq_labels _ _ _ _ _ hrun
    have hlines : st'.lines = bootLines ++ (δg ++ ([Line.instr ("b program_end")] ++ (Δ
        ++ [Line.blank, Line.lab ("program_end")]))) := by
      rw [hst]
      simp only [GenSt.lines]
      rw [hΔ]
      simp only [GenSt.lines]
      rw [hδg]
      simp only [GenSt.lines]
      rw [h0]
      simp [List.append_assoc]
    refine ⟨δg, Δ, hlines, ?_, ?_⟩
    · refine ⟨(δg ++ ([Line.instr ("b program_end")] ++ (Δ
        ++ [Line.blank, Line.lab ("program_end")]))).filter lineIsInstr, ?_⟩
      rw [hlines, List.filter_append]
      rw [show bootLines.filter lineIsInstr =
        [Line.instr ("int " ++ natStr MAX_SCRATCH), Line.instr ("store 0")] from rfl]
    · rw [hlines]
      simp only [List.count_append]
      have c1 : bootLines.count (Line.lab ("program_end")) = 0 := rfl
      have c2 : δg.count (Line.lab ("program_end")) = 0 := by
        rw [List.count_eq_zero]
        intro hmem
        exact ctrlShape_ne_program_end _ (hlg _ hmem) rfl
      have c3 : Δ.count (Line.lab ("program_end")) = 0 := by
        rw [List.count_eq_zero]
        intro hmem
        rcases hlΔ _ hmem with ⟨f, hf, hcase⟩ | hctrl
        · rcases hcase with h | h
          · exact hname f hf h.symm
          · exact cleanup_ne_program_end f.getName h.symm
        · exact ctrlShape_ne_program_end _ hctrl rfl
      rw [c1, c2, c3]
      decide
  · intro hz
    obtain ⟨hfns, hgf⟩ := generateCode_no_fn ast st0 fns' st' hz hok
    refine ⟨hfns, hgf, ?_⟩
    obtain ⟨δg, hδg, hlg⟩ := labs_genF (sizeN ast + 1) ast _ st' hgf
    rw [hδg]
    simp only [GenSt.lines]
    rw [h0]
    simp only [List.nil_append]
    rw [List.count_eq_zero]
    intro hmem
    exact ctrlShape_ne_program_end _ (hlg _ hmem) rfl

end Aqua

namespace Aqua

/-- Claim C2 counterexample: a function named `program_end` makes the
`program_end` label appear twice in the output (once as the function's
entry label, once as the final label). -/
theorem c2_counterexample :
    ∃ fns' st', generateCode
      (.node { nodeType := "block-statement" }
        [.node { nodeType := "function-declaration", name := some ("program_end"),
                 scope := some (.mk [] none) } []
          (some (.node { nodeType := "number", value := some ("1") } []
            none none none none none none))
          none none none none none] none none none none none none) initState =
      .ok (fns', st') ∧
      st'.lines.count (Line.lab ("program_end")) = 2 := by
  have hgf : ∀ st, genF 5 (.node { nodeType := "block-statement" } [.node { nodeType := "function-declaration", name := some ("program_end"), scope := some (.mk [] none) } [] (some (.node { nodeType := "number", value := some ("1") } [] none none none none none none)) none none none none none] none none none none none none) st = .ok st :=
    fun st => rfl
  have hboot : mseq bootstrapM (genF 5 (.node { nodeType := "block-statement" } [.node { nodeType := "function-declaration", name := some ("program_end"), scope := some (.mk [] none) } [] (some (.node { nodeType := "number", value := some ("1") } [] none none none none none none)) none none none none none] none none none none none none)) ⟨[], 0, 0, false, none⟩ = .ok ⟨bootLines, 0, 0, false, none⟩ :=
    mseq_ok_trans (bootstrapM_run _ (by decide)) (hgf _)
  have e1 : funcSetup (.node { nodeType := "function-declaration", name := some ("program_end"), scope := some (.mk [] none) } [] (some (.node { nodeType := "number", value := some ("1") } [] none none none none none none)) none none none none none) ⟨bootLines ++ [Line.instr ("b program_end")], 0, 0, true, some (.node { nodeType := "function-declaration", name := some ("program_end"), scope := some (.mk [] none) } [] (some (.node { nodeType := "number", value := some ("1") } [] none none none none none none)) none none none none none)⟩ = .ok ⟨(bootLines ++ [Line.instr ("b program_end")]) ++ funcPrologue ("program_end") 0, 2, 0, true, some (.node { nodeType := "function-declaration", name := some ("program_end"), scope := some (.mk [] none) } [] (some (.node { nodeType := "number", value := some ("1") } [] none none none none none none)) none none none none none)⟩ :=
    funcSetup_run _ (.mk [] none) _ rfl (by decide)
  have e2 : funcParams (.node { nodeType := "function-declaration", name := some ("program_end"), scope := some (.mk [] none) } [] (some (.node { nodeType := "number", value := some ("1") } [] none none none none none none)) none none none none none) ⟨(bootLines ++ [Line.instr ("b program_end")]) ++ funcPrologue ("program_end") 0, 2, 0, true, some (.node { nodeType := "function-declaration", name := some ("program_end"), scope := some (.mk [] none) } [] (some (.node { nodeType := "number", value := some ("1") } [] none none none none none none)) none none none none none)⟩ = .ok ⟨(bootLines ++ [Line.instr ("b program_end")]) ++ funcPrologue ("program_end") 0, 2, 0, true, some (.node { nodeType := "function-declaration", name := some ("program_end"), scope := some (.mk [] none) } [] (some (.node { nodeType := "number", value := some ("1") } [] none none none none none none)) none none none none none)⟩ := rfl
  have e3 := funcRest_number_ok 4 (.node { nodeType := "function-declaration", name := some ("program_end"), scope := some (.mk [] none) } [] (some (.node { nodeType := "number", value := some ("1") } [] none none none none none none)) none none none none none) ("1") rfl ⟨(bootLines ++ [Line.instr ("b program_end")]) ++ funcPrologue ("program_end") 0, 2, 0, true, some (.node { nodeType := "function-declaration", name := some ("program_end"), scope := some (.mk [] none) } [] (some (.node { nodeType := "number", value := some ("1") } [] none none none none none none)) none none none none none)⟩ (by decide)
  have hgfc := generateFunctionCodeF_ok 5 (.node { nodeType := "function-declaration", name := some ("program_end"), scope := some (.mk [] none) } [] (some (.node { nodeType := "number", value := some ("1") } [] none none none none none none)) none none none none none) ⟨bootLines ++ [Line.instr ("b program_end")], 0, 0, true, none⟩ _ (mseq_ok_trans e1 (mseq_ok_trans e2 e3))
  have hsp := genSecondPass_ok 5 (.node { nodeType := "function-declaration", name := some ("program_end"), scope := some (.mk [] none) } [] (some (.node { nodeType := "number", value := some ("1") } [] none none none none none none)) none none none none none) ⟨bootLines, 0, 0, false, none⟩ _ _ _ (emAdd_ok _ _ _ _ (by decide)) hgfc
  have hfin := generateCodeF_ok_with_fns 5 (.node { nodeType := "block-statement" } [.node { nodeType := "function-declaration", name := some ("program_end"), scope := some (.mk [] none) } [] (some (.node { nodeType := "number", value := some ("1") } [] none none none none none none)) none none none none none] none none none none none none) initState _ _ (by exact Nat.zero_lt_succ 0) hboot hsp
  exact ⟨_, _, hfin, by decide⟩

theorem c2_witness :
    (∃ fns' st' δg Δ, generateCode
      (.node { nodeType := "block-statement" }
        [.node { nodeType := "function-declaration", name := some ("f"),
                 params := some (["a", "b"]),
                 scope := some (.mk [("a", ⟨"a", .Variable, 1, false⟩),
                                     ("b", ⟨"b", .Variable, 2, false⟩)] none) } []
          (some (.node { nodeType := "number", value := some ("1") } []
            none none none none none none))
          none none none none none] none none none none none none) initState =
        .ok (fns', st') ∧
      st'.lines = bootLines ++ (δg ++ ([Line.instr ("b program_end")] ++ (Δ
        ++ [Line.blank, Line.lab ("program_end")]))) ∧
      st'.lines.count (Line.lab ("program_end")) = 1) ∧
    (∃ fns' st', generateCode
      (.node { nodeType := "number", value := some ("1") } [] none none none none none none)
      initState = .ok (fns', st') ∧ fns' = [] ∧
      st'.lines.count (Line.lab ("program_end")) = 0) := by
  constructor
  · obtain ⟨⟨fns', st'⟩, hok⟩ := c9_run_exists (["a", "b"]) (by decide)
    have h := (c2_bootstrap_and_program_end
      (.node { nodeType := "block-statement" }
        [.node { nodeType := "function-declaration", name := some ("f"),
                 params := some (["a", "b"]),
                 scope := some (.mk [("a", ⟨"a", .Variable, 1, false⟩),
                                     ("b", ⟨"b", .Variable, 2, false⟩)] none) } []
          (some (.node { nodeType := "number", value := some ("1") } []
            none none none none none none))
          none none none none none] none none none none none none)
      initState fns' st' rfl hok).1 (by decide) (by decide)
    obtain ⟨δg, Δ, hl, -, hc⟩ := h
    exact ⟨fns', st', δg, Δ, hok, hl, hc⟩
  · obtain ⟨⟨f2, s2⟩, hok2⟩ : ∃ r, generateCode
        (.node { nodeType := "number", value := some ("1") } []
          none none none none none none) initState = .ok r := ⟨_, rfl⟩
    have h2 := (c2_bootstrap_and_program_end
      (.node { nodeType := "number", value := some ("1") } [] none none none none none none)
      initState f2 s2 rfl hok2).2 (by decide)
    exact ⟨f2, s2, hok2, h2.1, h2.2.2⟩

end Aqua

namespace Aqua

theorem decChars_foldl : ∀ (fuel n : Nat), n < fuel → ∀ acc,
    (decChars fuel n).foldl (fun acc c => acc * 10 + (c.toNat - 48)) acc =
      acc * 10 ^ (decChars fuel n).length + n := by
  intro fuel
  induction fuel with
  | zero => intro n h; exact absurd h (Nat.not_lt_zero _)
  | succ f ih =>
    intro n h acc
    rw [decChars]
    split
    next hlt =>
      have hv10 : ∀ m, m < 10 → (Nat.digitChar m).toNat - 48 = m := by decide
      have hv := hv10 n (by omega)
      simp [List.foldl, hv]
    next hge =>
      have hd : n / 10 < f := by omega
      have hv10 : ∀ m, m < 10 → (Nat.digitChar m).toNat - 48 = m := by decide
      have hv := hv10 (n % 10) (Nat.mod_lt _ (by norm_num))
      rw [List.foldl_append, ih (n / 10) hd acc]
      simp only [List.foldl, List.length_append, List.length_cons, List.length_nil, hv]
      have : acc * 10 ^ ((decChars f (n / 10)).length + (0 + 1)) =
          acc * 10 ^ (decChars f (n / 10)).length * 10 := by
        rw [Nat.zero_add, pow_succ, Nat.mul_assoc]
      rw [this]
      have hnm := Nat.div_add_mod n 10
      ring_nf
      omega

theorem natStr_data_inj (a b : Nat) (h : (natStr a).data = (natStr b).data) : a = b := by
  have ha := decChars_foldl (a + 1) a (Nat.lt_succ_self a) 0
  have hb := decChars_foldl (b + 1) b (Nat.lt_succ_self b) 0
  have hda : (natStr a).data = decChars (a + 1) a := rfl
  have hdb : (natStr b).data = decChars (b + 1) b := rfl
  rw [hda, hdb] at h
  rw [h] at ha
  rw [ha] at hb
  omega

end Aqua

namespace Aqua

theorem bz_else_data (k : Nat) : ("bz " ++ elseLab k).data =
    'b' :: 'z' :: ' ' :: 'e' :: 'l' :: 's' :: 'e' :: '_' :: (natStr k).data := rfl

theorem b_end_data (k : Nat) : ("b " ++ endLab k).data =
    'b' :: ' ' :: 'e' :: 'n' :: 'd' :: '_' :: (natStr k).data := rfl

theorem decChars_reverse (fuel n : Nat) (h : 0 < fuel) :
    ∃ rest, (decChars fuel n).reverse = Nat.digitChar (n % 10) :: rest := by
  cases fuel with
  | zero => exact absurd h (Nat.lt_irrefl 0)
  | succ f =>
    rw [decChars]
    split
    next hlt =>
      refine ⟨[], ?_⟩
      rw [Nat.mod_eq_of_lt hlt]
      rfl
    next hge =>
      exact ⟨(decChars f (n / 10)).reverse, by simp⟩

theorem natStr_reverse (k : Nat) :
    ∃ rest, (natStr k).data.reverse = Nat.digitChar (k % 10) :: rest :=
  decChars_reverse (k + 1) k (Nat.succ_pos k)

theorem safeT_of_head (c : Char) (hc : c ≠ 'b') (t : String) (rest : List Char)
    (ht : t.data = c :: rest) : SafeT t := by
  intro k
  constructor
  · intro he
    have hd := congrArg String.data he
    rw [ht, bz_else_data] at hd
    injection hd with h1 _
    exact hc h1
  · intro he
    have hd := congrArg String.data he
    rw [ht, b_end_data] at hd
    injection hd with h1 _
    exact hc h1

theorem safeT_of_head2 (c2 : Char) (h1 : c2 ≠ 'z') (h2 : c2 ≠ ' ') (t : String)
    (rest : List Char) (ht : t.data = 'b' :: c2 :: rest) : SafeT t := by
  intro k
  constructor
  · intro he
    have hd := congrArg String.data he
    rw [ht, bz_else_data] at hd
    injection hd with _ hd2
    injection hd2 with h3 _
    exact h1 h3
  · intro he
    have hd := congrArg String.data he
    rw [ht, b_end_data] at hd
    injection hd with _ hd2
    injection hd2 with h3 _
    exact h2 h3

theorem safeT_cleanup (nm : String) : SafeT ("b " ++ nm ++ "-cleanup") := by
  intro k
  constructor
  · intro he
    have hd := congrArg String.data he
    rw [bz_else_data] at hd
    rw [show ("b " ++ nm ++ "-cleanup").data =
      'b' :: (' ' :: (nm.data ++ ("-cleanup").data)) from rfl] at hd
    injection hd with _ hd2
    injection hd2 with h3 _
    exact absurd h3 (by decide)
  · intro he
    have hd := congrArg (fun s => s.data.reverse) he
    simp only [data_append, List.reverse_append, List.append_assoc, endLab] at hd
    obtain ⟨rest, hr⟩ := natStr_reverse k
    rw [hr] at hd
    rw [show ("-cleanup").data.reverse = 'p' :: ['u', 'n', 'a', 'e', 'l', 'c', '-'] from rfl]
      at hd
    rw [List.cons_append, List.cons_append] at hd
    injection hd with h1 _
    have hdig : ∀ m, m < 10 → Nat.digitChar m ≠ 'p' := by decide
    exact hdig (k % 10) (Nat.mod_lt _ (by norm_num)) h1.symm

end Aqua

namespace Aqua

theorem bz_loopEnd_data (k1 : Nat) : ("bz " ++ loopEndLab k1).data =
    'b' :: 'z' :: ' ' :: 'l' :: 'o' :: 'o' :: 'p' :: '_' :: 'e' :: 'n' :: 'd' :: '_' ::
      (natStr k1).data := rfl

theorem b_loopStart_data (k1 : Nat) : ("b " ++ loopStartLab k1).data =
    'b' :: ' ' :: 'l' :: 'o' :: 'o' :: 'p' :: '_' :: 's' :: 't' :: 'a' :: 'r' :: 't' :: '_' ::
      (natStr k1).data := rfl

theorem safeT_bz_loopEnd (k1 : Nat) : SafeT ("bz " ++ loopEndLab k1) := by
  intro k
  constructor
  · intro he
    have hd := congrArg String.data he
    rw [bz_loopEnd_data, bz_else_data] at hd
    injection hd with _ hd2
    injection hd2 with _ hd3
    injection hd3 with _ hd4
    injection hd4 with h4 _
    exact absurd h4 (by decide)
  · intro he
    have hd := congrArg String.data he
    rw [bz_loopEnd_data, b_end_data] at hd
    injection hd with _ hd2
    injection hd2 with h2 _
    exact absurd h2 (by decide)

theorem safeT_b_loopStart (k1 : Nat) : SafeT ("b " ++ loopStartLab k1) := by
  intro k
  constructor
  · intro he
    have hd := congrArg String.data he
    rw [b_loopStart_data, bz_else_data] at hd
    injection hd with _ hd2
    injection hd2 with h2 _
    exact absurd h2 (by decide)
  · intro he
    have hd := congrArg String.data he
    rw [b_loopStart_data, b_end_data] at hd
    injection hd with _ hd2
    injection hd2 with _ hd3
    injection hd3 with h3 _
    exact absurd h3 (by decide)

theorem elseLab_data (k : Nat) : (elseLab k).data =
    'e' :: 'l' :: 's' :: 'e' :: '_' :: (natStr k).data := rfl

theorem endLab_data (k : Nat) : (endLab k).data =
    'e' :: 'n' :: 'd' :: '_' :: (natStr k).data := rfl

theorem loopStartLab_data (k : Nat) : (loopStartLab k).data =
    'l' :: 'o' :: 'o' :: 'p' :: '_' :: 's' :: 't' :: 'a' :: 'r' :: 't' :: '_' ::
      (natStr k).data := rfl

theorem loopEndLab_data (k : Nat) : (loopEndLab k).data =
    'l' :: 'o' :: 'o' :: 'p' :: '_' :: 'e' :: 'n' :: 'd' :: '_' :: (natStr k).data := rfl

theorem elseLab_ne_endLab (a b : Nat) : elseLab a ≠ endLab b := by
  intro he
  have hd := congrArg String.data he
  rw [elseLab_data, endLab_data] at hd
  injection hd with _ hd2
  injection hd2 with h2 _
  exact absurd h2 (by decide)

theorem loopStartLab_ne_elseLab (a b : Nat) : loopStartLab a ≠ elseLab b := by
  intro he
  have hd := congrArg String.data he
  rw [loopStartLab_data, elseLab_data] at hd
  injection hd with h1 _
  exact absurd h1 (by decide)

theorem loopStartLab_ne_endLab (a b : Nat) : loopStartLab a ≠ endLab b := by
  intro he
  have hd := congrArg String.data he
  rw [loopStartLab_data, endLab_data] at hd
  injection hd with h1 _
  exact absurd h1 (by decide)

theorem loopEndLab_ne_elseLab (a b : Nat) : loopEndLab a ≠ elseLab b := by
  intro he
  have hd := congrArg String.data he
  rw [loopEndLab_data, elseLab_data] at hd
  injection hd with h1 _
  exact absurd h1 (by decide)

theorem loopEndLab_ne_endLab (a b : Nat) : loopEndLab a ≠ endLab b := by
  intro he
  have hd := congrArg String.data he
  rw [loopEndLab_data, endLab_data] at hd
  injection hd with h1 _
  exact absurd h1 (by decide)

theorem elseLab_inj (a b : Nat) (h : elseLab a = elseLab b) : a = b := by
  have hd := congrArg String.data h
  rw [elseLab_data, elseLab_data] at hd
  injection hd with _ hd2
  injection hd2 with _ hd3
  injection hd3 with _ hd4
  injection hd4 with _ hd5
  injection hd5 with _ hd6
  exact natStr_data_inj a b hd6

theorem endLab_inj (a b : Nat) (h : endLab a = endLab b) : a = b := by
  have hd := congrArg String.data h
  rw [endLab_data, endLab_data] at hd
  injection hd with _ hd2
  injection hd2 with _ hd3
  injection hd3 with _ hd4
  injection hd4 with _ hd5
  exact natStr_data_inj a b hd5

theorem bz_else_inj (a b : Nat) (h : "bz " ++ elseLab a = "bz " ++ elseLab b) : a = b := by
  have hd := congrArg String.data h
  rw [bz_else_data, bz_else_data] at hd
  injection hd with _ hd2
  injection hd2 with _ hd3
  injection hd3 with _ hd4
  injection hd4 with _ hd5
  injection hd5 with _ hd6
  injection hd6 with _ hd7
  injection hd7 with _ hd8
  injection hd8 with _ hd9
  exact natStr_data_inj a b hd9

theorem b_end_inj (a b : Nat) (h : "b " ++ endLab a = "b " ++ endLab b) : a = b := by
  have hd := congrArg String.data h
  rw [b_end_data, b_end_data] at hd
  injection hd with _ hd2
  injection hd2 with _ hd3
  injection hd3 with _ hd4
  injection hd4 with _ hd5
  injection hd5 with _ hd6
  injection hd6 with _ hd7
  exact natStr_data_inj a b hd7

theorem bz_else_ne_b_end (a b : Nat) : "bz " ++ elseLab a ≠ "b " ++ endLab b := by
  intro he
  have hd := congrArg String.data he
  rw [bz_else_data, b_end_data] at hd
  injection hd with _ hd2
  injection hd2 with h2 _
  exact absurd h2 (by decide)

end Aqua

namespace Aqua

theorem cleanN_node_eq (d : NodeData) (cs : List ASTNode)
    (body ifb elseb init asg : Option ASTNode) (fargs : Option (List ASTNode)) :
    cleanN (.node d cs body ifb elseb init asg fargs) =
      ((if d.nodeType = "operation" then cleanText (opText d) else true) &&
        cleanL cs && cleanO body && cleanO ifb && cleanO elseb &&
        cleanO init && cleanO asg &&
        (match fargs with | some l => cleanL l | none => true)) := by
  rw [cleanN.eq_def]

theorem cleanL_cons_eq (x : ASTNode) (xs : List ASTNode) :
    cleanL (x :: xs) = (cleanN x && cleanL xs) := by
  rw [cleanL.eq_def]

theorem cleanO_some_eq (x : ASTNode) : cleanO (some x) = cleanN x := by
  rw [cleanO.eq_def]

theorem cleanO_none_eq : cleanO none = true := by
  rw [cleanO.eq_def]

theorem cleanL_mem (x : ASTNode) : ∀ (l : List ASTNode), x ∈ l → cleanL l = true →
    cleanN x = true := by
  intro l
  induction l with
  | nil => intro h; cases h
  | cons y ys ih =>
    intro hm hc
    rw [cleanL_cons_eq, Bool.and_eq_true] at hc
    rcases List.mem_cons.1 hm with h1 | h2
    · subst h1; exact hc.1
    · exact ih h2 hc.2

theorem cleanText_spec (s : String) (h : cleanText s = true) : SafeT s := by
  intro k
  simp only [cleanText, Bool.and_eq_true, decide_eq_true_eq] at h
  obtain ⟨h1, h2⟩ := h
  constructor
  · intro he
    apply h1
    rw [he]
    rw [show ("bz " ++ elseLab k).data = ("bz else_").data ++ (natStr k).data from rfl]
    rw [show (8 : Nat) = (("bz else_").data).length from rfl, List.take_left]
  · intro he
    apply h2
    rw [he]
    rw [show ("b " ++ endLab k).data = ("b end_").data ++ (natStr k).data from rfl]
    rw [show (6 : Nat) = (("b end_").data).length from rfl, List.take_left]

end Aqua

namespace Aqua

theorem ctrl_mId : CtrlRange mId := by
  intro st st' h
  cases h
  exact ⟨Nat.le_refl _, [], by simp, fun k hk => by
    rcases hk with h | h | h | h <;> exact absurd h (List.not_mem_nil _)⟩

theorem ctrl_mFail : CtrlRange mFail := by
  intro st st' h
  cases h

theorem ctrl_emResetStack : CtrlRange emResetStack := by
  intro st st' h
  cases h
  exact ⟨Nat.le_refl _, [], by simp, fun k hk => by
    rcases hk with h | h | h | h <;> exact absurd h (List.not_mem_nil _)⟩

theorem ctrl_emPopAll : CtrlRange emPopAll := by
  intro st st' h
  cases h
  refine ⟨Nat.le_refl _, List.replicate st.depth.toNat (.instr ("pop")), rfl, fun k hk => ?_⟩
  rcases hk with h | h | h | h
  · cases List.eq_of_mem_replicate h
  · cases List.eq_of_mem_replicate h
  · have h1 := List.eq_of_mem_replicate h
    injection h1 with h2
    exact absurd h2.symm ((safeT_of_head 'p' (by decide) ("pop") _ rfl k).1)
  · have h1 := List.eq_of_mem_replicate h
    injection h1 with h2
    exact absurd h2.symm ((safeT_of_head 'p' (by decide) ("pop") _ rfl k).2)

theorem ctrl_emSection (t : Option String) : CtrlRange (emSection t) := by
  intro st st' h
  cases h
  cases t with
  | none =>
    refine ⟨Nat.le_refl _, [.blank], rfl, fun k hk => ?_⟩
    rcases hk with h | h | h | h <;> (rcases List.mem_singleton.1 h with h1; cases h1)
  | some tt =>
    refine ⟨Nat.le_refl _, [.blank, .comment tt], rfl, fun k hk => ?_⟩
    rcases hk with h | h | h | h <;>
      (rcases List.mem_cons.1 h with h1 | h2
       · cases h1
       · rcases List.mem_singleton.1 h2 with h3
         cases h3)

theorem ctrl_emAdd_safe (t : String) (p q : Int) (hs : SafeT t) : CtrlRange (emAdd t p q) := by
  intro st st' h
  unfold emAdd at h
  split at h
  · cases h
  cases h
  refine ⟨Nat.le_refl _, [.instr t], rfl, fun k hk => ?_⟩
  rcases hk with h | h | h | h
  · rcases List.mem_singleton.1 h with h1; cases h1
  · rcases List.mem_singleton.1 h with h1; cases h1
  · rcases List.mem_singleton.1 h with h1
    injection h1 with h2
    exact absurd h2.symm (hs k).1
  · rcases List.mem_singleton.1 h with h1
    injection h1 with h2
    exact absurd h2.symm (hs k).2

theorem ctrl_mseq {f g : M} (hf : CtrlRange f) (hg : CtrlRange g) : CtrlRange (mseq f g) := by
  intro st st' h
  obtain ⟨s1, h1, h2⟩ := mseq_eq_ok.1 h
  obtain ⟨hm1, δ1, hδ1, hr1⟩ := hf st s1 h1
  obtain ⟨hm2, δ2, hδ2, hr2⟩ := hg s1 st' h2
  refine ⟨Nat.le_trans hm1 hm2, δ1 ++ δ2, by rw [hδ2, hδ1, List.append_assoc], fun k hk => ?_⟩
  have hsplit : (Line.lab (elseLab k) ∈ δ1 ∨ Line.lab (endLab k) ∈ δ1 ∨
      Line.instr ("bz " ++ elseLab k) ∈ δ1 ∨ Line.instr ("b " ++ endLab k) ∈ δ1) ∨
      (Line.lab (elseLab k) ∈ δ2 ∨ Line.lab (endLab k) ∈ δ2 ∨
      Line.instr ("bz " ++ elseLab k) ∈ δ2 ∨ Line.instr ("b " ++ endLab k) ∈ δ2) := by
    rcases hk with h | h | h | h <;> rcases List.mem_append.1 h with h' | h'
    · exact Or.inl (Or.inl h')
    · exact Or.inr (Or.inl h')
    · exact Or.inl (Or.inr (Or.inl h'))
    · exact Or.inr (Or.inr (Or.inl h'))
    · exact Or.inl (Or.inr (Or.inr (Or.inl h')))
    · exact Or.inr (Or.inr (Or.inr (Or.inl h')))
    · exact Or.inl (Or.inr (Or.inr (Or.inr h')))
    · exact Or.inr (Or.inr (Or.inr (Or.inr h')))
  rcases hsplit with hh | hh
  · have := hr1 k hh
    omega
  · have := hr2 k hh
    omega

theorem ctrl_genSeq_mem {f : ASTNode → M} : ∀ (l : List ASTNode),
    (∀ x ∈ l, CtrlRange (f x)) → CtrlRange (genSeq f l) := by
  intro l
  induction l with
  | nil => intro _; exact ctrl_mId
  | cons x xs ih =>
    intro h
    exact ctrl_mseq (h x (List.mem_cons_self x xs))
      (ih (fun y hy => h y (List.mem_cons_of_mem x hy)))

theorem ctrl_ite (c : Prop) [Decidable c] {f g : M} (hf : CtrlRange f) (hg : CtrlRange g) :
    CtrlRange (if c then f else g) := by
  by_cases h : c
  · rw [if_pos h]; exact hf
  · rw [if_neg h]; exact hg

theorem ctrl_assignSeq (s : Sym) : CtrlRange (assignSeq s) := by
  unfold assignSeq
  by_cases h : s.isGlobal
  · rw [if_pos h]
    exact ctrl_mseq (ctrl_emAdd_safe _ _ _ (safeT_of_head 'd' (by decide) _ _ rfl))
      (ctrl_emAdd_safe _ _ _ (safeT_of_head 's' (by decide) _ _ rfl))
  · rw [if_neg h]
    exact ctrl_mseq (ctrl_emAdd_safe _ _ _ (safeT_of_head 'i' (by decide) _ _ rfl))
      (ctrl_mseq (ctrl_emAdd_safe _ _ _ (safeT_of_head 'l' (by decide) _ _ rfl))
        (ctrl_mseq (ctrl_emAdd_safe _ _ _ (safeT_of_head '+' (by decide) _ _ rfl))
          (ctrl_mseq (ctrl_emAdd_safe _ _ _ (safeT_of_head 'd' (by decide) _ _ rfl))
            (ctrl_emAdd_safe _ _ _ (safeT_of_head 's' (by decide) _ _ rfl)))))

theorem ctrl_assignList (l : List Sym) : CtrlRange (assignList l) := by
  induction l with
  | nil => exact ctrl_mId
  | cons s rest ih => exact ctrl_mseq (ctrl_assignSeq s) ih

end Aqua

namespace Aqua

theorem ctrl_genF (fuel : Nat) : ∀ (nd : ASTNode), cleanN nd = true →
    CtrlRange (genF fuel nd) := by
  induction fuel with
  | zero => intro nd _; exact ctrl_mFail
  | succ f ih =>
    intro nd hc
    rw [genF]
    cases nd with
    | node d cs body ifb elseb init asg fargs =>
      rw [cleanN_node_eq] at hc
      simp only [Bool.and_eq_true] at hc
      obtain ⟨⟨⟨⟨⟨⟨⟨hop, hcs⟩, hbody⟩, hifb⟩, helseb⟩, hinit⟩, hasg⟩, hfargs⟩ := hc
      have hrecs : CtrlRange (genSeq (genF f)
          (ASTNode.children (.node d cs body ifb elseb init asg fargs))) :=
        ctrl_genSeq_mem cs (fun x hx => ih x (cleanL_mem x cs hx hcs))
      by_cases h1 : d.nodeType = "number"
      · rw [genBody_eq_number _ (.node d cs body ifb elseb init asg fargs) h1]
        exact ctrl_mseq hrecs (ctrl_emAdd_safe _ _ _ (safeT_of_head 'i' (by decide) _ _ rfl))
      by_cases h2 : d.nodeType = "string-literal"
      · rw [genBody_eq_stringLit _ (.node d cs body ifb elseb init asg fargs) h2]
        exact ctrl_mseq hrecs
          (ctrl_emAdd_safe _ _ _ (safeT_of_head2 'y' (by decide) (by decide) _ _ rfl))
      by_cases h3 : d.nodeType = "operation"
      · rw [genBody_eq_operation _ (.node d cs body ifb elseb init asg fargs) h3]
        rw [if_pos h3] at hop
        exact ctrl_mseq hrecs (ctrl_emAdd_safe _ _ _ (cleanText_spec _ hop))
      by_cases h4 : d.nodeType = "expr-statement"
      · rw [genBody_eq_exprStmt _ (.node d cs body ifb elseb init asg fargs) h4]
        exact ctrl_mseq ctrl_emResetStack (ctrl_mseq hrecs ctrl_emPopAll)
      by_cases h5 : d.nodeType = "return-statement"
      · rw [genBody_eq_returnStmt _ (.node d cs body ifb elseb init asg fargs) h5]
        refine ctrl_mseq ctrl_emResetStack (ctrl_mseq hrecs ?_)
        intro st st' h
        dsimp only at h
        split at h
        · cases hcf : st.curFunction with
          | some fn =>
            rw [hcf] at h
            exact ctrl_emAdd_safe _ _ _ (safeT_cleanup fn.getName) st st' h
          | none =>
            rw [hcf] at h
            cases h
        · exact ctrl_emAdd_safe _ _ _ (safeT_of_head 'r' (by decide) _ _ rfl) st st' h
      by_cases h6 : d.nodeType = "declare-variable"
      · rw [genBody_eq_declareVar _ (.node d cs body ifb elseb init asg fargs) h6]
        refine ctrl_mseq ctrl_emResetStack (ctrl_mseq hrecs (ctrl_mseq ?_ ctrl_emPopAll))
        simp only [initializer_node]
        cases init with
        | none => exact ctrl_mId
        | some i =>
          rw [cleanO_some_eq] at hinit
          exact ih i hinit
      by_cases h7 : d.nodeType = "access-variable"
      · rw [genBody_eq_accessVar _ (.node d cs body ifb elseb init asg fargs) h7]
        refine ctrl_mseq hrecs ?_
        simp only [data_node]
        cases d.symbol with
        | none => exact ctrl_mFail
        | some sy =>
          refine ctrl_ite _ (ctrl_emAdd_safe _ _ _ (safeT_of_head 'l' (by decide) _ _ rfl)) ?_
          exact ctrl_mseq (ctrl_emAdd_safe _ _ _ (safeT_of_head 'l' (by decide) _ _ rfl))
            (ctrl_mseq (ctrl_emAdd_safe _ _ _ (safeT_of_head 'i' (by decide) _ _ rfl))
              (ctrl_mseq (ctrl_emAdd_safe _ _ _ (safeT_of_head '+' (by decide) _ _ rfl))
                (ctrl_emAdd_safe _ _ _ (safeT_of_head 'l' (by decide) _ _ rfl))))
      by_cases h8 : d.nodeType = "assignment-statement"
      · rw [genBody_eq_assignStmt _ (.node d cs body ifb elseb init asg fargs) h8]
        refine ctrl_mseq hrecs ?_
        simp only [data_node]
        cases d.symbol with
        | some sy => exact ctrl_assignSeq sy
        | none =>
          cases d.symbols with
          | some l => exact ctrl_assignList l.reverse
          | none => intro st st' h; cases h
      by_cases h9 : d.nodeType = "if-statement"
      · rw [genBody_eq_ifStmt _ (.node d cs body ifb elseb init asg fargs) h9]
        refine ctrl_mseq hrecs ?_
        intro st st' h
        dsimp only at h
        obtain ⟨s1, hh1, hrest⟩ := mseq_eq_ok.1 h
        obtain ⟨hl1, hc1⟩ := emAdd_parts _ _ _ _ _ hh1
        obtain ⟨s2, hh2, hrest2⟩ := mseq_eq_ok.1 hrest
        have hifC : CtrlRange (match (ASTNode.node d cs body ifb elseb init asg fargs).ifBlock
            with | some b => genF f b | none => mFail) := by
          simp only [ifBlock_node]
          cases ifb with
          | none => exact ctrl_mFail
          | some b =>
            rw [cleanO_some_eq] at hifb
            exact ih b hifb
        obtain ⟨hm2, δif, hδif, hr2⟩ := hifC s1 s2 hh2
        obtain ⟨s3, hh3, hrest3⟩ := mseq_eq_ok.1 hrest2
        obtain ⟨hl3, hc3⟩ := emAdd_parts _ _ _ _ _ hh3
        obtain ⟨s4, hh4, hrest4⟩ := mseq_eq_ok.1 hrest3
        obtain ⟨hl4, hc4⟩ := emLabel_parts _ _ _ hh4
        obtain ⟨s5, hh5, hh6⟩ := mseq_eq_ok.1 hrest4
        have helC : CtrlRange (match (ASTNode.node d cs body ifb elseb init asg fargs).elseBlock
            with | some e => genF f e | none => mId) := by
          simp only [elseBlock_node]
          cases elseb with
          | none => exact ctrl_mId
          | some e =>
            rw [cleanO_some_eq] at helseb
            exact ih e helseb
        obtain ⟨hm5, δel, hδel, hr5⟩ := helC s4 s5 hh5
        obtain ⟨hl6, hc6⟩ := emLabel_parts _ _ _ hh6
        have hcB : s1.controlId = st.controlId + 1 := hc1
        refine ⟨?_, [Line.instr ("bz " ++ elseLab (st.controlId + 1))] ++ δif
          ++ [Line.instr ("b " ++ endLab (st.controlId + 1))]
          ++ [Line.lab (elseLab (st.controlId + 1))] ++ δel
          ++ [Line.lab (endLab (st.controlId + 1))], ?_, ?_⟩
        · omega
        · rw [hl6, hδel, hl4, hl3, hδif, hl1]
          simp [List.append_assoc]
        · intro k hk
          have hmem : Line.lab (elseLab k) ∈ ([Line.instr ("bz " ++ elseLab (st.controlId + 1))] ++ δif
              ++ [Line.instr ("b " ++ endLab (st.controlId + 1))]
              ++ [Line.lab (elseLab (st.controlId + 1))] ++ δel
              ++ [Line.lab (endLab (st.controlId + 1))]) ∨
              Line.lab (endLab k) ∈ ([Line.instr ("bz " ++ elseLab (st.controlId + 1))] ++ δif
              ++ [Line.instr ("b " ++ endLab (st.controlId + 1))]
              ++ [Line.lab (elseLab (st.controlId + 1))] ++ δel
              ++ [Line.lab (endLab (st.controlId + 1))]) ∨
              Line.instr ("bz " ++ elseLab k) ∈ ([Line.instr ("bz " ++ elseLab (st.controlId + 1))] ++ δif
              ++ [Line.instr ("b " ++ endLab (st.controlId + 1))]
              ++ [Line.lab (elseLab (st.controlId + 1))] ++ δel
              ++ [Line.lab (endLab (st.controlId + 1))]) ∨
              Line.instr ("b " ++ endLab k) ∈ ([Line.instr ("bz " ++ elseLab (st.controlId + 1))] ++ δif
              ++ [Line.instr ("b " ++ endLab (st.controlId + 1))]
              ++ [Line.lab (elseLab (st.controlId + 1))] ++ δel
              ++ [Line.lab (endLab (st.controlId + 1))]) := hk
          have hif_hit : ∀ (hit : Line.lab (elseLab k) ∈ δif ∨ Line.lab (endLab k) ∈ δif ∨
              Line.instr ("bz " ++ elseLab k) ∈ δif ∨ Line.instr ("b " ++ endLab k) ∈ δif),
              st.controlId < k ∧ k ≤ st'.controlId := by
            intro hit
            have := hr2 k hit
            omega
          have hel_hit : ∀ (hit : Line.lab (elseLab k) ∈ δel ∨ Line.lab (endLab k) ∈ δel ∨
              Line.instr ("bz " ++ elseLab k) ∈ δel ∨ Line.instr ("b " ++ endLab k) ∈ δel),
              st.controlId < k ∧ k ≤ st'.controlId := by
            intro hit
            have := hr5 k hit
            omega
          have hkself : k = st.controlId + 1 → st.controlId < k ∧ k ≤ st'.controlId := by
            intro hke
            omega
          rcases hmem with hm | hm | hm | hm <;>
            simp only [List.append_assoc, List.mem_append, List.mem_singleton] at hm
          · rcases hm with hx | hx | hx | hx | hx | hx
            · cases hx
            · exact hif_hit (Or.inl hx)
            · cases hx
            · injection hx with hx2
              exact hkself (elseLab_inj _ _ hx2)
            · exact hel_hit (Or.inl hx)
            · injection hx with hx2
              exact absurd hx2 (elseLab_ne_endLab _ _)
          · rcases hm with hx | hx | hx | hx | hx | hx
            · cases hx
            · exact hif_hit (Or.inr (Or.inl hx))
            · cases hx
            · injection hx with hx2
              exact absurd hx2.symm (elseLab_ne_endLab _ _)
            · exact hel_hit (Or.inr (Or.inl hx))
            · injection hx with hx2
              exact hkself (endLab_inj _ _ hx2)
          · rcases hm with hx | hx | hx | hx | hx | hx
            · injection hx with hx2
              exact hkself (bz_else_inj _ _ hx2)
            · exact hif_hit (Or.inr (Or.inr (Or.inl hx)))
            · injection hx with hx2
              exact absurd hx2 (bz_else_ne_b_end _ _)
            · cases hx
            · exact hel_hit (Or.inr (Or.inr (Or.inl hx)))
            · cases hx
          · rcases hm with hx | hx | hx | hx | hx | hx
            · injection hx with hx2
              exact absurd hx2.symm (bz_else_ne_b_end _ _)
            · exact hif_hit (Or.inr (Or.inr (Or.inr hx)))
            · injection hx with hx2
              exact hkself (b_end_inj _ _ hx2)
            · cases hx
            · exact hel_hit (Or.inr (Or.inr (Or.inr hx)))
            · cases hx
      by_cases h10 : d.nodeType = "while-statement"
      · rw [genBody_eq_whileStmt _ (.node d cs body ifb elseb init asg fargs) h10]
        intro st st' h
        dsimp only at h
        obtain ⟨s1, hh1, hrest⟩ := mseq_eq_ok.1 h
        obtain ⟨hl1, hc1⟩ := emLabel_parts _ _ _ hh1
        obtain ⟨s2, hh2, hrest2⟩ := mseq_eq_ok.1 hrest
        obtain ⟨hm2, δc, hδc, hr2⟩ :=
          ctrl_genSeq_mem cs (fun x hx => ih x (cleanL_mem x cs hx hcs)) s1 s2 hh2
        obtain ⟨s3, hh3, hrest3⟩ := mseq_eq_ok.1 hrest2
        obtain ⟨hl3, hc3⟩ := emAdd_parts _ _ _ _ _ hh3
        obtain ⟨s4, hh4, hrest4⟩ := mseq_eq_ok.1 hrest3
        have hbC : CtrlRange (match (ASTNode.node d cs body ifb elseb init asg fargs).body
            with | some b => genF f b | none => mFail) := by
          simp only [body_node]
          cases body with
          | none => exact ctrl_mFail
          | some b =>
            rw [cleanO_some_eq] at hbody
            exact ih b hbody
        obtain ⟨hm4, δb, hδb, hr4⟩ := hbC s3 s4 hh4
        obtain ⟨s5, hh5, hh6⟩ := mseq_eq_ok.1 hrest4
        obtain ⟨hl5, hc5⟩ := emAdd_parts _ _ _ _ _ hh5
        obtain ⟨hl6, hc6⟩ := emLabel_parts _ _ _ hh6
        refine ⟨?_, [Line.lab (loopStartLab (st.controlId + 1))] ++ δc
          ++ [Line.instr ("bz " ++ loopEndLab (st.controlId + 1))] ++ δb
          ++ [Line.instr ("b " ++ loopStartLab (st.controlId + 1))]
          ++ [Line.lab (loopEndLab (st.controlId + 1))], ?_, ?_⟩
        · have hcB : s1.controlId = st.controlId + 1 := hc1
          omega
        · rw [hl6, hl5, hδb, hl3, hδc, hl1]
          simp [List.append_assoc]
        · intro k hk
          have hcB : s1.controlId = st.controlId + 1 := hc1
          have hc_hit : ∀ (hit : Line.lab (elseLab k) ∈ δc ∨ Line.lab (endLab k) ∈ δc ∨
              Line.instr ("bz " ++ elseLab k) ∈ δc ∨ Line.instr ("b " ++ endLab k) ∈ δc),
              st.controlId < k ∧ k ≤ st'.controlId := by
            intro hit
            have := hr2 k hit
            omega
          have hb_hit : ∀ (hit : Line.lab (elseLab k) ∈ δb ∨ Line.lab (endLab k) ∈ δb ∨
              Line.instr ("bz " ++ elseLab k) ∈ δb ∨ Line.instr ("b " ++ endLab k) ∈ δb),
              st.controlId < k ∧ k ≤ st'.controlId := by
            intro hit
            have := hr4 k hit
            omega
          rcases hk with hm | hm | hm | hm <;>
            simp only [List.append_assoc, List.mem_append, List.mem_singleton] at hm
          · rcases hm with hx | hx | hx | hx | hx | hx
            · injection hx with hx2
              exact absurd hx2.symm (loopStartLab_ne_elseLab _ _)
            · exact hc_hit (Or.inl hx)
            · cases hx
            · exact hb_hit (Or.inl hx)
            · cases hx
            · injection hx with hx2
              exact absurd hx2.symm (loopEndLab_ne_elseLab _ _)
          · rcases hm with hx | hx | hx | hx | hx | hx
            · injection hx with hx2
              exact absurd hx2.symm (loopStartLab_ne_endLab _ _)
            · exact hc_hit (Or.inr (Or.inl hx))
            · cases hx
            · exact hb_hit (Or.inr (Or.inl hx))
            · cases hx
            · injection hx with hx2
              exact absurd hx2.symm (loopEndLab_ne_endLab _ _)
          · rcases hm with hx | hx | hx | hx | hx | hx
            · cases hx
            · exact hc_hit (Or.inr (Or.inr (Or.inl hx)))
            · injection hx with hx2
              exact absurd hx2.symm ((safeT_bz_loopEnd (st.controlId + 1) k).1)
            · exact hb_hit (Or.inr (Or.inr (Or.inl hx)))
            · injection hx with hx2
              exact absurd hx2.symm ((safeT_b_loopStart (st.controlId + 1) k).1)
            · cases hx
          · rcases hm with hx | hx | hx | hx | hx | hx
            · cases hx
            · exact hc_hit (Or.inr (Or.inr (Or.inr hx)))
            · injection hx with hx2
              exact absurd hx2.symm ((safeT_bz_loopEnd (st.controlId + 1) k).2)
            · exact hb_hit (Or.inr (Or.inr (Or.inr hx)))
            · injection hx with hx2
              exact absurd hx2.symm ((safeT_b_loopStart (st.controlId + 1) k).2)
            · cases hx
      by_cases h11 : d.nodeType = "function-call"
      · rw [genBody_eq_functionCall _ (.node d cs body ifb elseb init asg fargs) h11]
        have hargsC : CtrlRange (match (ASTNode.node d cs body ifb elseb init asg
            fargs).functionArgs with | some l => genSeq (genF f) l | none => mId) := by
          simp only [functionArgs_node]
          cases fargs with
          | none => exact ctrl_mId
          | some l =>
            refine ctrl_genSeq_mem l (fun x hx => ih x ?_)
            exact cleanL_mem x l hx hfargs
        have hfieldC : CtrlRange (match (ASTNode.node d cs body ifb elseb init asg
            fargs).functionArgs with
            | some (a :: _) =>
              (match a.data.value with
               | some v => emAdd ("itxn_field " ++ unquote v) 0 1
               | none => mFail)
            | _ => mFail) := by
          simp only [functionArgs_node]
          cases fargs with
          | none => exact ctrl_mFail
          | some l =>
            cases l with
            | nil => exact ctrl_mFail
            | cons a rest =>
              show CtrlRange (match a.data.value with
                | some v => emAdd ("itxn_field " ++ unquote v) 0 1
                | none => mFail)
              cases a.data.value with
              | none => exact ctrl_mFail
              | some v =>
                exact ctrl_emAdd_safe _ _ _ (safeT_of_head 'i' (by decide) _ _ rfl)
        refine ctrl_mseq (ctrl_ite _ ctrl_mId hargsC) (ctrl_mseq hrecs ?_)
        refine ctrl_ite _ (ctrl_mseq hargsC (ctrl_mseq
          (ctrl_emAdd_safe _ _ _ (safeT_of_head 'a' (by decide) _ _ rfl))
          (ctrl_emAdd_safe _ _ _ (safeT_of_head 'i' (by decide) _ _ rfl)))) ?_
        refine ctrl_ite _ (ctrl_mseq hargsC
          (ctrl_emAdd_safe _ _ _ (safeT_of_head 'a' (by decide) _ _ rfl))) ?_
        refine ctrl_ite _ (ctrl_mseq hargsC (ctrl_mseq
          (ctrl_emAdd_safe _ _ _ (safeT_of_head 'a' (by decide) _ _ rfl))
          (ctrl_emAdd_safe _ _ _ (safeT_of_head 'i' (by decide) _ _ rfl)))) ?_
        refine ctrl_ite _ (ctrl_mseq hargsC (ctrl_mseq
          (ctrl_emAdd_safe _ _ _ (safeT_of_head 'a' (by decide) _ _ rfl))
          (ctrl_emAdd_safe _ _ _ (safeT_of_head 'i' (by decide) _ _ rfl)))) ?_
        refine ctrl_ite _ (ctrl_mseq hargsC
          (ctrl_emAdd_safe _ _ _ (safeT_of_head 'a' (by decide) _ _ rfl))) ?_
        refine ctrl_ite _ (ctrl_mseq hargsC (ctrl_mseq
          (ctrl_emAdd_safe _ _ _ (safeT_of_head 'a' (by decide) _ _ rfl))
          (ctrl_emAdd_safe _ _ _ (safeT_of_head 'i' (by decide) _ _ rfl)))) ?_
        refine ctrl_ite _ (ctrl_mseq hargsC
          (ctrl_emAdd_safe _ _ _ (safeT_of_head2 't' (by decide) (by decide) _ _ rfl))) ?_
        refine ctrl_ite _ (ctrl_mseq hargsC
          (ctrl_emAdd_safe _ _ _ (safeT_of_head 'i' (by decide) _ _ rfl))) ?_
        refine ctrl_ite _ (ctrl_mseq hargsC
          (ctrl_emAdd_safe _ _ _ (safeT_of_head 'r' (by decide) _ _ rfl))) ?_
        refine ctrl_ite _ (ctrl_mseq
          (ctrl_emAdd_safe _ _ _ (safeT_of_head 'i' (by decide) _ _ rfl))
          (ctrl_emAdd_safe _ _ _ (safeT_of_head 'i' (by decide) _ _ rfl))) ?_
        refine ctrl_ite _ hfieldC ?_
        refine ctrl_ite _ (ctrl_mseq
          (ctrl_emAdd_safe _ _ _ (safeT_of_head 'i' (by decide) _ _ rfl))
          (ctrl_emAdd_safe _ _ _ (safeT_of_head 'i' (by decide) _ _ rfl))) ?_
        exact ctrl_emAdd_safe _ _ _ (safeT_of_head 'c' (by decide) _ _ rfl)
      rw [genBody_eq_default _ (.node d cs body ifb elseb init asg fargs)
        h1 h2 h3 h4 h5 h6 h7 h8 h9 h10 h11]
      exact hrecs

end Aqua

namespace Aqua

/-- C7 (amended): compiling an if-statement node of a tree whose operation
texts never start with "bz else_" or "b end_" appends, after the condition
code, the block  bz else_k / ifBlock code / b end_k / else_k: / elseBlock
code / end_k:  for a freshly minted control id k (strictly above the incoming
control counter and at most the final one), and within that appended block
each of the four lines else_k:, end_k:, bz else_k and b end_k occurs exactly
once; an absent elseBlock contributes no lines between the two labels. -/
theorem c7_if_fresh_k_unique (f : Nat) (d : NodeData) (cs : List ASTNode)
    (body ifb elseb init asg : Option ASTNode) (fargs : Option (List ASTNode))
    (st st' : GenSt)
    (hclean : cleanN (.node d cs body ifb elseb init asg fargs) = true)
    (hT : d.nodeType = "if-statement")
    (hok : genF f (.node d cs body ifb elseb init asg fargs) st = .ok st') :
    ∃ k δall δc δif δel,
      δall = δc ++ [Line.instr ("bz " ++ elseLab k)] ++ δif
        ++ [Line.instr ("b " ++ endLab k)] ++ [Line.lab (elseLab k)] ++ δel
        ++ [Line.lab (endLab k)] ∧
      st'.lines = st.lines ++ δall ∧
      st.controlId < k ∧ k ≤ st'.controlId ∧
      (elseb = none → δel = []) ∧
      List.count (Line.lab (elseLab k)) δall = 1 ∧
      List.count (Line.lab (endLab k)) δall = 1 ∧
      List.count (Line.instr ("bz " ++ elseLab k)) δall = 1 ∧
      List.count (Line.instr ("b " ++ endLab k)) δall = 1 := by
  cases f with
  | zero => rw [genF] at hok; cases hok
  | succ f =>
    rw [genF] at hok
    rw [genBody_eq_ifStmt _ (.node d cs body ifb elseb init asg fargs) hT] at hok
    rw [cleanN_node_eq] at hclean
    simp only [Bool.and_eq_true] at hclean
    obtain ⟨⟨⟨⟨⟨⟨⟨hop, hcs⟩, hbody⟩, hifb⟩, helseb⟩, hinit⟩, hasg⟩, hfargs⟩ := hclean
    obtain ⟨s0, hch, hrest⟩ := mseq_eq_ok.1 hok
    obtain ⟨hm0, δc, hδc, hr0⟩ :=
      ctrl_genSeq_mem cs (fun x hx => ctrl_genF f x (cleanL_mem x cs hx hcs)) st s0 hch
    dsimp only at hrest
    obtain ⟨s1, hh1, hrest1⟩ := mseq_eq_ok.1 hrest
    obtain ⟨hl1x, hc1x⟩ := emAdd_parts _ _ _ _ _ hh1
    have hl1 : s1.lines = s0.lines ++ [Line.instr ("bz " ++ elseLab (s0.controlId + 1))] := hl1x
    have hc1 : s1.controlId = s0.controlId + 1 := hc1x
    obtain ⟨s2, hh2, hrest2⟩ := mseq_eq_ok.1 hrest1
    have hifC : CtrlRange (match (ASTNode.node d cs body ifb elseb init asg fargs).ifBlock
        with | some b => genF f b | none => mFail) := by
      simp only [ifBlock_node]
      cases ifb with
      | none => exact ctrl_mFail
      | some b =>
        rw [cleanO_some_eq] at hifb
        exact ctrl_genF f b hifb
    obtain ⟨hm2, δif, hδif, hr2⟩ := hifC s1 s2 hh2
    obtain ⟨s3, hh3, hrest3⟩ := mseq_eq_ok.1 hrest2
    obtain ⟨hl3, hc3⟩ := emAdd_parts _ _ _ _ _ hh3
    obtain ⟨s4, hh4, hrest4⟩ := mseq_eq_ok.1 hrest3
    obtain ⟨hl4, hc4⟩ := emLabel_parts _ _ _ hh4
    obtain ⟨s5, hh5, hh6⟩ := mseq_eq_ok.1 hrest4
    simp only [elseBlock_node] at hh5
    obtain ⟨hl6, hc6⟩ := emLabel_parts _ _ _ hh6
    have hel : ∃ δel, s5.lines = s4.lines ++ δel ∧ s4.controlId ≤ s5.controlId ∧
        (∀ k, (Line.lab (elseLab k) ∈ δel ∨ Line.lab (endLab k) ∈ δel ∨
          Line.instr ("bz " ++ elseLab k) ∈ δel ∨
          Line.instr ("b " ++ endLab k) ∈ δel) →
          s4.controlId < k ∧ k ≤ s5.controlId) ∧
        (elseb = none → δel = []) := by
      cases elseb with
      | none =>
        cases hh5
        exact ⟨[], by simp, le_refl _,
          (fun k hk => by rcases hk with hx | hx | hx | hx <;> cases hx),
          fun _ => rfl⟩
      | some e =>
        rw [cleanO_some_eq] at helseb
        obtain ⟨hm5, δel, hδel, hr5⟩ := ctrl_genF f e helseb s4 s5 hh5
        exact ⟨δel, hδel, hm5, hr5, fun hcon => absurd hcon (Option.some_ne_none e)⟩
    obtain ⟨δel, hδel, hm5, hr5, helnone⟩ := hel
    refine ⟨s0.controlId + 1, δc ++ [Line.instr ("bz " ++ elseLab (s0.controlId + 1))] ++ δif
      ++ [Line.instr ("b " ++ endLab (s0.controlId + 1))]
      ++ [Line.lab (elseLab (s0.controlId + 1))] ++ δel
      ++ [Line.lab (endLab (s0.controlId + 1))], δc, δif, δel, rfl, ?_, ?_, ?_, helnone,
      ?_, ?_, ?_, ?_⟩
    · rw [hl6, hδel, hl4, hl3, hδif, hl1, hδc]
      simp [List.append_assoc]
    · omega
    · have hst' : st'.controlId = s5.controlId := hc6
      have hs4 : s4.controlId = s3.controlId := hc4
      have hs3 : s3.controlId = s2.controlId := hc3
      omega
    · have e1 : List.count (Line.lab (elseLab (s0.controlId + 1))) δc = 0 :=
        List.count_eq_zero.2 (fun hmem => by have := hr0 _ (Or.inl hmem); omega)
      have e2 : List.count (Line.lab (elseLab (s0.controlId + 1))) δif = 0 :=
        List.count_eq_zero.2 (fun hmem => by have := hr2 _ (Or.inl hmem); omega)
      have e3 : List.count (Line.lab (elseLab (s0.controlId + 1))) δel = 0 := by
        refine List.count_eq_zero.2 (fun hmem => ?_)
        have := hr5 _ (Or.inl hmem)
        have hs4 : s4.controlId = s3.controlId := hc4
        have hs3 : s3.controlId = s2.controlId := hc3
        omega
      simp [List.count_append, e1, e2, e3, elseLab_ne_endLab]
    · have e1 : List.count (Line.lab (endLab (s0.controlId + 1))) δc = 0 :=
        List.count_eq_zero.2 (fun hmem => by have := hr0 _ (Or.inr (Or.inl hmem)); omega)
      have e2 : List.count (Line.lab (endLab (s0.controlId + 1))) δif = 0 :=
        List.count_eq_zero.2 (fun hmem => by have := hr2 _ (Or.inr (Or.inl hmem)); omega)
      have e3 : List.count (Line.lab (endLab (s0.controlId + 1))) δel = 0 := by
        refine List.count_eq_zero.2 (fun hmem => ?_)
        have := hr5 _ (Or.inr (Or.inl hmem))
        have hs4 : s4.controlId = s3.controlId := hc4
        have hs3 : s3.controlId = s2.controlId := hc3
        omega
      have hne : endLab (s0.controlId + 1) ≠ elseLab (s0.controlId + 1) :=
        fun hcon => absurd hcon.symm (elseLab_ne_endLab _ _)
      simp [List.count_append, e1, e2, e3, hne]
    · have e1 : List.count (Line.instr ("bz " ++ elseLab (s0.controlId + 1))) δc = 0 :=
        List.count_eq_zero.2
          (fun hmem => by have := hr0 _ (Or.inr (Or.inr (Or.inl hmem))); omega)
      have e2 : List.count (Line.instr ("bz " ++ elseLab (s0.controlId + 1))) δif = 0 :=
        List.count_eq_zero.2
          (fun hmem => by have := hr2 _ (Or.inr (Or.inr (Or.inl hmem))); omega)
      have e3 : List.count (Line.instr ("bz " ++ elseLab (s0.controlId + 1))) δel = 0 := by
        refine List.count_eq_zero.2 (fun hmem => ?_)
        have := hr5 _ (Or.inr (Or.inr (Or.inl hmem)))
        have hs4 : s4.controlId = s3.controlId := hc4
        have hs3 : s3.controlId = s2.controlId := hc3
        omega
      simp [List.count_append, e1, e2, e3, bz_else_ne_b_end]
    · have e1 : List.count (Line.instr ("b " ++ endLab (s0.controlId + 1))) δc = 0 :=
        List.count_eq_zero.2
          (fun hmem => by have := hr0 _ (Or.inr (Or.inr (Or.inr hmem))); omega)
      have e2 : List.count (Line.instr ("b " ++ endLab (s0.controlId + 1))) δif = 0 :=
        List.count_eq_zero.2
          (fun hmem => by have := hr2 _ (Or.inr (Or.inr (Or.inr hmem))); omega)
      have e3 : List.count (Line.instr ("b " ++ endLab (s0.controlId + 1))) δel = 0 := by
        refine List.count_eq_zero.2 (fun hmem => ?_)
        have := hr5 _ (Or.inr (Or.inr (Or.inr hmem)))
        have hs4 : s4.controlId = s3.controlId := hc4
        have hs3 : s3.controlId = s2.controlId := hc3
        omega
      have hne : ("b " ++ endLab (s0.controlId + 1)) ≠ ("bz " ++ elseLab (s0.controlId + 1)) :=
        fun hcon => absurd hcon.symm (bz_else_ne_b_end _ _)
      simp [List.count_append, e1, e2, e3, hne]

end Aqua

namespace Aqua

/-- Claim C7 counterexample: an operation node whose opcode text is the
literal string `bz else_1`, followed by an if-statement that mints control
id 1, yields an output containing the instruction `bz else_1` twice, so the
`bz else_<k>` instruction of a compiled if-statement is not unique in the
output without a cleanliness assumption on operation texts. -/
theorem c7_counterexample :
    ∃ st', internalGenerateCode
      (.node { nodeType := "block-statement" }
        [.node { nodeType := "operation", opcode := some ("bz else_1"),
                 numItemsAdded := some 1, numItemsRemoved := some 0 } []
          none none none none none none,
         .node { nodeType := "if-statement" } [] none
           (some (.node { nodeType := "number", value := some ("1") } []
             none none none none none none)) none none none none]
        none none none none none none) initState = .ok st' ∧
      List.count (Line.instr ("bz " ++ elseLab 1)) st'.lines = 2 :=
  ⟨_, rfl, by decide⟩

/-- Claim C7 witness: the amended theorem applied to a concrete if-statement
node (condition-free, ifBlock a number literal, no elseBlock) compiled from
the initial state. -/
theorem c7_witness :
    cleanN (.node { nodeType := "if-statement" } [] none
      (some (.node { nodeType := "number", value := some ("1") } []
        none none none none none none)) none none none none) = true ∧
    ({ nodeType := "if-statement" } : NodeData).nodeType = "if-statement" ∧
    genF 2 (.node { nodeType := "if-statement" } [] none
      (some (.node { nodeType := "number", value := some ("1") } []
        none none none none none none)) none none none none) ⟨[], 1, 0, false, none⟩ =
      .ok ⟨[Line.instr ("bz else_1"), Line.instr ("int 1"),
            Line.instr ("b end_1"), Line.lab ("else_1"), Line.lab ("end_1")],
           1, 1, false, none⟩ ∧
    (∃ k δall δc δif δel,
      δall = δc ++ [Line.instr ("bz " ++ elseLab k)] ++ δif
        ++ [Line.instr ("b " ++ endLab k)] ++ [Line.lab (elseLab k)] ++ δel
        ++ [Line.lab (endLab k)] ∧
      (GenSt.mk [Line.instr ("bz else_1"), Line.instr ("int 1"),
            Line.instr ("b end_1"), Line.lab ("else_1"), Line.lab ("end_1")]
           1 1 false none).lines = (GenSt.mk [] 1 0 false none).lines ++ δall ∧
      (GenSt.mk [] 1 0 false none).controlId < k ∧
      k ≤ (GenSt.mk [Line.instr ("bz else_1"), Line.instr ("int 1"),
            Line.instr ("b end_1"), Line.lab ("else_1"), Line.lab ("end_1")]
           1 1 false none).controlId ∧
      ((none : Option ASTNode) = none → δel = []) ∧
      List.count (Line.lab (elseLab k)) δall = 1 ∧
      List.count (Line.lab (endLab k)) δall = 1 ∧
      List.count (Line.instr ("bz " ++ elseLab k)) δall = 1 ∧
      List.count (Line.instr ("b " ++ endLab k)) δall = 1) :=
  ⟨rfl, rfl, rfl,
    c7_if_fresh_k_unique 2 { nodeType := "if-statement" } [] none
      (some (.node { nodeType := "number", value := some ("1") } []
        none none none none none none)) none none none none ⟨[], 1, 0, false, none⟩
      ⟨[Line.instr ("bz else_1"), Line.instr ("int 1"),
        Line.instr ("b end_1"), Line.lab ("else_1"), Line.lab ("end_1")],
       1, 1, false, none⟩ rfl rfl rfl⟩

end Aqua
